import Mathlib

set_option maxHeartbeats 1000000

/-!
# Verification of the todo-list synchronization engine

Shallow embedding of the synchronization engine of this repository:
`SyncService` (outbound event handlers and the inbound reconciler
`syncFromExternal`), the `SyncConsumer` channel boundary, and the local CRUD
mutation sites (`TodosService`; the list-level CRUD service is not in the
sources and is modelled from the spec).  The remote HTTP system is modelled
from the spec's interface description (section 6).

Conventions of the embedding:
* TypeScript string truthiness on nullable string columns (`null`/`undefined`
  and `""` are falsy) is modelled by `strFalsy` on `Option String`.
* JS `Number.prototype.toString` and `parseInt(s, 10)` are modelled by
  `natToStr` / `parseIntTS` (decimal digits; `parseIntTS` takes the longest
  digit prefix and is `none` when that prefix is empty, mirroring `NaN`).
* Repository `save` is an upsert keyed on `id`; freshly created records take
  the store's next auto-increment id.
-/

namespace TodoSync

/-- TS truthiness for a nullable string column: `null`/`undefined` and the
empty string are falsy. -/
def strFalsy : Option String → Bool
  | none => true
  | some s => s == ""

/-- TS truthiness (positive form). -/
def truthy (o : Option String) : Bool := !strFalsy o

theorem truthy_some_of_ne {s : String} (h : s ≠ "") : truthy (some s) = true := by
  simp [truthy, strFalsy, h]

theorem truthy_none : truthy none = false := rfl

theorem ne_empty_of_truthy {o : Option String} (h : truthy o = true) :
    ∃ s, o = some s ∧ s ≠ "" := by
  cases o with
  | none => simp [truthy, strFalsy] at h
  | some s =>
    refine ⟨s, rfl, ?_⟩
    simp [truthy, strFalsy] at h
    exact h

/-- Decimal digit character (for digits `0`-`9`). -/
def digitChar : Nat → Char
  | 0 => '0' | 1 => '1' | 2 => '2' | 3 => '3' | 4 => '4'
  | 5 => '5' | 6 => '6' | 7 => '7' | 8 => '8' | _ => '9'

/-- Value of a decimal digit character; `none` for non-digits. -/
def charVal (c : Char) : Option Nat :=
  if 48 ≤ c.toNat ∧ c.toNat ≤ 57 then some (c.toNat - 48) else none

theorem charVal_digitChar {d : Nat} (h : d < 10) : charVal (digitChar d) = some d := by
  interval_cases d <;> rfl

/-- Little-endian decimal digits of `n`, with explicit fuel (structural
recursion so the kernel can evaluate it). -/
def digitsRev : Nat → Nat → List Nat
  | 0, _ => []
  | f + 1, n => if n = 0 then [] else n % 10 :: digitsRev f (n / 10)

/-- Value of a little-endian digit list. -/
def ofDigitsRev : List Nat → Nat
  | [] => 0
  | d :: ds => d + 10 * ofDigitsRev ds

theorem ofDigitsRev_digitsRev {f n : Nat} (h : n ≤ f) :
    ofDigitsRev (digitsRev f n) = n := by
  induction f generalizing n with
  | zero => interval_cases n; rfl
  | succ f ih =>
    by_cases hn : n = 0
    · subst hn; simp [digitsRev, ofDigitsRev]
    · have hlt : n / 10 < n := Nat.div_lt_self (Nat.pos_of_ne_zero hn) (by omega)
      have : n / 10 ≤ f := by omega
      simp only [digitsRev, hn, if_false, ofDigitsRev, ih this]
      omega

theorem digitsRev_lt {f n d : Nat} (h : d ∈ digitsRev f n) : d < 10 := by
  induction f generalizing n with
  | zero => simp [digitsRev] at h
  | succ f ih =>
    by_cases hn : n = 0
    · simp [digitsRev, hn] at h
    · simp only [digitsRev, hn, if_false, List.mem_cons] at h
      rcases h with h | h
      · subst h; exact Nat.mod_lt _ (by omega)
      · exact ih h

/-- Model of JS `n.toString()` for the nonnegative integers used as ids. -/
def natToStr (n : Nat) : String :=
  if n = 0 then "0" else String.mk (((digitsRev n n).map digitChar).reverse)

/-- Model of JS `parseInt(s, 10)`: longest digit prefix, `none` (`NaN`) when
that prefix is empty.  (Leading whitespace / sign handling is irrelevant for
the source-identifier strings this system produces.) -/
def parseIntTS (s : String) : Option Nat :=
  let ds := s.data.takeWhile (fun c => (charVal c).isSome)
  if ds.isEmpty then none
  else some (ofDigitsRev ((ds.map (fun c => (charVal c).getD 0)).reverse))

theorem takeWhile_eq_self {α : Type} (p : α → Bool) :
    ∀ (l : List α), (∀ c ∈ l, p c = true) → l.takeWhile p = l := by
  intro l h
  induction l with
  | nil => rfl
  | cons a l ih =>
    simp only [List.takeWhile_cons, h a (List.mem_cons_self a l), if_true]
    rw [ih (fun c hc => h c (List.mem_cons_of_mem a hc))]

theorem parseIntTS_natToStr (n : Nat) : parseIntTS (natToStr n) = some n := by
  by_cases hn : n = 0
  · subst hn; rfl
  · have hdig : ∀ c ∈ ((digitsRev n n).map digitChar).reverse, ((charVal c).isSome : Bool) = true := by
      intro c hc
      rw [List.mem_reverse] at hc
      obtain ⟨d, hd, rfl⟩ := List.mem_map.mp hc
      rw [charVal_digitChar (digitsRev_lt hd)]
      rfl
    unfold parseIntTS natToStr
    simp only [hn, if_false]
    rw [takeWhile_eq_self _ _ hdig]
    have hne : digitsRev n n ≠ [] := by
      cases n with
      | zero => exact absurd rfl hn
      | succ m =>
        simp only [digitsRev, Nat.succ_ne_zero, if_false]
        exact List.cons_ne_nil _ _
    have hnil : (((digitsRev n n).map digitChar).reverse).isEmpty = false := by
      rw [List.isEmpty_eq_false_iff_exists_mem]
      obtain ⟨d, hd⟩ := List.exists_mem_of_ne_nil _ hne
      exact ⟨digitChar d, List.mem_reverse.mpr (List.mem_map_of_mem _ hd)⟩
    simp only [hnil, if_false, Option.some.injEq]
    rw [List.map_reverse, List.reverse_reverse, List.map_map]
    have hcongr : ∀ d ∈ digitsRev n n, ((fun c => (charVal c).getD 0) ∘ digitChar) d = d := by
      intro d hd
      simp [Function.comp, charVal_digitChar (digitsRev_lt hd)]
    rw [List.map_congr_left hcongr]
    simp [List.map_id', ofDigitsRev_digitsRev (Nat.le_refl n)]

theorem natToStr_injective {a b : Nat} (h : natToStr a = natToStr b) : a = b := by
  have := parseIntTS_natToStr a
  rw [h, parseIntTS_natToStr b] at this
  exact (Option.some.injEq _ _).mp this.symm

theorem natToStr_ne_empty (n : Nat) : natToStr n ≠ "" := by
  intro h
  have := parseIntTS_natToStr n
  rw [h] at this
  simp [parseIntTS] at this

theorem truthy_natToStr (n : Nat) : truthy (some (natToStr n)) = true :=
  truthy_some_of_ne (natToStr_ne_empty n)

/-! ## Data model

Local entities mirror `todo_list.entity.ts` / `todo.entity.ts`: a nullable
`external_id` string column on both, `name` on lists, `title`/`completed` on
todos, and the `todoList` relation modelled as the lookup key `listId`.
`Store` is the local relational store with auto-increment counters. -/

structure TodoList where
  id : Nat
  external_id : Option String
  name : String
deriving Repr, DecidableEq

structure Todo where
  id : Nat
  external_id : Option String
  title : String
  completed : Bool
  listId : Nat
deriving Repr, DecidableEq

structure Store where
  lists : List TodoList
  todos : List Todo
  nextListId : Nat
  nextTodoId : Nat
deriving Repr, DecidableEq

def Store.init : Store := ⟨[], [], 1, 1⟩

/-- `repository.findOne({ where: { id } })` for lists. -/
def findList (s : Store) (i : Nat) : Option TodoList :=
  s.lists.find? (fun l => l.id == i)

/-- `repository.findOne({ where: { id } })` for todos. -/
def findTodo (s : Store) (i : Nat) : Option Todo :=
  s.todos.find? (fun t => t.id == i)

/-- The `todos` relation of a list (the `relations: [todos]` load). -/
def todosOf (s : Store) (listId : Nat) : List Todo :=
  s.todos.filter (fun t => t.listId == listId)

/-- Upsert keyed by a primary key: replace every row with the same key, or
append when the key is new. -/
def upsertBy {α : Type} (key : α → Nat) (xs : List α) (x : α) : List α :=
  if xs.any (fun y => key y == key x) then
    xs.map (fun y => if key y == key x then x else y)
  else xs ++ [x]

def upsertList (ls : List TodoList) (l : TodoList) : List TodoList :=
  upsertBy TodoList.id ls l

def upsertTodo (ts : List Todo) (t : Todo) : List Todo :=
  upsertBy Todo.id ts t

/-- Repository `save` for a list record (upsert keyed on `id`; keeps the
auto-increment counter past any explicit id). -/
def Store.saveList (s : Store) (l : TodoList) : Store :=
  { s with lists := upsertList s.lists l, nextListId := max s.nextListId (l.id + 1) }

/-- Repository `save` for a todo record. -/
def Store.saveTodo (s : Store) (t : Todo) : Store :=
  { s with todos := upsertTodo s.todos t, nextTodoId := max s.nextTodoId (t.id + 1) }

/-- Repository `delete` for a list row (the row only; cascading is done by the
caller that owns the aggregate). -/
def Store.deleteListRow (s : Store) (i : Nat) : Store :=
  { s with lists := s.lists.filter (fun l => !(l.id == i)) }

/-- Repository `delete` for a todo row. -/
def Store.deleteTodoRow (s : Store) (i : Nat) : Store :=
  { s with todos := s.todos.filter (fun t => !(t.id == i)) }

/-- A persisted local write, as logged by the handlers and the reconciler
(used to talk about runs that stop after a prefix of their persistence
steps). -/
inductive Write
  | saveList (l : TodoList)
  | saveTodo (t : Todo)
deriving Repr, DecidableEq

def applyWrite (s : Store) : Write → Store
  | .saveList l => s.saveList l
  | .saveTodo t => s.saveTodo t

def runWrites (s : Store) (ws : List Write) : Store := ws.foldl applyWrite s

/-! ## Remote system model

The remote list/item resource model, from the spec's interface section:
lists have an `id`, an optional echoed `source_id`, a `name` and embedded
items; items have an optional `id`, optional `source_id`, a `description` and
`completed`.  Snapshot values are plain JSON, so the id fields are nullable
here even though the reference server always fills them. -/

structure ExtItem where
  id : Option String
  source_id : Option String
  description : String
  completed : Bool
deriving Repr, DecidableEq

structure ExtList where
  id : String
  source_id : Option String
  name : String
  items : List ExtItem
deriving Repr, DecidableEq

structure Remote where
  lists : List ExtList
  nextId : Nat
deriving Repr, DecidableEq

def Remote.init : Remote := ⟨[], 1⟩

/-- `POST /todolists` request body item. -/
structure PostItemBody where
  source_id : String
  description : String
  completed : Bool
deriving Repr, DecidableEq

/-- `POST /todolists` request body. -/
structure PostListBody where
  source_id : String
  name : String
  items : List PostItemBody
deriving Repr, DecidableEq

/-- `POST /todolists` response item (`{id, source_id, ...}`). -/
structure PostItemResp where
  id : String
  source_id : Option String
deriving Repr, DecidableEq

/-- `POST /todolists` response (`{id, items}`). -/
structure PostListResp where
  id : String
  items : List PostItemResp
deriving Repr, DecidableEq

/-- One remote HTTP call, as recorded in a handler's trace. -/
inductive RemoteCall
  | postList (body : PostListBody)
  | patchList (externalId : String) (name : String)
  | deleteList (externalId : String)
  | patchItem (listExternalId itemExternalId : String) (description : String) (completed : Bool)
  | deleteItem (listExternalId itemExternalId : String)
  | getLists
deriving Repr, DecidableEq

/-- Outcome of a delete-style call: 2xx, 404 (treated as success by every
caller), or some other failure (axios throws). -/
inductive DeleteOutcome
  | ok
  | notFound404
  | failed
deriving Repr, DecidableEq

/-- The Remote Client boundary: one function per endpoint the service calls.
`Option`/`Bool` results model axios throwing on non-2xx statuses.  Theorems
about a single handler quantify over an arbitrary backend; system-level
theorems instantiate it with the reference server `specBackend`. -/
structure Backend where
  postList : PostListBody → Remote → Remote × Option PostListResp
  patchList : String → String → Remote → Remote × Bool
  deleteList : String → Remote → Remote × DeleteOutcome
  patchItem : String → String → String → Bool → Remote → Remote × Bool
  deleteItem : String → String → Remote → Remote × DeleteOutcome
  getLists : Remote → Option (List ExtList)

/-- Error kinds surfaced by the handlers (`HttpException` statuses and axios
failures). -/
inductive SyncError
  | notFound
  | internalError
  | remoteError
deriving Repr, DecidableEq

/-- Result of one handler or reconciler run: the stores, the remote calls
made (in order), the persisted local writes (in order), the two warning
kinds the service logs, and the error it threw, if any.  On `err = some _`
the store/remote fields hold the state at the moment of the throw, matching
the partially-persisted state the TypeScript code leaves behind. -/
structure OpResult where
  store : Store
  remote : Remote
  calls : List RemoteCall
  writes : List Write
  unsyncWarn : Bool
  unknownWarn : Bool
  err : Option SyncError
deriving Repr, DecidableEq

/-- A sync event message: the TS type field is a string (six known
constants), the payload carries the entity id.  (The optional `todoListId`
payload field is never read by the handlers, which re-read the relation by
id, so it is not modelled.) -/
structure SyncEvent where
  type : String
  id : Nat
deriving Repr, DecidableEq

namespace SyncService

/-- `todoList.todos.find(t => t.id.toString() === externalItem.source_id)`:
match a response item back to a local todo by echoed source identifier. -/
def echoMatch (todos : List Todo) (externalItem : PostItemResp) : Option Todo :=
  match externalItem.source_id with
  | none => none
  | some sid => todos.find? (fun t => natToStr t.id == sid)

/-- The loop over the POST response items: each response item with an echoed
source identifier that matches a local todo gets its remote id persisted onto
that todo. -/
def applyEchoItems (todos : List Todo) (items : List PostItemResp)
    (start : Store × List Write) : Store × List Write :=
  items.foldl (fun acc externalItem =>
    match echoMatch todos externalItem with
    | none => acc
    | some localTodo =>
      let updatedTodo := { localTodo with external_id := some externalItem.id }
      (acc.1.saveTodo updatedTodo, acc.2 ++ [Write.saveTodo updatedTodo])) start

/-- The creation request body: the list's local id as `source_id`, its name,
and its current todos each carrying their local id as `source_id`. -/
def listBody (s : Store) (todoList : TodoList) : PostListBody :=
  ⟨natToStr todoList.id, todoList.name,
   (todosOf s todoList.id).map (fun t => ⟨natToStr t.id, t.title, t.completed⟩)⟩

/-- `SyncService.createTodoList`: re-read the list with its todos; NotFound
when absent; no-op when `external_id` is already truthy; otherwise POST the
list bundled with its items (local ids as `source_id`s), persist the
returned list id, then persist each echoed item id onto the matching local
todo. -/
def createTodoList (B : Backend) (s : Store) (r : Remote) (payloadId : Nat) : OpResult :=
  match findList s payloadId with
  | none => ⟨s, r, [], [], false, false, some .notFound⟩
  | some todoList =>
    if truthy todoList.external_id then
      ⟨s, r, [], [], false, false, none⟩
    else
      let todos := todosOf s todoList.id
      let requestBody := listBody s todoList
      match B.postList requestBody r with
      | (r', none) => ⟨s, r', [.postList requestBody], [], false, false, some .remoteError⟩
      | (r', some resp) =>
        let updatedList := { todoList with external_id := some resp.id }
        let start : Store × List Write := (s.saveList updatedList, [Write.saveList updatedList])
        let fin := applyEchoItems todos resp.items start
        ⟨fin.1, r', [.postList requestBody], fin.2, false, false, none⟩

/-- `SyncService.updateTodoList`: NotFound when absent; delegate to create
when not yet synced; otherwise PATCH the name at the list's external id. -/
def updateTodoList (B : Backend) (s : Store) (r : Remote) (payloadId : Nat) : OpResult :=
  match findList s payloadId with
  | none => ⟨s, r, [], [], false, false, some .notFound⟩
  | some todoList =>
    if !truthy todoList.external_id then
      createTodoList B s r payloadId
    else
      let eid := todoList.external_id.getD ""
      match B.patchList eid todoList.name r with
      | (r', true) => ⟨s, r', [.patchList eid todoList.name], [], false, false, none⟩
      | (r', false) => ⟨s, r', [.patchList eid todoList.name], [], false, false, some .remoteError⟩

/-- `SyncService.deleteTodoList`: no-op when the local row is already gone or
was never synced; otherwise DELETE remotely, treating 404 as success. -/
def deleteTodoList (B : Backend) (s : Store) (r : Remote) (payloadId : Nat) : OpResult :=
  match findList s payloadId with
  | none => ⟨s, r, [], [], false, false, none⟩
  | some todoList =>
    if !truthy todoList.external_id then
      ⟨s, r, [], [], false, false, none⟩
    else
      let eid := todoList.external_id.getD ""
      match B.deleteList eid r with
      | (r', .ok) => ⟨s, r', [.deleteList eid], [], false, false, none⟩
      | (r', .notFound404) => ⟨s, r', [.deleteList eid], [], false, false, none⟩
      | (r', .failed) => ⟨s, r', [.deleteList eid], [], false, false, some .remoteError⟩

/-- `SyncService.createTodoItem`: NotFound when the todo or its list is
absent; no-op when already synced; when the owning list is unsynced, sync the
list (which bundles this todo) and return if that made the todo synced;
otherwise fall through to the permanently-unsynced warning (the remote
contract has no isolated item creation). -/
def createTodoItem (B : Backend) (s : Store) (r : Remote) (payloadId : Nat) : OpResult :=
  match findTodo s payloadId with
  | none => ⟨s, r, [], [], false, false, some .notFound⟩
  | some todo =>
    match findList s todo.listId with
    | none => ⟨s, r, [], [], false, false, some .notFound⟩
    | some todoList =>
      if truthy todo.external_id then
        ⟨s, r, [], [], false, false, none⟩
      else if !truthy todoList.external_id then
        let res := createTodoList B s r todoList.id
        if res.err.isSome then res
        else
          match findTodo res.store payloadId with
          | some updatedTodo =>
            if truthy updatedTodo.external_id then res
            else { res with unsyncWarn := true }
          | none => { res with unsyncWarn := true }
      else
        ⟨s, r, [], [], true, false, none⟩

/-- `SyncService.updateTodoItem`: NotFound when the todo or its list is
absent; delegate to `createTodoItem` when the todo is unsynced; if the list
is unsynced, sync it first and fail with InternalError if the todo is still
unsynced afterwards; then PATCH description/completed at
`(listExternalId, itemExternalId)`. -/
def updateTodoItem (B : Backend) (s : Store) (r : Remote) (payloadId : Nat) : OpResult :=
  match findTodo s payloadId with
  | none => ⟨s, r, [], [], false, false, some .notFound⟩
  | some todo =>
    match findList s todo.listId with
    | none => ⟨s, r, [], [], false, false, some .notFound⟩
    | some todoList =>
      if !truthy todo.external_id then
        createTodoItem B s r payloadId
      else if !truthy todoList.external_id then
        let res := createTodoList B s r todoList.id
        if res.err.isSome then res
        else
          match findTodo res.store payloadId with
          | none => { res with err := some .internalError }
          | some updatedTodo =>
            if !truthy updatedTodo.external_id then
              { res with err := some .internalError }
            else
              match findList res.store updatedTodo.listId with
              | none =>
                -- reading `.external_id` of a missing relation is a TypeError
                -- in the source; it propagates like any other thrown error
                { res with err := some .internalError }
              | some updatedList =>
                let leid := updatedList.external_id.getD ""
                let ieid := updatedTodo.external_id.getD ""
                match B.patchItem leid ieid todo.title todo.completed res.remote with
                | (r', true) =>
                  { res with
                      remote := r'
                      calls := res.calls ++ [.patchItem leid ieid todo.title todo.completed] }
                | (r', false) =>
                  { res with
                      remote := r'
                      calls := res.calls ++ [.patchItem leid ieid todo.title todo.completed]
                      err := some .remoteError }
      else
        let leid := todoList.external_id.getD ""
        let ieid := todo.external_id.getD ""
        match B.patchItem leid ieid todo.title todo.completed r with
        | (r', true) =>
          ⟨s, r', [.patchItem leid ieid todo.title todo.completed], [], false, false, none⟩
        | (r', false) =>
          ⟨s, r', [.patchItem leid ieid todo.title todo.completed], [], false, false,
            some .remoteError⟩

/-- `SyncService.deleteTodoItem`: no-op when the local row is gone, never
synced, or the owning list is absent/unsynced; otherwise DELETE remotely at
`(listExternalId, itemExternalId)`, treating 404 as success. -/
def deleteTodoItem (B : Backend) (s : Store) (r : Remote) (payloadId : Nat) : OpResult :=
  match findTodo s payloadId with
  | none => ⟨s, r, [], [], false, false, none⟩
  | some todo =>
    if !truthy todo.external_id then
      ⟨s, r, [], [], false, false, none⟩
    else
      match findList s todo.listId with
      | none => ⟨s, r, [], [], false, false, none⟩
      | some todoList =>
        if !truthy todoList.external_id then
          ⟨s, r, [], [], false, false, none⟩
        else
          let leid := todoList.external_id.getD ""
          let ieid := todo.external_id.getD ""
          match B.deleteItem leid ieid r with
          | (r', .ok) => ⟨s, r', [.deleteItem leid ieid], [], false, false, none⟩
          | (r', .notFound404) => ⟨s, r', [.deleteItem leid ieid], [], false, false, none⟩
          | (r', .failed) =>
            ⟨s, r', [.deleteItem leid ieid], [], false, false, some .remoteError⟩

/-- `SyncService.handleSyncEvent`: dispatch on the event type string; the six
known kinds call their handler (whose thrown errors are re-thrown); any other
kind logs a warning and returns normally. -/
def handleSyncEvent (B : Backend) (ev : SyncEvent) (s : Store) (r : Remote) : OpResult :=
  if ev.type == "create-todo-list" then createTodoList B s r ev.id
  else if ev.type == "update-todo-list" then updateTodoList B s r ev.id
  else if ev.type == "delete-todo-list" then deleteTodoList B s r ev.id
  else if ev.type == "create-todo-item" then createTodoItem B s r ev.id
  else if ev.type == "update-todo-item" then updateTodoItem B s r ev.id
  else if ev.type == "delete-todo-item" then deleteTodoItem B s r ev.id
  else ⟨s, r, [], [], false, true, none⟩

end SyncService

namespace SyncService

/-! ## Inbound Reconciler (`SyncService.syncFromExternal`)

The pass fetches the snapshot and the local lists (with todos) once, then
partitions remote lists on the truthiness of `source_id`.  All reads of list
fields and of the `todos` relation inside the second loop go through the map
built at the start of the pass (`localTodoListsMap`), i.e. against the store
as it was when the pass began, while writes land in the evolving store —
mirroring the source.  (In the source the map holds live objects, so under a
snapshot with duplicate list `source_id`s or duplicate item ids within one
list, earlier in-place mutations would be visible to later iterations; the
embedding reads the start-of-pass values, which agrees with the source
whenever those ids are distinct, as every theorem below assumes.) -/

/-- Accumulator of one reconciler pass: the evolving store, the persisted
writes in order, and the external ids of the remote lists the pass deletes
remotely, in order. -/
structure ReconcileAcc where
  store : Store
  writes : List Write
  dels : List String
deriving Repr, DecidableEq

/-- The item loop of the remote-originated import: one local todo per remote
item (`description` → `title`, `completed`, `external_id` = remote item id,
fresh local ids). -/
def importItems (listId : Nat) (items : List ExtItem)
    (start : Store × List Write) : Store × List Write :=
  items.foldl (fun st item =>
    let newTodo : Todo :=
      ⟨st.1.nextTodoId, item.id, item.description, item.completed, listId⟩
    (applyWrite st.1 (.saveTodo newTodo), st.2 ++ [Write.saveTodo newTodo])) start

/-- The remote-originated branch (no `source_id`): create a local list
(`name`, `external_id` = remote id) and one local todo per remote item. -/
def importRemoteList (acc : ReconcileAcc) (externalTodoList : ExtList) : ReconcileAcc :=
  let newTodoList : TodoList :=
    ⟨acc.store.nextListId, some externalTodoList.id, externalTodoList.name⟩
  let s1 := applyWrite acc.store (.saveList newTodoList)
  let fin := importItems newTodoList.id externalTodoList.items
    (s1, acc.writes ++ [Write.saveList newTodoList])
  ⟨fin.1, fin.2, acc.dels⟩

/-- `localTodosByExternalId`: a JS `Map` keyed by the truthy `external_id`s
of the list's todos; on duplicate keys the last insertion wins. -/
def lookupByExternalId (todos : List Todo) (eid : String) : Option Todo :=
  ((todos.filter (fun t => truthy t.external_id)).reverse).find?
    (fun t => t.external_id == some eid)

/-- One remote item of a reconciled list: skip falsy ids; create a local todo
when no local todo carries the id; otherwise update `title`/`completed` when
they differ (remote wins). -/
def reconcileItem (origTodos : List Todo) (localTodoList : TodoList)
    (acc : Store × List Write) (externalItem : ExtItem) : Store × List Write :=
  if strFalsy externalItem.id then acc
  else
    let eid := externalItem.id.getD ""
    match lookupByExternalId origTodos eid with
    | none =>
      let newTodo : Todo :=
        ⟨acc.1.nextTodoId, externalItem.id, externalItem.description,
         externalItem.completed, localTodoList.id⟩
      (applyWrite acc.1 (.saveTodo newTodo), acc.2 ++ [Write.saveTodo newTodo])
    | some localTodo =>
      if localTodo.title != externalItem.description
          || localTodo.completed != externalItem.completed then
        let updatedTodo :=
          { localTodo with
              title := externalItem.description, completed := externalItem.completed }
        (applyWrite acc.1 (.saveTodo updatedTodo), acc.2 ++ [Write.saveTodo updatedTodo])
      else acc

/-- One remote list carrying a `source_id`: parse it back to a local id (a
non-numeric id parses to `NaN`, whose map lookup misses); a missing local
list means the local delete wins, so the remote list is deleted; otherwise
diff name/external_id, reconcile the items, and save the list record last if
either field differed.  The trailing locally-flagged-items loop only logs. -/
def reconcileWithSource (origS : Store) (acc : ReconcileAcc)
    (externalTodoList : ExtList) : ReconcileAcc :=
  match (parseIntTS (externalTodoList.source_id.getD "")).bind (findList origS) with
  | none => ⟨acc.store, acc.writes, acc.dels ++ [externalTodoList.id]⟩
  | some localTodoList =>
    let nameUpd := localTodoList.name != externalTodoList.name
    let extUpd := localTodoList.external_id != some externalTodoList.id
    let updatedList :=
      { localTodoList with
          name := externalTodoList.name, external_id := some externalTodoList.id }
    let origTodos := todosOf origS localTodoList.id
    let itemsFin := externalTodoList.items.foldl
      (reconcileItem origTodos localTodoList) (acc.store, acc.writes)
    if nameUpd || extUpd then
      ⟨applyWrite itemsFin.1 (.saveList updatedList),
       itemsFin.2 ++ [Write.saveList updatedList], acc.dels⟩
    else ⟨itemsFin.1, itemsFin.2, acc.dels⟩

/-- The local merge of one reconciler pass over a fetched snapshot: the
remote-originated imports, then the source-identified reconciliations, both
in snapshot order. -/
def syncCore (snapshot : List ExtList) (s : Store) : ReconcileAcc :=
  let withoutSrc := snapshot.filter (fun l => strFalsy l.source_id)
  let withSrc := snapshot.filter (fun l => !strFalsy l.source_id)
  let acc1 := withoutSrc.foldl importRemoteList ⟨s, [], []⟩
  withSrc.foldl (reconcileWithSource s) acc1

/-- `SyncService.syncFromExternal`: fetch the snapshot (failure is fatal to
the run), merge locally, and issue the recorded remote deletions.  The local
merge makes no remote call and ignores every deletion outcome (failures are
logged and the loop continues), so issuing the deletions after the merge, in
recorded order, leaves the same remote state and call sequence as the
source's interleaving. -/
def syncFromExternal (B : Backend) (s : Store) (r : Remote) : OpResult :=
  match B.getLists r with
  | none => ⟨s, r, [.getLists], [], false, false, some .remoteError⟩
  | some snapshot =>
    let acc := syncCore snapshot s
    let r' := acc.dels.foldl (fun rr eid => (B.deleteList eid rr).1) r
    ⟨acc.store, r', .getLists :: acc.dels.map .deleteList, acc.writes, false, false, none⟩

end SyncService

/-! ## Reference remote server

The remote system itself is not part of this repository; it is modelled from
the spec's interface section: `POST` creates a list with fresh ids bundling
its items and echoes the source identifiers; `PATCH`/`DELETE` address
existing records, with 404 on a missing target; `GET /lists` returns the
full snapshot. -/

/-- Fresh remote list identifier (the generation scheme is the model's
choice; only injectivity and non-emptiness matter). -/
def mkListExtId (n : Nat) : String := "rl-" ++ natToStr n

/-- Fresh remote item identifier. -/
def mkItemExtId (n : Nat) : String := "ri-" ++ natToStr n

/-- The remote items a `POST /lists` creates for the bundled body items
(fresh ids offset past the new list's own id, echoed `source_id`s). -/
def mkNewItems (body : PostListBody) (r : Remote) : List ExtItem :=
  (body.items.enum).map (fun p =>
    ExtItem.mk (some (mkItemExtId (r.nextId + 1 + p.1))) (some p.2.source_id)
      p.2.description p.2.completed)

/-- Modelled from the spec: `POST /lists` on the remote system — create a
remote list with a fresh id, one remote item per bundled body item (fresh
ids, echoed `source_id`s), and answer `{id, items: [{id, source_id}]}`. -/
def Remote.postListImpl (body : PostListBody) (r : Remote) :
    Remote × Option PostListResp :=
  let listId := mkListExtId r.nextId
  let newItems := mkNewItems body r
  let newList : ExtList := ⟨listId, some body.source_id, body.name, newItems⟩
  ({ lists := r.lists ++ [newList], nextId := r.nextId + 1 + body.items.length },
   some ⟨listId, newItems.map (fun it => ⟨it.id.getD "", it.source_id⟩)⟩)

/-- Remote list ids all generated below the fresh-id counter (holds for every
state the reference server can reach). -/
def remoteIdsFresh (r : Remote) : Prop :=
  ∀ R ∈ r.lists, ∃ m, m < r.nextId ∧ R.id = mkListExtId m

/-- Modelled from the spec: `PATCH /lists/{externalId}` — rename when the
list exists, 404 (`false`, axios throws) otherwise. -/
def Remote.patchListImpl (eid name : String) (r : Remote) : Remote × Bool :=
  if r.lists.any (fun l => l.id == eid) then
    ({ r with lists := r.lists.map (fun l => if l.id == eid then { l with name := name } else l) },
     true)
  else (r, false)

/-- Modelled from the spec: `DELETE /lists/{externalId}` — remove the list
when present, 404 otherwise (never a transport failure). -/
def Remote.deleteListImpl (eid : String) (r : Remote) : Remote × DeleteOutcome :=
  if r.lists.any (fun l => l.id == eid) then
    ({ r with lists := r.lists.filter (fun l => !(l.id == eid)) }, .ok)
  else (r, .notFound404)

/-- Modelled from the spec: `PATCH /lists/{lid}/items/{iid}` — update
description/completed when the addressed item exists, 404 otherwise. -/
def Remote.patchItemImpl (leid ieid : String) (description : String)
    (completed : Bool) (r : Remote) : Remote × Bool :=
  if r.lists.any (fun l => l.id == leid && l.items.any (fun it => it.id == some ieid)) then
    ({ r with lists := r.lists.map (fun l =>
        if l.id == leid then
          { l with items := l.items.map (fun it =>
              if it.id == some ieid then
                { it with description := description, completed := completed }
              else it) }
        else l) }, true)
  else (r, false)

/-- Modelled from the spec: `DELETE /lists/{lid}/items/{iid}` — remove the
addressed item when present, 404 otherwise. -/
def Remote.deleteItemImpl (leid ieid : String) (r : Remote) : Remote × DeleteOutcome :=
  if r.lists.any (fun l => l.id == leid && l.items.any (fun it => it.id == some ieid)) then
    ({ r with lists := r.lists.map (fun l =>
        if l.id == leid then
          { l with items := l.items.filter (fun it => !(it.id == some ieid)) }
        else l) }, .ok)
  else (r, .notFound404)

/-- Modelled from the spec: `GET /lists` — the full snapshot. -/
def Remote.getListsImpl (r : Remote) : Option (List ExtList) := some r.lists

/-- The reference backend: the spec-modelled remote server, always
reachable. -/
def specBackend : Backend where
  postList := Remote.postListImpl
  patchList := Remote.patchListImpl
  deleteList := Remote.deleteListImpl
  patchItem := Remote.patchItemImpl
  deleteItem := Remote.deleteItemImpl
  getLists := Remote.getListsImpl

/-! ## Local mutation sites

`TodosService` is in the sources; the list-level CRUD service is not (only
its module wiring is), so it is modelled from the spec.  Each mutation
persists first and then emits its event (`none` when the service threw
NotFound before emitting). -/

namespace TodosService

/-- `TodosService.create`: NotFound when the list is absent; otherwise insert
a todo (`completed = false`, unsynced) and emit `create-todo-item`. -/
def create (s : Store) (todoListId : Nat) (title : String) :
    Store × Option SyncEvent :=
  match findList s todoListId with
  | none => (s, none)
  | some _ =>
    let todo : Todo := ⟨s.nextTodoId, none, title, false, todoListId⟩
    (s.saveTodo todo, some ⟨"create-todo-item", todo.id⟩)

/-- `TodosService.update`: NotFound when absent; otherwise save the provided
subset of `{title, completed}` (a partial entity save) and emit
`update-todo-item`. -/
def update (s : Store) (i : Nat) (title : Option String) (completed : Option Bool) :
    Store × Option SyncEvent :=
  match findTodo s i with
  | none => (s, none)
  | some todo =>
    let updatedTodo :=
      { todo with
          title := title.getD todo.title, completed := completed.getD todo.completed }
    (s.saveTodo updatedTodo, some ⟨"update-todo-item", i⟩)

/-- `TodosService.delete`: NotFound when absent; otherwise delete the row and
then emit `delete-todo-item` — the handler will re-read a row that is
already gone. -/
def delete (s : Store) (i : Nat) : Store × Option SyncEvent :=
  match findTodo s i with
  | none => (s, none)
  | some _ => (s.deleteTodoRow i, some ⟨"delete-todo-item", i⟩)

end TodosService

namespace TodoListsService

/-- Modelled from the spec: list creation in the list-level CRUD service
(absent from the sources) — insert an unsynced named list, then emit
`create-todo-list`. -/
def create (s : Store) (name : String) : Store × Option SyncEvent :=
  let l : TodoList := ⟨s.nextListId, none, name⟩
  (s.saveList l, some ⟨"create-todo-list", l.id⟩)

/-- Modelled from the spec: list rename — update the mutable `name`, then
emit `update-todo-list`; NotFound when absent. -/
def update (s : Store) (i : Nat) (name : String) : Store × Option SyncEvent :=
  match findList s i with
  | none => (s, none)
  | some l => (s.saveList { l with name := name }, some ⟨"update-todo-list", i⟩)

/-- Modelled from the spec: list deletion — the List is the aggregate root,
so deleting it deletes its Items; the event is emitted after the rows are
gone. -/
def delete (s : Store) (i : Nat) : Store × Option SyncEvent :=
  match findList s i with
  | none => (s, none)
  | some _ =>
    let s1 := { s with
      lists := s.lists.filter (fun l => !(l.id == i)),
      todos := s.todos.filter (fun t => !(t.listId == i)) }
    (s1, some ⟨"delete-todo-list", i⟩)

end TodoListsService

/-! ## Event channel boundary (`SyncConsumer`) -/

/-- Outcome of delivering one message to the consumer. -/
structure ConsumeResult where
  store : Store
  remote : Remote
  acks : Nat
  errorLogged : Bool
deriving Repr, DecidableEq

namespace SyncConsumer

/-- `SyncConsumer.handleSyncEvent`: run the service handler inside
`try`/`catch`; ack on success; on a thrown error, log it and ack anyway —
nothing propagates past the channel boundary. -/
def handleSyncEvent (B : Backend) (ev : SyncEvent) (s : Store) (r : Remote) :
    ConsumeResult :=
  let res := SyncService.handleSyncEvent B ev s r
  match res.err with
  | none => ⟨res.store, res.remote, 1, false⟩
  | some _ => ⟨res.store, res.remote, 1, true⟩

end SyncConsumer

/-! ## Whole-system runs (for the convergence property) -/

/-- A local mutation requested through the CRUD surface. -/
inductive Mutation
  | createList (name : String)
  | renameList (id : Nat) (name : String)
  | removeList (id : Nat)
  | createItem (listId : Nat) (title : String)
  | updateItem (id : Nat) (title : Option String) (completed : Option Bool)
  | removeItem (id : Nat)
deriving Repr, DecidableEq

/-- System state while mutations are applied: the two stores plus whether any
`ItemCreated`/`ItemUpdated` handler has taken the permanently-unsynced
warning branch so far. -/
structure SysState where
  store : Store
  remote : Remote
  unsyncWarned : Bool
deriving Repr, DecidableEq

def applyMutation (s : Store) : Mutation → Store × Option SyncEvent
  | .createList name => TodoListsService.create s name
  | .renameList i name => TodoListsService.update s i name
  | .removeList i => TodoListsService.delete s i
  | .createItem lid title => TodosService.create s lid title
  | .updateItem i t c => TodosService.update s i t c
  | .removeItem i => TodosService.delete s i

/-- One step of the system: apply the local mutation and, when it emitted an
event, deliver that event to the Outbound Synchronizer against the reference
remote server (the consumer acks regardless of outcome, so a step always
completes). -/
def sysStep (st : SysState) (m : Mutation) : SysState :=
  match applyMutation st.store m with
  | (s1, none) => { st with store := s1 }
  | (s1, some ev) =>
    let res := SyncService.handleSyncEvent specBackend ev s1 st.remote
    ⟨res.store, res.remote, st.unsyncWarned || res.unsyncWarn⟩

/-- Run a finite mutation sequence from the empty initial system. -/
def sysRun (ms : List Mutation) : SysState :=
  ms.foldl sysStep ⟨Store.init, Remote.init, false⟩

/-! ## Specification predicates -/

/-- The spec's data-model invariant: a todo whose `external_id` is non-null
belongs to a list that exists and whose `external_id` is also non-null. -/
def itemListInv (s : Store) : Prop :=
  ∀ t ∈ s.todos, t.external_id.isSome = true →
    ∃ l ∈ s.lists, l.id = t.listId ∧ l.external_id.isSome = true

instance (s : Store) : Decidable (itemListInv s) := by
  unfold itemListInv; infer_instance

/-- Relational well-formedness of the local store: unique primary keys below
the auto-increment counters, todos referencing existing lists, and external
ids (being remote primary keys) never the empty string. -/
structure StoreWF (s : Store) : Prop where
  listIdsNodup : (s.lists.map TodoList.id).Nodup
  todoIdsNodup : (s.todos.map Todo.id).Nodup
  listIdsLt : ∀ l ∈ s.lists, l.id < s.nextListId
  todoIdsLt : ∀ t ∈ s.todos, t.id < s.nextTodoId
  todoRef : ∀ t ∈ s.todos, ∃ l ∈ s.lists, l.id = t.listId
  listExtNe : ∀ l ∈ s.lists, l.external_id ≠ some ""
  todoExtNe : ∀ t ∈ s.todos, t.external_id ≠ some ""

/-- Remote list lookup by external id. -/
def findRemoteList (r : Remote) (eid : String) : Option ExtList :=
  r.lists.find? (fun l => l.id == eid)

/-- The `(description, completed)` pairs of a list's local items. -/
def localPairs (s : Store) (listId : Nat) : List (String × Bool) :=
  (todosOf s listId).map (fun t => (t.title, t.completed))

/-- The `(description, completed)` pairs of a remote list's items. -/
def remotePairs (R : ExtList) : List (String × Bool) :=
  R.items.map (fun it => (it.description, it.completed))

/-- Set equality of two lists of pairs (the spec compares item *sets*). -/
def sameElems {α : Type} (a b : List α) : Prop := ∀ x, x ∈ a ↔ x ∈ b

/-- Effect of one recorded remote call on the reference server (used to state
that no call other than the bundled list POST can create remote items). -/
def applySpecCall (r : Remote) : RemoteCall → Remote
  | .postList body => (Remote.postListImpl body r).1
  | .patchList eid name => (Remote.patchListImpl eid name r).1
  | .deleteList eid => (Remote.deleteListImpl eid r).1
  | .patchItem leid ieid d c => (Remote.patchItemImpl leid ieid d c r).1
  | .deleteItem leid ieid => (Remote.deleteItemImpl leid ieid r).1
  | .getLists => r

/-- Total number of items across all remote lists. -/
def remoteItemCount (r : Remote) : Nat :=
  (r.lists.map (fun l => l.items.length)).sum

def RemoteCall.isPostList : RemoteCall → Bool
  | .postList _ => true
  | _ => false

/-- The data-model invariant weakened at one list id: todos of list `j` are
exempt (the transient state while a reconciliation iteration has persisted
items but not yet the list record). -/
def itemListInvExcept (j : Nat) (s : Store) : Prop :=
  ∀ t ∈ s.todos, t.external_id.isSome = true →
    t.listId = j ∨ ∃ l ∈ s.lists, l.id = t.listId ∧ l.external_id.isSome = true

/-- Every synced list id of `s0` is still present, and still synced, in
`st` (stable across the reconciler's writes, which only save synced list
records). -/
def syncedListsSurvive (s0 st : Store) : Prop :=
  ∀ l ∈ s0.lists, l.external_id.isSome = true →
    ∃ l' ∈ st.lists, l'.id = l.id ∧ l'.external_id.isSome = true

/-- Footprint of a reconciler pass over the local store: counters only grow,
and every row of the resulting store is an untouched original row, a freshly
created row, or (for lists) the reconciliation of an original list against
the snapshot entry carrying its source identifier / (for todos) an original
todo with its id and external id intact. -/
def ReconcilerFootprint (s : Store) (snapshot : List ExtList) (st : Store) : Prop :=
  s.nextListId ≤ st.nextListId ∧ s.nextTodoId ≤ st.nextTodoId ∧
  (∀ l' ∈ st.lists, l' ∈ s.lists ∨ s.nextListId ≤ l'.id ∨
    ∃ l0 L, l0 ∈ s.lists ∧ L ∈ snapshot ∧ l'.id = l0.id ∧ l'.external_id = some L.id ∧
      parseIntTS (L.source_id.getD "") = some l0.id) ∧
  (∀ t' ∈ st.todos, t' ∈ s.todos ∨ s.nextTodoId ≤ t'.id ∨
    ∃ t0 ∈ s.todos, t'.id = t0.id ∧ t'.external_id = t0.external_id)

/-- Every outbound handler's local persistence is either nothing or exactly
what a (delegated) `createTodoList` run persisted. -/
def DelegatedWS (B : Backend) (s : Store) (r : Remote)
    (ws : List Write) (st : Store) : Prop :=
  (ws = [] ∧ st = s) ∨
  ∃ j, ws = (SyncService.createTodoList B s r j).writes ∧
    st = (SyncService.createTodoList B s r j).store

/-- Shape of an outbound handler's persisted writes: nothing, or a now-synced
list record followed only by todo records that belong to that list. -/
def HandlerWrites (ws : List Write) : Prop :=
  ws = [] ∨ ∃ ul rest, ws = Write.saveList ul :: rest ∧
    ul.external_id.isSome = true ∧
    ∀ w ∈ rest, ∃ t', w = Write.saveTodo t' ∧ t'.listId = ul.id ∧
      t'.external_id.isSome = true

/-- Reachability invariant of warning-free runs against the reference server:
what ties the local store and the remote state together between steps.  It
is the induction hypothesis behind the convergence theorem. -/
structure SysInv (s : Store) (r : Remote) : Prop where
  wf : StoreWF s
  remoteListId : ∀ R ∈ r.lists, ∃ m, m < r.nextId ∧ R.id = mkListExtId m
  remoteItemId : ∀ R ∈ r.lists, ∀ it ∈ R.items, ∃ m, m < r.nextId ∧ it.id = some (mkItemExtId m)
  remoteListIdsNodup : (r.lists.map ExtList.id).Nodup
  remoteItemIdsNodup : ∀ R ∈ r.lists, (R.items.map ExtItem.id).Nodup
  remoteSrc : ∀ R ∈ r.lists, ∃ k, R.source_id = some (natToStr k) ∧ k < s.nextListId ∧
    ∀ l ∈ s.lists, l.id = k → l.external_id = some R.id
  unsyncedClean : ∀ l ∈ s.lists, l.external_id = none →
    (∀ R ∈ r.lists, R.source_id ≠ some (natToStr l.id)) ∧
    ∀ t ∈ todosOf s l.id, t.external_id = none
  syncedMatch : ∀ l ∈ s.lists, ∀ e, l.external_id = some e →
    ∃ R ∈ r.lists, R.id = e ∧ R.source_id = some (natToStr l.id) ∧ R.name = l.name ∧
      ∀ t ∈ todosOf s l.id, ∃ d, t.external_id = some d ∧
        ∃ it ∈ R.items, it.id = some d ∧ it.description = t.title ∧ it.completed = t.completed
  todoExtShape : ∀ t ∈ s.todos, ∀ d, t.external_id = some d →
    ∃ m, m < r.nextId ∧ d = mkItemExtId m
  todoExtUnique : ∀ t₁ ∈ s.todos, ∀ t₂ ∈ s.todos, ∀ d,
    t₁.external_id = some d → t₂.external_id = some d → t₁.id = t₂.id

/-! ## Upsert and lookup lemmas -/

theorem find?_upsertBy_self {α : Type} (key : α → Nat) (xs : List α) (x : α) :
    (upsertBy key xs x).find? (fun y => key y == key x) = some x := by
  unfold upsertBy
  by_cases h : xs.any (fun y => key y == key x)
  · simp only [h, if_true, List.find?_map]
    have hfn : ((fun y => key y == key x) ∘ fun y => if key y == key x then x else y)
        = fun y => key y == key x := by
      funext z
      by_cases hz : key z == key x
      · have hzx : key z = key x := by simpa using hz
        simp [Function.comp, hz, hzx]
      · simp [Function.comp, hz]
    rw [hfn]
    obtain ⟨z, hz, hkz⟩ := List.any_eq_true.mp h
    have hsome : (xs.find? (fun y => key y == key x)).isSome := by
      rw [List.find?_isSome]
      exact ⟨z, hz, hkz⟩
    cases hfind : xs.find? (fun y => key y == key x) with
    | none => rw [hfind] at hsome; simp at hsome
    | some z0 =>
      have hz0 := List.find?_some hfind
      have hz0' : key z0 = key x := by simpa using hz0
      simp [hz0']
  · have h' : (xs.any fun y => key y == key x) = false := by simpa using h
    simp only [h', Bool.false_eq_true, if_false, List.find?_append]
    have hnone : xs.find? (fun y => key y == key x) = none := by
      rw [List.find?_eq_none]
      intro z hz
      intro hkz
      exact h (List.any_eq_true.mpr ⟨z, hz, hkz⟩)
    simp [hnone]

theorem find?_upsertBy_other {α : Type} (key : α → Nat) (xs : List α) (x : α)
    (j : Nat) (h : key x ≠ j) :
    (upsertBy key xs x).find? (fun y => key y == j) = xs.find? (fun y => key y == j) := by
  unfold upsertBy
  by_cases hany : xs.any (fun y => key y == key x)
  · simp only [hany, if_true, List.find?_map]
    have hfn : ((fun y => key y == j) ∘ fun y => if key y == key x then x else y)
        = fun y => key y == j := by
      funext z
      by_cases hz : key z == key x
      · have hzx : key z = key x := by simpa using hz
        simp [Function.comp, hz, hzx, show (key x == j) = false by simpa using h]
      · simp [Function.comp, hz]
    rw [hfn]
    cases hfind : xs.find? (fun y => key y == j) with
    | none => simp
    | some z0 =>
      have hz0 := List.find?_some hfind
      have hz0j : key z0 = j := by simpa using hz0
      have hz0x : ¬key z0 = key x := by omega
      simp [hz0x]
  · have hany' : (xs.any fun y => key y == key x) = false := by simpa using hany
    simp only [hany', Bool.false_eq_true, if_false, List.find?_append]
    have hx : ([x].find? (fun y => key y == j)) = none := by
      simp [show (key x == j) = false by simpa using h]
    rw [hx]
    cases xs.find? (fun y => key y == j) <;> rfl

theorem mem_upsertBy {α : Type} {key : α → Nat} {xs : List α} {x y : α}
    (h : y ∈ upsertBy key xs x) : y = x ∨ (y ∈ xs ∧ key y ≠ key x) := by
  unfold upsertBy at h
  by_cases hany : xs.any (fun y => key y == key x)
  · simp only [hany, if_true] at h
    obtain ⟨z, hz, hzy⟩ := List.mem_map.mp h
    by_cases hk : key z == key x
    · left; simp only [hk, if_true] at hzy; exact hzy.symm
    · right
      simp only [hk, if_false] at hzy
      subst hzy
      exact ⟨hz, by simpa using hk⟩
  · have hany' : (xs.any fun y => key y == key x) = false := by simpa using hany
    simp only [hany', Bool.false_eq_true, if_false, List.mem_append,
      List.mem_singleton] at h
    rcases h with h | h
    · by_cases hk : key y = key x
      · exfalso
        exact hany (List.any_eq_true.mpr ⟨y, h, by simpa using hk⟩)
      · exact Or.inr ⟨h, hk⟩
    · exact Or.inl h

theorem mem_upsertBy_of_mem {α : Type} {key : α → Nat} {xs : List α} {x z : α}
    (hz : z ∈ xs) (hk : key z ≠ key x) : z ∈ upsertBy key xs x := by
  unfold upsertBy
  by_cases hany : xs.any (fun y => key y == key x)
  · simp only [hany, if_true]
    refine List.mem_map.mpr ⟨z, hz, ?_⟩
    simp [show (key z == key x) = false by simpa using hk]
  · have hany' : (xs.any fun y => key y == key x) = false := by simpa using hany
    simp [hany', List.mem_append, hz]

theorem self_mem_upsertBy {α : Type} {key : α → Nat} (xs : List α) (x : α) :
    x ∈ upsertBy key xs x := by
  unfold upsertBy
  by_cases hany : xs.any (fun y => key y == key x)
  · simp only [hany, if_true]
    obtain ⟨z, hz, hk⟩ := List.any_eq_true.mp hany
    exact List.mem_map.mpr ⟨z, hz, by simp [hk]⟩
  · have hany' : (xs.any fun y => key y == key x) = false := by simpa using hany
    simp [hany']

theorem map_key_upsertBy_nodup {α : Type} {key : α → Nat} {xs : List α} (x : α)
    (h : (xs.map key).Nodup) : ((upsertBy key xs x).map key).Nodup := by
  unfold upsertBy
  by_cases hany : xs.any (fun y => key y == key x)
  · simp only [hany, if_true, List.map_map]
    have : xs.map (key ∘ fun y => if key y == key x then x else y) = xs.map key := by
      apply List.map_congr_left
      intro z _
      by_cases hk : key z == key x
      · have : key z = key x := by simpa using hk
        simp [Function.comp, hk, this]
      · simp [Function.comp, hk]
    rw [this]; exact h
  · have hany' : (xs.any fun y => key y == key x) = false := by simpa using hany
    simp only [hany', Bool.false_eq_true, if_false, List.map_append, List.map_singleton]
    refine List.nodup_append.mpr ⟨h, List.nodup_singleton _, ?_⟩
    intro a ha
    simp only [List.mem_singleton]
    intro hax
    obtain ⟨z, hz, hzk⟩ := List.mem_map.mp ha
    subst hax
    exact hany (List.any_eq_true.mpr ⟨z, hz, by simp [hzk]⟩)

/-! ## Store access lemmas -/

theorem findTodo_saveTodo_self (s : Store) (t : Todo) :
    findTodo (s.saveTodo t) t.id = some t :=
  find?_upsertBy_self Todo.id s.todos t

theorem findTodo_saveTodo_other (s : Store) (t : Todo) (j : Nat) (h : t.id ≠ j) :
    findTodo (s.saveTodo t) j = findTodo s j :=
  find?_upsertBy_other Todo.id s.todos t j h

theorem findList_saveList_self (s : Store) (l : TodoList) :
    findList (s.saveList l) l.id = some l :=
  find?_upsertBy_self TodoList.id s.lists l

theorem findList_saveList_other (s : Store) (l : TodoList) (j : Nat) (h : l.id ≠ j) :
    findList (s.saveList l) j = findList s j :=
  find?_upsertBy_other TodoList.id s.lists l j h

theorem findTodo_saveList (s : Store) (l : TodoList) (j : Nat) :
    findTodo (s.saveList l) j = findTodo s j := rfl

theorem findList_saveTodo (s : Store) (t : Todo) (j : Nat) :
    findList (s.saveTodo t) j = findList s j := rfl

theorem lists_saveTodo (s : Store) (t : Todo) : (s.saveTodo t).lists = s.lists := rfl

theorem todos_saveList (s : Store) (l : TodoList) : (s.saveList l).todos = s.todos := rfl

theorem mem_todosOf {s : Store} {lid : Nat} {t : Todo} :
    t ∈ todosOf s lid ↔ t ∈ s.todos ∧ t.listId = lid := by
  simp [todosOf, List.mem_filter]

theorem findTodo_mem {s : Store} {i : Nat} {t : Todo} (h : findTodo s i = some t) :
    t ∈ s.todos ∧ t.id = i := by
  refine ⟨List.mem_of_find?_eq_some h, ?_⟩
  have := List.find?_some h
  simpa using this

theorem findList_mem {s : Store} {i : Nat} {l : TodoList} (h : findList s i = some l) :
    l ∈ s.lists ∧ l.id = i := by
  refine ⟨List.mem_of_find?_eq_some h, ?_⟩
  have := List.find?_some h
  simpa using this

theorem find?_key_eq_some_of_mem {α : Type} (key : α → Nat) {xs : List α} {x : α}
    (hnd : (xs.map key).Nodup) (hx : x ∈ xs) :
    xs.find? (fun y => key y == key x) = some x := by
  induction xs with
  | nil => simp at hx
  | cons a rest ih =>
    rcases List.mem_cons.mp hx with rfl | hx'
    · simp
    · have ha : key a ≠ key x := by
        simp only [List.map_cons, List.nodup_cons] at hnd
        intro he
        exact hnd.1 (he ▸ List.mem_map_of_mem key hx')
      rw [List.find?_cons_of_neg _ (by simpa using ha)]
      exact ih (by simp only [List.map_cons, List.nodup_cons] at hnd; exact hnd.2) hx'

theorem findList_eq_some_of_mem {s : Store} {l : TodoList}
    (hnd : (s.lists.map TodoList.id).Nodup) (hl : l ∈ s.lists) :
    findList s l.id = some l :=
  find?_key_eq_some_of_mem TodoList.id hnd hl

theorem findTodo_eq_some_of_mem {s : Store} {t : Todo}
    (hnd : (s.todos.map Todo.id).Nodup) (ht : t ∈ s.todos) :
    findTodo s t.id = some t :=
  find?_key_eq_some_of_mem Todo.id hnd ht

/-! ## Claim theorems: channel boundary and event dispatch -/

/-- C10: for every delivered sync event whose type is none of the six
recognized kinds, `handleSyncEvent` logs a warning and returns normally — it
performs no local write, makes no remote call and raises no error, so the
message is acknowledged like a successful one. -/
theorem handleSyncEvent_unknown_kind (B : Backend) (ev : SyncEvent) (s : Store)
    (r : Remote)
    (h : ev.type ∉ ["create-todo-list", "update-todo-list", "delete-todo-list",
      "create-todo-item", "update-todo-item", "delete-todo-item"]) :
    SyncService.handleSyncEvent B ev s r =
      ⟨s, r, [], [], false, true, none⟩ := by
  simp only [List.mem_cons, List.not_mem_nil, or_false, not_or] at h
  obtain ⟨h1, h2, h3, h4, h5, h6⟩ := h
  unfold SyncService.handleSyncEvent
  simp [h1, h2, h3, h4, h5, h6]

/-- Witness for C10: a concrete unrecognized event type is handled as a
warning-only no-op. -/
theorem handleSyncEvent_unknown_kind_witness :
    ("mystery-event" : String) ∉ ["create-todo-list", "update-todo-list",
      "delete-todo-list", "create-todo-item", "update-todo-item",
      "delete-todo-item"] ∧
    SyncService.handleSyncEvent specBackend ⟨"mystery-event", 7⟩ Store.init Remote.init =
      ⟨Store.init, Remote.init, [], [], false, true, none⟩ :=
  ⟨by decide,
   handleSyncEvent_unknown_kind specBackend ⟨"mystery-event", 7⟩ Store.init Remote.init
     (by decide)⟩

/-- C9: the consumer acknowledges every delivered message exactly once after
the handler returns — both on success (or deliberate no-op) and on any
thrown error; the error is logged and never propagated past the channel
boundary, and in both cases the consumer's resulting state is exactly the
handler's resulting state. -/
theorem consumer_acks_unconditionally (B : Backend) (ev : SyncEvent) (s : Store)
    (r : Remote) :
    (SyncConsumer.handleSyncEvent B ev s r).acks = 1 ∧
    (SyncConsumer.handleSyncEvent B ev s r).store = (SyncService.handleSyncEvent B ev s r).store ∧
    (SyncConsumer.handleSyncEvent B ev s r).remote = (SyncService.handleSyncEvent B ev s r).remote ∧
    (SyncConsumer.handleSyncEvent B ev s r).errorLogged = (SyncService.handleSyncEvent B ev s r).err.isSome := by
  unfold SyncConsumer.handleSyncEvent
  cases h : (SyncService.handleSyncEvent B ev s r).err <;> simp [h]

/-- C7: the Outbound Synchronizer never issues an isolated remote
item-creation call.  First: for an `ItemCreated` event whose owning list is
already synced but whose item is not, the handler makes no remote call,
logs the permanently-unsynced warning and changes no state (and raises no
error).  Second: on the reference server, no recorded call other than the
bundled list-creation POST can increase the number of remote items. -/
theorem no_isolated_item_creation :
    (∀ (B : Backend) (s : Store) (r : Remote) (i : Nat) (todo : Todo)
      (todoList : TodoList),
      findTodo s i = some todo →
      findList s todo.listId = some todoList →
      truthy todo.external_id = false →
      truthy todoList.external_id = true →
      SyncService.createTodoItem B s r i = ⟨s, r, [], [], true, false, none⟩) ∧
    (∀ (c : RemoteCall) (r : Remote), c.isPostList = false →
      remoteItemCount (applySpecCall r c) ≤ remoteItemCount r) := by
  constructor
  · intro B s r i todo todoList hft hfl hext hlext
    unfold SyncService.createTodoItem
    simp only [hft, hfl, hext, hlext]
    simp
  · intro c r hc
    cases c with
    | postList body => simp [RemoteCall.isPostList] at hc
    | patchList eid name =>
      unfold applySpecCall Remote.patchListImpl
      by_cases h : r.lists.any (fun l => l.id == eid)
      · simp only [h, if_true, remoteItemCount, List.map_map]
        apply Nat.le_of_eq
        apply congrArg
        apply List.map_congr_left
        intro l _
        by_cases hl : l.id == eid <;> simp [Function.comp, hl]
      · simp [h]
    | deleteList eid =>
      unfold applySpecCall Remote.deleteListImpl
      by_cases h : r.lists.any (fun l => l.id == eid)
      · simp only [h, if_true, remoteItemCount]
        apply List.Sublist.sum_le_sum ((List.filter_sublist _).map _)
        intro a _
        exact Nat.zero_le a
      · simp [h]
    | patchItem leid ieid d cpl =>
      unfold applySpecCall Remote.patchItemImpl
      by_cases h : r.lists.any (fun l => l.id == leid && l.items.any (fun it => it.id == some ieid))
      · simp only [h, if_true, remoteItemCount, List.map_map]
        apply Nat.le_of_eq
        apply congrArg
        apply List.map_congr_left
        intro l _
        by_cases hl : l.id == leid <;> simp [Function.comp, hl]
      · simp [h]
    | deleteItem leid ieid =>
      unfold applySpecCall Remote.deleteItemImpl
      by_cases h : r.lists.any (fun l => l.id == leid && l.items.any (fun it => it.id == some ieid))
      · simp only [h, if_true, remoteItemCount, List.map_map]
        apply List.sum_le_sum
        intro l _
        by_cases hl : l.id == leid
        · simp only [Function.comp, hl, if_true]
          exact (List.filter_sublist _).length_le
        · simp [Function.comp, hl]
      · simp [h]
    | getLists => exact Nat.le_refl _

/-- Witness for C7: in a concrete store whose list is synced but whose item
is not, the `ItemCreated` handler is a warning-only no-op, and a concrete
non-POST call does not grow the remote item count. -/
theorem no_isolated_item_creation_witness :
    SyncService.createTodoItem specBackend
      ⟨[⟨1, some "rl-1", "G"⟩], [⟨10, none, "eggs", false, 1⟩], 2, 11⟩
      Remote.init 10 =
      ⟨⟨[⟨1, some "rl-1", "G"⟩], [⟨10, none, "eggs", false, 1⟩], 2, 11⟩,
        Remote.init, [], [], true, false, none⟩ ∧
    remoteItemCount (applySpecCall Remote.init (.deleteList "rl-1")) ≤
      remoteItemCount Remote.init :=
  ⟨no_isolated_item_creation.1 specBackend
      ⟨[⟨1, some "rl-1", "G"⟩], [⟨10, none, "eggs", false, 1⟩], 2, 11⟩
      Remote.init 10 ⟨10, none, "eggs", false, 1⟩ ⟨1, some "rl-1", "G"⟩
      (by decide) (by decide) (by decide) (by decide),
   no_isolated_item_creation.2 (.deleteList "rl-1") Remote.init (by decide)⟩

/-! ## Lemmas about the bundled-creation echo loop -/

theorem applyEchoItems_append (todos : List Todo) (as bs : List PostItemResp)
    (acc : Store × List Write) :
    SyncService.applyEchoItems todos (as ++ bs) acc =
      SyncService.applyEchoItems todos bs (SyncService.applyEchoItems todos as acc) := by
  simp [SyncService.applyEchoItems, List.foldl_append]

theorem applyEchoItems_lists (todos : List Todo) (items : List PostItemResp) :
    ∀ (st : Store) (ws : List Write),
      (SyncService.applyEchoItems todos items (st, ws)).1.lists = st.lists := by
  induction items with
  | nil => intro st ws; rfl
  | cons ri rest ih =>
    intro st ws
    unfold SyncService.applyEchoItems
    simp only [List.foldl_cons]
    cases h : SyncService.echoMatch todos ri with
    | none => simpa [h, SyncService.applyEchoItems] using ih st ws
    | some t =>
      simp only [h]
      exact ih _ _

theorem applyEchoItems_counters (todos : List Todo) (items : List PostItemResp) :
    ∀ (st : Store) (ws : List Write),
      (SyncService.applyEchoItems todos items (st, ws)).1.nextListId = st.nextListId ∧
      st.nextTodoId ≤ (SyncService.applyEchoItems todos items (st, ws)).1.nextTodoId := by
  induction items with
  | nil => intro st ws; exact ⟨rfl, Nat.le_refl _⟩
  | cons ri rest ih =>
    intro st ws
    unfold SyncService.applyEchoItems
    simp only [List.foldl_cons]
    cases h : SyncService.echoMatch todos ri with
    | none => simpa [h, SyncService.applyEchoItems] using ih st ws
    | some t =>
      simp only [h]
      refine ⟨(ih _ _).1, ?_⟩
      refine Nat.le_trans ?_ (ih _ _).2
      exact Nat.le_max_left _ _

theorem applyEchoItems_findTodo_frame (todos : List Todo) (items : List PostItemResp)
    (j : Nat)
    (h : ∀ ri ∈ items, ∀ t, SyncService.echoMatch todos ri = some t → t.id ≠ j) :
    ∀ (st : Store) (ws : List Write),
      findTodo (SyncService.applyEchoItems todos items (st, ws)).1 j = findTodo st j := by
  induction items with
  | nil => intro st ws; rfl
  | cons ri rest ih =>
    intro st ws
    unfold SyncService.applyEchoItems
    simp only [List.foldl_cons]
    cases hm : SyncService.echoMatch todos ri with
    | none =>
      simpa [hm, SyncService.applyEchoItems] using
        ih (fun ri' hri' t' hm' => h ri' (List.mem_cons_of_mem ri hri') t' hm') st ws
    | some t =>
      simp only [hm]
      have ht : t.id ≠ j := h ri (List.mem_cons_self ri rest) t hm
      have := ih (fun ri' hri' t' hm' => h ri' (List.mem_cons_of_mem ri hri') t' hm')
        (st.saveTodo { t with external_id := some ri.id })
        (ws ++ [Write.saveTodo { t with external_id := some ri.id }])
      unfold SyncService.applyEchoItems at this
      rw [this]
      exact findTodo_saveTodo_other st _ j ht

theorem applyEchoItems_findTodo_assigned (todos : List Todo) (ri : PostItemResp)
    (post : List PostItemResp) (t : Todo)
    (hm : SyncService.echoMatch todos ri = some t)
    (hpost : ∀ ri' ∈ post, ∀ t', SyncService.echoMatch todos ri' = some t' → t'.id ≠ t.id) :
    ∀ (st : Store) (ws : List Write),
      findTodo (SyncService.applyEchoItems todos (ri :: post) (st, ws)).1 t.id =
        some { t with external_id := some ri.id } := by
  intro st ws
  unfold SyncService.applyEchoItems
  simp only [List.foldl_cons, hm]
  have hframe := applyEchoItems_findTodo_frame todos post t.id hpost
    (st.saveTodo { t with external_id := some ri.id })
    (ws ++ [Write.saveTodo { t with external_id := some ri.id }])
  unfold SyncService.applyEchoItems at hframe
  rw [hframe]
  exact findTodo_saveTodo_self st { t with external_id := some ri.id }

/-- Characterization of `createTodoList` on the unsynced branch with a
successful POST. -/
theorem createTodoList_success_spec (B : Backend) (s : Store) (r : Remote)
    (l : TodoList) (i : Nat)
    (hfind : findList s i = some l) (hext : truthy l.external_id = false)
    {r' : Remote} {resp : PostListResp}
    (hpost : B.postList (SyncService.listBody s l) r = (r', some resp)) :
    SyncService.createTodoList B s r i =
      ⟨(SyncService.applyEchoItems (todosOf s l.id) resp.items
          (s.saveList { l with external_id := some resp.id },
           [Write.saveList { l with external_id := some resp.id }])).1,
       r', [.postList (SyncService.listBody s l)],
       (SyncService.applyEchoItems (todosOf s l.id) resp.items
          (s.saveList { l with external_id := some resp.id },
           [Write.saveList { l with external_id := some resp.id }])).2,
       false, false, none⟩ := by
  unfold SyncService.createTodoList
  simp only [hfind, hext, Bool.false_eq_true, if_false, hpost]

theorem findList_ext {s₁ s₂ : Store} (h : s₁.lists = s₂.lists) (j : Nat) :
    findList s₁ j = findList s₂ j := by
  unfold findList
  rw [h]

/-- C6: postcondition of the ListCreated handler.  An absent list id fails
with NotFound; a list with `external_id` already set is a no-op with no
remote call and no state change; otherwise the handler submits exactly one
creation request carrying the list's local id as source identifier, its
name, and its current items with their local ids, and on a successful
response it stores the returned remote list id as the list's `external_id`
and, for every response item whose recognizable source identifier matches a
local todo, stores the returned remote item id on that todo (all other
records unchanged). -/
theorem listCreated_postcondition (B : Backend) (s : Store) (r : Remote) (i : Nat) :
    (findList s i = none →
      SyncService.createTodoList B s r i = ⟨s, r, [], [], false, false, some .notFound⟩) ∧
    (∀ l, findList s i = some l → truthy l.external_id = true →
      SyncService.createTodoList B s r i = ⟨s, r, [], [], false, false, none⟩) ∧
    (∀ l, findList s i = some l → truthy l.external_id = false →
      ∀ r' resp, B.postList (SyncService.listBody s l) r = (r', some resp) →
        (SyncService.createTodoList B s r i).err = none ∧
        (SyncService.createTodoList B s r i).remote = r' ∧
        (SyncService.createTodoList B s r i).calls
          = [.postList (SyncService.listBody s l)] ∧
        findList (SyncService.createTodoList B s r i).store l.id =
          some { l with external_id := some resp.id } ∧
        (∀ j, l.id ≠ j →
          findList (SyncService.createTodoList B s r i).store j = findList s j) ∧
        (∀ j, (∀ ri ∈ resp.items, ∀ t,
            SyncService.echoMatch (todosOf s l.id) ri = some t → t.id ≠ j) →
          findTodo (SyncService.createTodoList B s r i).store j = findTodo s j) ∧
        (∀ pre ri post, resp.items = pre ++ ri :: post →
          ∀ t, SyncService.echoMatch (todosOf s l.id) ri = some t →
          (∀ ri' ∈ post, ∀ t',
            SyncService.echoMatch (todosOf s l.id) ri' = some t' → t'.id ≠ t.id) →
          findTodo (SyncService.createTodoList B s r i).store t.id =
            some { t with external_id := some ri.id })) := by
  refine ⟨?_, ?_, ?_⟩
  · intro h
    unfold SyncService.createTodoList
    simp [h]
  · intro l h hext
    unfold SyncService.createTodoList
    simp [h, hext]
  · intro l h hext r' resp hpost
    rw [createTodoList_success_spec B s r l i h hext hpost]
    refine ⟨rfl, rfl, rfl, ?_, ?_, ?_, ?_⟩
    · rw [findList_ext (applyEchoItems_lists _ _ _ _) l.id]
      exact findList_saveList_self s { l with external_id := some resp.id }
    · intro j hj
      rw [findList_ext (applyEchoItems_lists _ _ _ _) j]
      exact findList_saveList_other s _ j hj
    · intro j hj
      rw [applyEchoItems_findTodo_frame _ _ j hj _ _]
      rfl
    · intro pre ri post hitems t hm hpostu
      simp only [hitems, applyEchoItems_append]
      have := applyEchoItems_findTodo_assigned (todosOf s l.id) ri post t hm hpostu
        (SyncService.applyEchoItems (todosOf s l.id) pre
          (s.saveList { l with external_id := some resp.id },
           [Write.saveList { l with external_id := some resp.id }])).1
        (SyncService.applyEchoItems (todosOf s l.id) pre
          (s.saveList { l with external_id := some resp.id },
           [Write.saveList { l with external_id := some resp.id }])).2
      simpa using this

/-- Witness for C6: the spec's own scenario — list 1 "Groceries" with no
items; the POST carries `{source_id:"1", name:"Groceries", items:[]}`, the
reference server answers id "rl-1", and the local record ends up with that
external id. -/
theorem listCreated_postcondition_witness :
    SyncService.listBody ⟨[⟨1, none, "Groceries"⟩], [], 2, 1⟩ ⟨1, none, "Groceries"⟩
      = ⟨"1", "Groceries", []⟩ ∧
    (SyncService.createTodoList specBackend ⟨[⟨1, none, "Groceries"⟩], [], 2, 1⟩
      Remote.init 1).calls = [.postList ⟨"1", "Groceries", []⟩] ∧
    findList (SyncService.createTodoList specBackend ⟨[⟨1, none, "Groceries"⟩], [], 2, 1⟩
      Remote.init 1).store 1 = some ⟨1, some "rl-1", "Groceries"⟩ := by
  have h := (listCreated_postcondition specBackend ⟨[⟨1, none, "Groceries"⟩], [], 2, 1⟩
    Remote.init 1).2.2 ⟨1, none, "Groceries"⟩ (by decide) (by decide)
    ⟨[⟨"rl-1", some "1", "Groceries", []⟩], 2⟩ ⟨"rl-1", []⟩ (by decide)
  refine ⟨by decide, ?_, ?_⟩
  · have hc := h.2.2.1
    rw [hc]
    decide
  · exact h.2.2.2.1

/-- The `ItemCreated` handler on an unsynced item of a never-synced list,
when the POST succeeds and the response echoes the item's source identifier:
one bundled POST, the item ends up with the echoed remote id. -/
theorem createTodoItem_unsynced_spec (B : Backend) (s : Store) (r : Remote)
    (todo : Todo) (todoList : TodoList)
    (hft : findTodo s todo.id = some todo)
    (hfl : findList s todo.listId = some todoList)
    (hext : todo.external_id = none)
    (hlext : todoList.external_id = none)
    {r' : Remote} {resp : PostListResp}
    (hpost : B.postList (SyncService.listBody s todoList) r = (r', some resp))
    (pre post : List PostItemResp) (ri : PostItemResp)
    (hitems : resp.items = pre ++ ri :: post)
    (hrim : SyncService.echoMatch (todosOf s todoList.id) ri = some todo)
    (hpostu : ∀ ri' ∈ post, ∀ t',
      SyncService.echoMatch (todosOf s todoList.id) ri' = some t' → t'.id ≠ todo.id)
    (hne : ri.id ≠ "") :
    SyncService.createTodoItem B s r todo.id =
      SyncService.createTodoList B s r todoList.id ∧
    (SyncService.createTodoItem B s r todo.id).calls
      = [.postList (SyncService.listBody s todoList)] ∧
    findTodo (SyncService.createTodoItem B s r todo.id).store todo.id =
      some { todo with external_id := some ri.id } ∧
    (SyncService.createTodoItem B s r todo.id).err = none := by
  have hfl' : findList s todoList.id = some todoList := by
    have := findList_mem hfl
    rw [this.2]
    exact hfl
  have hlextF : truthy todoList.external_id = false := by rw [hlext]; rfl
  have hspec := createTodoList_success_spec B s r todoList todoList.id hfl' hlextF hpost
  have hassigned :
      findTodo (SyncService.applyEchoItems (todosOf s todoList.id) resp.items
        (s.saveList { todoList with external_id := some resp.id },
         [Write.saveList { todoList with external_id := some resp.id }])).1 todo.id =
      some { todo with external_id := some ri.id } := by
    simp only [hitems, applyEchoItems_append]
    have := applyEchoItems_findTodo_assigned (todosOf s todoList.id) ri post todo hrim hpostu
      (SyncService.applyEchoItems (todosOf s todoList.id) pre
        (s.saveList { todoList with external_id := some resp.id },
         [Write.saveList { todoList with external_id := some resp.id }])).1
      (SyncService.applyEchoItems (todosOf s todoList.id) pre
        (s.saveList { todoList with external_id := some resp.id },
         [Write.saveList { todoList with external_id := some resp.id }])).2
    simpa using this
  have hstep : SyncService.createTodoItem B s r todo.id =
      SyncService.createTodoList B s r todoList.id := by
    unfold SyncService.createTodoItem
    simp only [hft, hfl, hext, truthy_none, Bool.false_eq_true, if_false,
      Bool.not_false, if_true, hspec]
    simp only [hassigned, Option.isSome_none, Bool.false_eq_true, if_false,
      truthy_some_of_ne hne, if_true, hlextF, Bool.not_false]
  refine ⟨hstep, ?_, ?_, ?_⟩
  · rw [hstep, hspec]
  · rw [hstep, hspec]
    exact hassigned
  · rw [hstep, hspec]

/-- C5: dependent-sync ordering.  For a local list that has never been
synced containing an item, processing that item's own `ItemCreated` (or
`ItemUpdated`) event causes exactly one remote list-creation call — the POST
of the list bundling its items, not two — and afterwards the item's
`external_id` equals the remote item id returned for the item's source
identifier in that single call's response. -/
theorem dependent_sync_ordering (B : Backend) (s : Store) (r : Remote)
    (ty : String)
    (hty : ty = "create-todo-item" ∨ ty = "update-todo-item")
    (todo : Todo) (todoList : TodoList)
    (hft : findTodo s todo.id = some todo)
    (hfl : findList s todo.listId = some todoList)
    (hext : todo.external_id = none)
    (hlext : todoList.external_id = none)
    {r' : Remote} {resp : PostListResp}
    (hpost : B.postList (SyncService.listBody s todoList) r = (r', some resp))
    (pre post : List PostItemResp) (ri : PostItemResp)
    (hitems : resp.items = pre ++ ri :: post)
    (hrim : SyncService.echoMatch (todosOf s todoList.id) ri = some todo)
    (hpostu : ∀ ri' ∈ post, ∀ t',
      SyncService.echoMatch (todosOf s todoList.id) ri' = some t' → t'.id ≠ todo.id)
    (hne : ri.id ≠ "") :
    ((SyncService.handleSyncEvent B ⟨ty, todo.id⟩ s r).calls.filter
      RemoteCall.isPostList).length = 1 ∧
    (SyncService.handleSyncEvent B ⟨ty, todo.id⟩ s r).calls
      = [.postList (SyncService.listBody s todoList)] ∧
    findTodo (SyncService.handleSyncEvent B ⟨ty, todo.id⟩ s r).store todo.id =
      some { todo with external_id := some ri.id } ∧
    (SyncService.handleSyncEvent B ⟨ty, todo.id⟩ s r).err = none := by
  have hitem := createTodoItem_unsynced_spec B s r todo todoList hft hfl hext hlext
    hpost pre post ri hitems hrim hpostu hne
  have hgoal : ∀ res, res = SyncService.createTodoItem B s r todo.id →
      ((res.calls.filter RemoteCall.isPostList).length = 1 ∧
      res.calls = [.postList (SyncService.listBody s todoList)] ∧
      findTodo res.store todo.id = some { todo with external_id := some ri.id } ∧
      res.err = none) := by
    intro res hres
    subst hres
    refine ⟨?_, hitem.2.1, hitem.2.2.1, hitem.2.2.2⟩
    rw [hitem.2.1]
    rfl
  rcases hty with rfl | rfl
  · exact hgoal _ rfl
  · have hd : SyncService.handleSyncEvent B ⟨"update-todo-item", todo.id⟩ s r
        = SyncService.updateTodoItem B s r todo.id := rfl
    rw [hd]
    have hdel : SyncService.updateTodoItem B s r todo.id
        = SyncService.createTodoItem B s r todo.id := by
      unfold SyncService.updateTodoItem
      simp only [hft, hfl, hext, truthy_none, Bool.not_false, if_true]
    rw [hdel]
    exact hgoal _ rfl

/-- Witness for C5: the spec's own scenario — item 10 in never-synced list 1;
its `ItemCreated` event triggers one bundled POST and the item picks up the
echoed remote id, with no direct item-creation call. -/
theorem dependent_sync_ordering_witness :
    ((SyncService.handleSyncEvent specBackend ⟨"create-todo-item", 10⟩
      ⟨[⟨1, none, "G"⟩], [⟨10, none, "eggs", false, 1⟩], 2, 11⟩ Remote.init).calls.filter
        RemoteCall.isPostList).length = 1 ∧
    findTodo (SyncService.handleSyncEvent specBackend ⟨"create-todo-item", 10⟩
      ⟨[⟨1, none, "G"⟩], [⟨10, none, "eggs", false, 1⟩], 2, 11⟩ Remote.init).store 10 =
      some ⟨10, some "ri-2", "eggs", false, 1⟩ := by
  have h := dependent_sync_ordering specBackend
    ⟨[⟨1, none, "G"⟩], [⟨10, none, "eggs", false, 1⟩], 2, 11⟩ Remote.init
    "create-todo-item" (Or.inl rfl)
    ⟨10, none, "eggs", false, 1⟩ ⟨1, none, "G"⟩
    (by decide) (by decide) rfl rfl
    (by decide :
      specBackend.postList
        (SyncService.listBody ⟨[⟨1, none, "G"⟩], [⟨10, none, "eggs", false, 1⟩], 2, 11⟩
          ⟨1, none, "G"⟩) Remote.init =
      (⟨[⟨"rl-1", some "1", "G", [⟨some "ri-2", some "10", "eggs", false⟩]⟩], 3⟩,
       some ⟨"rl-1", [⟨"ri-2", some "10"⟩]⟩))
    [] [] ⟨"ri-2", some "10"⟩ rfl (by decide) (by decide) (by decide)
  exact ⟨h.1, h.2.2.1⟩

/-- C1 (failing evaluation): the Inbound Reconciler pass is not idempotent.
Against an unchanged remote snapshot holding one remote-originated list (no
source identifier), the first pass imports it into the empty local store;
the second pass, run against the very same remote state, imports it again,
leaving two local lists (and two local items) carrying the same
`external_id` — duplicating the remote record instead of recognizing it. -/
theorem syncFromExternal_duplicates_remote_originated :
    (SyncService.syncFromExternal specBackend Store.init
        ⟨[⟨"e1", none, "A", [⟨some "i1", none, "milk", false⟩]⟩], 1⟩).remote
      = ⟨[⟨"e1", none, "A", [⟨some "i1", none, "milk", false⟩]⟩], 1⟩ ∧
    (SyncService.syncFromExternal specBackend Store.init
        ⟨[⟨"e1", none, "A", [⟨some "i1", none, "milk", false⟩]⟩], 1⟩).store.lists.length
      = 1 ∧
    ((SyncService.syncFromExternal specBackend
        (SyncService.syncFromExternal specBackend Store.init
          ⟨[⟨"e1", none, "A", [⟨some "i1", none, "milk", false⟩]⟩], 1⟩).store
        (SyncService.syncFromExternal specBackend Store.init
          ⟨[⟨"e1", none, "A", [⟨some "i1", none, "milk", false⟩]⟩], 1⟩).remote).store.lists.filter
      (fun l => l.external_id == some "e1")).length = 2 ∧
    ((SyncService.syncFromExternal specBackend
        (SyncService.syncFromExternal specBackend Store.init
          ⟨[⟨"e1", none, "A", [⟨some "i1", none, "milk", false⟩]⟩], 1⟩).store
        (SyncService.syncFromExternal specBackend Store.init
          ⟨[⟨"e1", none, "A", [⟨some "i1", none, "milk", false⟩]⟩], 1⟩).remote).store.todos.filter
      (fun t => t.external_id == some "i1")).length = 2 := by
  decide

/-! ## Writes, replay, and the data-model invariant -/

theorem runWrites_append_chunk (s : Store) (a b : List Write) :
    runWrites s (a ++ b) = runWrites (runWrites s a) b := by
  simp [runWrites, List.foldl_append]

theorem foldl_preserve {α β : Type} {P : α → Prop} (f : α → β → α) (l : List β) :
    ∀ a, P a → (∀ a x, x ∈ l → P a → P (f a x)) → P (l.foldl f a) := by
  induction l with
  | nil => intro a ha _; exact ha
  | cons x xs ih =>
    intro a ha hstep
    exact ih (f a x) (hstep a x (List.mem_cons_self x xs) ha)
      (fun a' y hy ha' => hstep a' y (List.mem_cons_of_mem x hy) ha')

theorem echoMatch_mem {todos : List Todo} {ri : PostItemResp} {t : Todo}
    (h : SyncService.echoMatch todos ri = some t) : t ∈ todos := by
  unfold SyncService.echoMatch at h
  cases hsi : ri.source_id with
  | none => rw [hsi] at h; exact absurd h (by simp)
  | some sid => rw [hsi] at h; exact List.mem_of_find?_eq_some h

theorem lookupByExternalId_mem {todos : List Todo} {eid : String} {t : Todo}
    (h : SyncService.lookupByExternalId todos eid = some t) : t ∈ todos := by
  unfold SyncService.lookupByExternalId at h
  have := List.mem_of_find?_eq_some h
  rw [List.mem_reverse] at this
  exact (List.mem_filter.mp this).1

theorem inv_to_except (j : Nat) {s : Store} (h : itemListInv s) :
    itemListInvExcept j s := by
  intro t ht hext
  exact Or.inr (h t ht hext)

theorem except_to_inv {j : Nat} {s : Store} (h : itemListInvExcept j s)
    (hl : ∃ l ∈ s.lists, l.id = j ∧ l.external_id.isSome = true) :
    itemListInv s := by
  intro t ht hext
  rcases h t ht hext with hj | hok
  · obtain ⟨l, hml, hid, hsome⟩ := hl
    exact ⟨l, hml, by rw [hid, hj], hsome⟩
  · exact hok

theorem saveTodo_except {j : Nat} {s : Store} (t' : Todo)
    (h : itemListInvExcept j s) (ht : t'.listId = j) :
    itemListInvExcept j (s.saveTodo t') := by
  intro t hmem hext
  rcases mem_upsertBy hmem with rfl | ⟨hold, _⟩
  · exact Or.inl ht
  · rcases h t hold hext with hj | ⟨l, hml, hid, hsome⟩
    · exact Or.inl hj
    · exact Or.inr ⟨l, hml, hid, hsome⟩

theorem saveList_fixes_except {j : Nat} {s : Store} {ul : TodoList}
    (h : itemListInvExcept j s) (hid : ul.id = j)
    (hsome : ul.external_id.isSome = true) :
    itemListInv (s.saveList ul) := by
  intro t hmem hext
  have hmem' : t ∈ s.todos := hmem
  rcases h t hmem' hext with hj | ⟨l, hml, hlid, hlsome⟩
  · exact ⟨ul, self_mem_upsertBy s.lists ul, by rw [hid, hj], hsome⟩
  · by_cases hcase : l.id = ul.id
    · exact ⟨ul, self_mem_upsertBy s.lists ul, by rw [hcase] at hlid; exact hlid, hsome⟩
    · exact ⟨l, mem_upsertBy_of_mem hml hcase, hlid, hlsome⟩

theorem saveList_isSome_inv {s : Store} {ul : TodoList}
    (hsome : ul.external_id.isSome = true) (hinv : itemListInv s) :
    itemListInv (s.saveList ul) :=
  saveList_fixes_except (inv_to_except ul.id hinv) rfl hsome

theorem saveTodo_inv {s : Store} (t' : Todo) (hinv : itemListInv s)
    (hok : t'.external_id.isSome = true →
      ∃ l ∈ s.lists, l.id = t'.listId ∧ l.external_id.isSome = true) :
    itemListInv (s.saveTodo t') := by
  intro t hmem hext
  rcases mem_upsertBy hmem with rfl | ⟨hold, _⟩
  · exact hok hext
  · exact hinv t hold hext

theorem syncedListsSurvive_refl (s : Store) : syncedListsSurvive s s := by
  intro l hml hsome
  exact ⟨l, hml, rfl, hsome⟩

theorem syncedListsSurvive_lists_eq {s0 st st' : Store}
    (h : syncedListsSurvive s0 st) (he : st'.lists = st.lists) :
    syncedListsSurvive s0 st' := by
  intro l hml hsome
  rw [he]
  exact h l hml hsome

theorem syncedListsSurvive_saveList {s0 st : Store} {ul : TodoList}
    (h : syncedListsSurvive s0 st) (hsome : ul.external_id.isSome = true) :
    syncedListsSurvive s0 (st.saveList ul) := by
  intro l hml hls
  obtain ⟨l', hml', hid, hsome'⟩ := h l hml hls
  by_cases hcase : l'.id = ul.id
  · exact ⟨ul, self_mem_upsertBy st.lists ul, by rw [← hcase, hid], hsome⟩
  · exact ⟨l', mem_upsertBy_of_mem hml' hcase, hid, hsome'⟩

theorem importItems_except (j : Nat) (items : List ExtItem) :
    ∀ (st : Store) (ws : List Write),
      itemListInvExcept j st →
      itemListInvExcept j (SyncService.importItems j items (st, ws)).1 ∧
      (SyncService.importItems j items (st, ws)).1.lists = st.lists := by
  induction items with
  | nil => intro st ws h; exact ⟨h, rfl⟩
  | cons item rest ih =>
    intro st ws h
    unfold SyncService.importItems
    simp only [List.foldl_cons]
    have hstep := saveTodo_except
      (⟨st.nextTodoId, item.id, item.description, item.completed, j⟩ : Todo) h rfl
    have hrec := ih (st.saveTodo ⟨st.nextTodoId, item.id, item.description, item.completed, j⟩)
      (ws ++ [Write.saveTodo ⟨st.nextTodoId, item.id, item.description, item.completed, j⟩])
      hstep
    unfold SyncService.importItems at hrec
    exact ⟨hrec.1, hrec.2⟩

theorem reconcileItems_except (origTodos : List Todo) (lt : TodoList)
    (hor : ∀ t0 ∈ origTodos, t0.listId = lt.id) (items : List ExtItem) :
    ∀ (st : Store) (ws : List Write),
      itemListInvExcept lt.id st →
      itemListInvExcept lt.id
        ((items.foldl (SyncService.reconcileItem origTodos lt) (st, ws)).1) ∧
      ((items.foldl (SyncService.reconcileItem origTodos lt) (st, ws)).1).lists
        = st.lists := by
  induction items with
  | nil => intro st ws h; exact ⟨h, rfl⟩
  | cons item rest ih =>
    intro st ws h
    simp only [List.foldl_cons]
    have hone : itemListInvExcept lt.id
        (SyncService.reconcileItem origTodos lt (st, ws) item).1 ∧
        (SyncService.reconcileItem origTodos lt (st, ws) item).1.lists = st.lists := by
      unfold SyncService.reconcileItem
      by_cases hf : strFalsy item.id
      · simp only [hf, if_true]; exact ⟨h, trivial⟩
      · have hf' : strFalsy item.id = false := by simpa using hf
        simp only [hf', Bool.false_eq_true, if_false]
        cases hlk : SyncService.lookupByExternalId origTodos (item.id.getD "") with
        | none =>
          simp only [hlk]
          exact ⟨saveTodo_except _ h rfl, rfl⟩
        | some localTodo =>
          simp only [hlk]
          by_cases hchg : localTodo.title != item.description
              || localTodo.completed != item.completed
          · simp only [hchg, if_true]
            refine ⟨saveTodo_except _ h ?_, rfl⟩
            exact hor localTodo (lookupByExternalId_mem hlk)
          · have hchg' : (localTodo.title != item.description
                || localTodo.completed != item.completed) = false := by simpa using hchg
            simp only [hchg', Bool.false_eq_true, if_false]
            exact ⟨h, trivial⟩
    have hrec := ih (SyncService.reconcileItem origTodos lt (st, ws) item).1
      (SyncService.reconcileItem origTodos lt (st, ws) item).2 hone.1
    refine ⟨by simpa using hrec.1, ?_⟩
    rw [← hone.2]
    simpa using hrec.2

theorem importRemoteList_P (s : Store) (acc : SyncService.ReconcileAcc) (L : ExtList)
    (h : itemListInv acc.store ∧ syncedListsSurvive s acc.store) :
    itemListInv (SyncService.importRemoteList acc L).store ∧
    syncedListsSurvive s (SyncService.importRemoteList acc L).store := by
  obtain ⟨hinv, hsur⟩ := h
  unfold SyncService.importRemoteList
  have hsome : (some L.id).isSome = true := rfl
  have hinv1 : itemListInv
      (acc.store.saveList ⟨acc.store.nextListId, some L.id, L.name⟩) :=
    saveList_isSome_inv hsome hinv
  have hexc := importItems_except acc.store.nextListId L.items
    (acc.store.saveList ⟨acc.store.nextListId, some L.id, L.name⟩)
    (acc.writes ++ [Write.saveList ⟨acc.store.nextListId, some L.id, L.name⟩])
    (inv_to_except _ hinv1)
  have hpres : ∃ l' ∈ (SyncService.importItems acc.store.nextListId L.items
      (acc.store.saveList ⟨acc.store.nextListId, some L.id, L.name⟩,
       acc.writes ++ [Write.saveList ⟨acc.store.nextListId, some L.id, L.name⟩])).1.lists,
      l'.id = acc.store.nextListId ∧ l'.external_id.isSome = true := by
    rw [hexc.2]
    exact ⟨⟨acc.store.nextListId, some L.id, L.name⟩,
      self_mem_upsertBy acc.store.lists _, rfl, rfl⟩
  refine ⟨except_to_inv hexc.1 hpres, ?_⟩
  exact syncedListsSurvive_lists_eq
    (syncedListsSurvive_saveList hsur hsome) hexc.2

theorem reconcileWithSource_P (s : Store) (acc : SyncService.ReconcileAcc) (L : ExtList)
    (h : itemListInv acc.store ∧ syncedListsSurvive s acc.store) :
    itemListInv (SyncService.reconcileWithSource s acc L).store ∧
    syncedListsSurvive s (SyncService.reconcileWithSource s acc L).store := by
  obtain ⟨hinv, hsur⟩ := h
  unfold SyncService.reconcileWithSource
  cases hp : (parseIntTS (L.source_id.getD "")).bind (findList s) with
  | none => exact ⟨hinv, hsur⟩
  | some l0 =>
    have hl0 : l0 ∈ s.lists ∧ ∃ k, findList s k = some l0 := by
      cases hq : parseIntTS (L.source_id.getD "") with
      | none => rw [hq] at hp; simp at hp
      | some k =>
        rw [hq] at hp
        have hp' : findList s k = some l0 := hp
        exact ⟨(findList_mem hp').1, k, hp'⟩
    have hor : ∀ t0 ∈ todosOf s l0.id, t0.listId = l0.id :=
      fun t0 ht0 => (mem_todosOf.mp ht0).2
    have hmid := reconcileItems_except (todosOf s l0.id) l0 hor L.items
      acc.store acc.writes (inv_to_except l0.id hinv)
    by_cases hflag : (l0.name != L.name) || (l0.external_id != some L.id)
    · simp only [hflag, if_true]
      refine ⟨saveList_fixes_except hmid.1 rfl rfl, ?_⟩
      exact syncedListsSurvive_saveList
        (syncedListsSurvive_lists_eq hsur hmid.2) rfl
    · have hflag' : ((l0.name != L.name) || (l0.external_id != some L.id)) = false := by
        simpa using hflag
      simp only [hflag', Bool.false_eq_true, if_false]
      have hext0 : l0.external_id = some L.id := by
        have := (Bool.or_eq_false_iff.mp hflag').2
        simpa using this
      have hpres : ∃ l' ∈ ((L.items.foldl
          (SyncService.reconcileItem (todosOf s l0.id) l0)
          (acc.store, acc.writes)).1).lists,
          l'.id = l0.id ∧ l'.external_id.isSome = true := by
        rw [hmid.2]
        obtain ⟨l', hml', hid', hsome'⟩ := hsur l0 hl0.1 (by rw [hext0]; rfl)
        exact ⟨l', hml', hid', hsome'⟩
      refine ⟨except_to_inv hmid.1 hpres, ?_⟩
      exact syncedListsSurvive_lists_eq hsur hmid.2

theorem applyEchoItems_writes_shape (todos : List Todo) (items : List PostItemResp) :
    ∀ (st : Store) (ws : List Write),
      ∃ rest, (SyncService.applyEchoItems todos items (st, ws)).2 = ws ++ rest ∧
        ∀ w ∈ rest, ∃ (t0 : Todo) (ri : PostItemResp), t0 ∈ todos ∧
          w = Write.saveTodo { t0 with external_id := some ri.id } := by
  induction items with
  | nil => intro st ws; exact ⟨[], by simp [SyncService.applyEchoItems], by simp⟩
  | cons ri0 rest0 ih =>
    intro st ws
    unfold SyncService.applyEchoItems
    simp only [List.foldl_cons]
    cases hm : SyncService.echoMatch todos ri0 with
    | none =>
      have hrec := ih st ws
      unfold SyncService.applyEchoItems at hrec
      simpa [hm] using hrec
    | some t =>
      simp only [hm]
      have hrec := ih (st.saveTodo { t with external_id := some ri0.id })
        (ws ++ [Write.saveTodo { t with external_id := some ri0.id }])
      unfold SyncService.applyEchoItems at hrec
      obtain ⟨rest, hrest, hall⟩ := hrec
      refine ⟨Write.saveTodo { t with external_id := some ri0.id } :: rest, ?_, ?_⟩
      · rw [hrest, List.append_assoc]
        rfl
      · intro w hw
        rcases List.mem_cons.mp hw with rfl | hw'
        · exact ⟨t, ri0, echoMatch_mem hm, rfl⟩
        · exact hall w hw'

theorem applyEchoItems_replay (todos : List Todo) (items : List PostItemResp) :
    ∀ (st : Store) (ws : List Write) (s0 : Store), runWrites s0 ws = st →
      runWrites s0 (SyncService.applyEchoItems todos items (st, ws)).2
        = (SyncService.applyEchoItems todos items (st, ws)).1 := by
  induction items with
  | nil => intro st ws s0 h; exact h
  | cons ri0 rest0 ih =>
    intro st ws s0 h
    unfold SyncService.applyEchoItems
    simp only [List.foldl_cons]
    cases hm : SyncService.echoMatch todos ri0 with
    | none =>
      have hrec := ih st ws s0 h
      unfold SyncService.applyEchoItems at hrec
      simpa [hm] using hrec
    | some t =>
      simp only [hm]
      have hstep : runWrites s0 (ws ++ [Write.saveTodo { t with external_id := some ri0.id }])
          = st.saveTodo { t with external_id := some ri0.id } := by
        rw [runWrites_append_chunk, h]
        rfl
      have hrec := ih (st.saveTodo { t with external_id := some ri0.id })
        (ws ++ [Write.saveTodo { t with external_id := some ri0.id }]) s0 hstep
      unfold SyncService.applyEchoItems at hrec
      exact hrec

/-- Complete case analysis of `createTodoList`: NotFound, already-synced
no-op, failed POST, or successful bundled sync. -/
theorem createTodoList_cases (B : Backend) (s : Store) (r : Remote) (i : Nat) :
    (SyncService.createTodoList B s r i = ⟨s, r, [], [], false, false, some .notFound⟩) ∨
    (SyncService.createTodoList B s r i = ⟨s, r, [], [], false, false, none⟩) ∨
    (∃ body r', SyncService.createTodoList B s r i
        = ⟨s, r', [.postList body], [], false, false, some .remoteError⟩) ∨
    (∃ l r' resp, findList s i = some l ∧ truthy l.external_id = false ∧
      B.postList (SyncService.listBody s l) r = (r', some resp) ∧
      SyncService.createTodoList B s r i =
        ⟨(SyncService.applyEchoItems (todosOf s l.id) resp.items
            (s.saveList { l with external_id := some resp.id },
             [Write.saveList { l with external_id := some resp.id }])).1,
         r', [.postList (SyncService.listBody s l)],
         (SyncService.applyEchoItems (todosOf s l.id) resp.items
            (s.saveList { l with external_id := some resp.id },
             [Write.saveList { l with external_id := some resp.id }])).2,
         false, false, none⟩) := by
  cases hf : findList s i with
  | none =>
    left
    unfold SyncService.createTodoList
    simp [hf]
  | some l =>
    by_cases hext : truthy l.external_id
    · right; left
      unfold SyncService.createTodoList
      simp [hf, hext]
    · have hext' : truthy l.external_id = false := by simpa using hext
      cases hpair : B.postList (SyncService.listBody s l) r with
      | mk r' o =>
        cases o with
        | none =>
          right; right; left
          refine ⟨SyncService.listBody s l, r', ?_⟩
          unfold SyncService.createTodoList
          simp [hf, hext', hpair]
        | some resp =>
          right; right; right
          exact ⟨l, r', resp, rfl, hext', hpair,
            createTodoList_success_spec B s r l i hf hext' hpair⟩

theorem createTodoList_writes_shape (B : Backend) (s : Store) (r : Remote) (i : Nat) :
    HandlerWrites ((SyncService.createTodoList B s r i).writes) := by
  rcases createTodoList_cases B s r i with h | h | ⟨body, r', h⟩ | ⟨l, r', resp, _, _, _, h⟩
  · rw [h]; exact Or.inl rfl
  · rw [h]; exact Or.inl rfl
  · rw [h]; exact Or.inl rfl
  · rw [h]
    right
    obtain ⟨rest, hrest, hall⟩ := applyEchoItems_writes_shape (todosOf s l.id) resp.items
      (s.saveList { l with external_id := some resp.id })
      [Write.saveList { l with external_id := some resp.id }]
    refine ⟨{ l with external_id := some resp.id }, rest, ?_, rfl, ?_⟩
    · rw [hrest]
      rfl
    · intro w hw
      obtain ⟨t0, ri, ht0, hw'⟩ := hall w hw
      exact ⟨{ t0 with external_id := some ri.id }, hw', (mem_todosOf.mp ht0).2, rfl⟩

theorem createTodoList_replay (B : Backend) (s : Store) (r : Remote) (i : Nat) :
    runWrites s ((SyncService.createTodoList B s r i).writes)
      = (SyncService.createTodoList B s r i).store := by
  rcases createTodoList_cases B s r i with h | h | ⟨body, r', h⟩ | ⟨l, r', resp, _, _, _, h⟩
  · rw [h]; rfl
  · rw [h]; rfl
  · rw [h]; rfl
  · rw [h]
    exact applyEchoItems_replay (todosOf s l.id) resp.items _ _ s rfl

theorem createTodoList_delegated (B : Backend) (s : Store) (r : Remote) (i : Nat) :
    DelegatedWS B s r ((SyncService.createTodoList B s r i).writes)
      ((SyncService.createTodoList B s r i).store) :=
  Or.inr ⟨i, rfl, rfl⟩

theorem updateTodoList_delegated (B : Backend) (s : Store) (r : Remote) (i : Nat) :
    DelegatedWS B s r ((SyncService.updateTodoList B s r i).writes)
      ((SyncService.updateTodoList B s r i).store) := by
  unfold SyncService.updateTodoList
  cases hf : findList s i with
  | none => simp only [hf]; exact Or.inl ⟨rfl, rfl⟩
  | some l =>
    simp only [hf]
    by_cases htr : !truthy l.external_id
    · simp only [htr, if_true]
      exact createTodoList_delegated B s r i
    · have htr' : (!truthy l.external_id) = false := by simpa using htr
      simp only [htr', Bool.false_eq_true, if_false]
      cases hpair : B.patchList (l.external_id.getD "") l.name r with
      | mk r' b =>
        cases b <;> simp only [hpair] <;> exact Or.inl ⟨rfl, rfl⟩

theorem deleteTodoList_delegated (B : Backend) (s : Store) (r : Remote) (i : Nat) :
    DelegatedWS B s r ((SyncService.deleteTodoList B s r i).writes)
      ((SyncService.deleteTodoList B s r i).store) := by
  unfold SyncService.deleteTodoList
  cases hf : findList s i with
  | none => simp only [hf]; exact Or.inl ⟨rfl, rfl⟩
  | some l =>
    simp only [hf]
    by_cases htr : !truthy l.external_id
    · simp only [htr, if_true]
      exact Or.inl ⟨rfl, rfl⟩
    · have htr' : (!truthy l.external_id) = false := by simpa using htr
      simp only [htr', Bool.false_eq_true, if_false]
      cases hpair : B.deleteList (l.external_id.getD "") r with
      | mk r' d =>
        cases d <;> simp only [hpair] <;> exact Or.inl ⟨rfl, rfl⟩

theorem createTodoItem_delegated (B : Backend) (s : Store) (r : Remote) (i : Nat) :
    DelegatedWS B s r ((SyncService.createTodoItem B s r i).writes)
      ((SyncService.createTodoItem B s r i).store) := by
  unfold SyncService.createTodoItem
  cases hft : findTodo s i with
  | none => simp only [hft]; exact Or.inl ⟨rfl, rfl⟩
  | some todo =>
    simp only [hft]
    cases hfl : findList s todo.listId with
    | none => simp only [hfl]; exact Or.inl ⟨rfl, rfl⟩
    | some l =>
      simp only [hfl]
      by_cases hext : truthy todo.external_id
      · simp only [hext, if_true]
        exact Or.inl ⟨rfl, rfl⟩
      · have hext' : truthy todo.external_id = false := by simpa using hext
        simp only [hext', Bool.false_eq_true, if_false]
        by_cases hlx : !truthy l.external_id
        · simp only [hlx, if_true]
          by_cases herr : (SyncService.createTodoList B s r l.id).err.isSome
          · simp only [herr, if_true]
            exact Or.inr ⟨l.id, rfl, rfl⟩
          · have herr' : (SyncService.createTodoList B s r l.id).err.isSome = false := by
              simpa using herr
            simp only [herr', Bool.false_eq_true, if_false]
            cases hf2 : findTodo (SyncService.createTodoList B s r l.id).store i with
            | none => simp only [hf2]; exact Or.inr ⟨l.id, rfl, rfl⟩
            | some t2 =>
              simp only [hf2]
              by_cases ht2 : truthy t2.external_id
              · simp only [ht2, if_true]
                exact Or.inr ⟨l.id, rfl, rfl⟩
              · have ht2' : truthy t2.external_id = false := by simpa using ht2
                simp only [ht2', Bool.false_eq_true, if_false]
                exact Or.inr ⟨l.id, rfl, rfl⟩
        · have hlx' : (!truthy l.external_id) = false := by simpa using hlx
          simp only [hlx', Bool.false_eq_true, if_false]
          exact Or.inl ⟨rfl, rfl⟩

theorem updateTodoItem_delegated (B : Backend) (s : Store) (r : Remote) (i : Nat) :
    DelegatedWS B s r ((SyncService.updateTodoItem B s r i).writes)
      ((SyncService.updateTodoItem B s r i).store) := by
  unfold SyncService.updateTodoItem
  cases hft : findTodo s i with
  | none => simp only [hft]; exact Or.inl ⟨rfl, rfl⟩
  | some todo =>
    simp only [hft]
    cases hfl : findList s todo.listId with
    | none => simp only [hfl]; exact Or.inl ⟨rfl, rfl⟩
    | some l =>
      simp only [hfl]
      by_cases hext : !truthy todo.external_id
      · simp only [hext, if_true]
        exact createTodoItem_delegated B s r i
      · have hext' : (!truthy todo.external_id) = false := by simpa using hext
        simp only [hext', Bool.false_eq_true, if_false]
        by_cases hlx : !truthy l.external_id
        · simp only [hlx, if_true]
          by_cases herr : (SyncService.createTodoList B s r l.id).err.isSome
          · simp only [herr, if_true]
            exact Or.inr ⟨l.id, rfl, rfl⟩
          · have herr' : (SyncService.createTodoList B s r l.id).err.isSome = false := by
              simpa using herr
            simp only [herr', Bool.false_eq_true, if_false]
            cases hf2 : findTodo (SyncService.createTodoList B s r l.id).store i with
            | none => simp only [hf2]; exact Or.inr ⟨l.id, rfl, rfl⟩
            | some t2 =>
              simp only [hf2]
              by_cases ht2 : !truthy t2.external_id
              · simp only [ht2, if_true]
                exact Or.inr ⟨l.id, rfl, rfl⟩
              · have ht2' : (!truthy t2.external_id) = false := by simpa using ht2
                simp only [ht2', Bool.false_eq_true, if_false]
                cases hf3 : findList (SyncService.createTodoList B s r l.id).store t2.listId with
                | none => simp only [hf3]; exact Or.inr ⟨l.id, rfl, rfl⟩
                | some l2 =>
                  simp only [hf3]
                  cases hpair : B.patchItem (l2.external_id.getD "") (t2.external_id.getD "")
                      todo.title todo.completed
                      (SyncService.createTodoList B s r l.id).remote with
                  | mk r' b =>
                    cases b <;> simp only [hpair] <;> exact Or.inr ⟨l.id, rfl, rfl⟩
        · have hlx' : (!truthy l.external_id) = false := by simpa using hlx
          simp only [hlx', Bool.false_eq_true, if_false]
          cases hpair : B.patchItem (l.external_id.getD "") (todo.external_id.getD "")
              todo.title todo.completed r with
          | mk r' b =>
            cases b <;> simp only [hpair] <;> exact Or.inl ⟨rfl, rfl⟩

theorem deleteTodoItem_delegated (B : Backend) (s : Store) (r : Remote) (i : Nat) :
    DelegatedWS B s r ((SyncService.deleteTodoItem B s r i).writes)
      ((SyncService.deleteTodoItem B s r i).store) := by
  unfold SyncService.deleteTodoItem
  cases hft : findTodo s i with
  | none => simp only [hft]; exact Or.inl ⟨rfl, rfl⟩
  | some todo =>
    simp only [hft]
    by_cases hext : !truthy todo.external_id
    · simp only [hext, if_true]
      exact Or.inl ⟨rfl, rfl⟩
    · have hext' : (!truthy todo.external_id) = false := by simpa using hext
      simp only [hext', Bool.false_eq_true, if_false]
      cases hfl : findList s todo.listId with
      | none => simp only [hfl]; exact Or.inl ⟨rfl, rfl⟩
      | some l =>
        simp only [hfl]
        by_cases hlx : !truthy l.external_id
        · simp only [hlx, if_true]
          exact Or.inl ⟨rfl, rfl⟩
        · have hlx' : (!truthy l.external_id) = false := by simpa using hlx
          simp only [hlx', Bool.false_eq_true, if_false]
          cases hpair : B.deleteItem (l.external_id.getD "") (todo.external_id.getD "") r with
          | mk r' d =>
            cases d <;> simp only [hpair] <;> exact Or.inl ⟨rfl, rfl⟩

theorem handleSyncEvent_delegated (B : Backend) (ev : SyncEvent) (s : Store) (r : Remote) :
    DelegatedWS B s r ((SyncService.handleSyncEvent B ev s r).writes)
      ((SyncService.handleSyncEvent B ev s r).store) := by
  unfold SyncService.handleSyncEvent
  by_cases h1 : ev.type == "create-todo-list"
  · simp only [h1, if_true]; exact createTodoList_delegated B s r ev.id
  · have h1' : (ev.type == "create-todo-list") = false := by simpa using h1
    simp only [h1', Bool.false_eq_true, if_false]
    by_cases h2 : ev.type == "update-todo-list"
    · simp only [h2, if_true]; exact updateTodoList_delegated B s r ev.id
    · have h2' : (ev.type == "update-todo-list") = false := by simpa using h2
      simp only [h2', Bool.false_eq_true, if_false]
      by_cases h3 : ev.type == "delete-todo-list"
      · simp only [h3, if_true]; exact deleteTodoList_delegated B s r ev.id
      · have h3' : (ev.type == "delete-todo-list") = false := by simpa using h3
        simp only [h3', Bool.false_eq_true, if_false]
        by_cases h4 : ev.type == "create-todo-item"
        · simp only [h4, if_true]; exact createTodoItem_delegated B s r ev.id
        · have h4' : (ev.type == "create-todo-item") = false := by simpa using h4
          simp only [h4', Bool.false_eq_true, if_false]
          by_cases h5 : ev.type == "update-todo-item"
          · simp only [h5, if_true]; exact updateTodoItem_delegated B s r ev.id
          · have h5' : (ev.type == "update-todo-item") = false := by simpa using h5
            simp only [h5', Bool.false_eq_true, if_false]
            by_cases h6 : ev.type == "delete-todo-item"
            · simp only [h6, if_true]; exact deleteTodoItem_delegated B s r ev.id
            · have h6' : (ev.type == "delete-todo-item") = false := by simpa using h6
              simp only [h6', Bool.false_eq_true, if_false]
              exact Or.inl ⟨rfl, rfl⟩

theorem handleSyncEvent_writes_shape (B : Backend) (ev : SyncEvent) (s : Store) (r : Remote) :
    HandlerWrites ((SyncService.handleSyncEvent B ev s r).writes) := by
  rcases handleSyncEvent_delegated B ev s r with ⟨hw, _⟩ | ⟨j, hw, _⟩
  · rw [hw]; exact Or.inl rfl
  · rw [hw]; exact createTodoList_writes_shape B s r j

theorem handleSyncEvent_replay (B : Backend) (ev : SyncEvent) (s : Store) (r : Remote) :
    runWrites s ((SyncService.handleSyncEvent B ev s r).writes)
      = (SyncService.handleSyncEvent B ev s r).store := by
  rcases handleSyncEvent_delegated B ev s r with ⟨hw, hs⟩ | ⟨j, hw, hs⟩
  · rw [hw, hs]; rfl
  · rw [hw, hs]; exact createTodoList_replay B s r j

theorem runWrites_saveTodos_except (j : Nat) :
    ∀ (ws : List Write),
      (∀ w ∈ ws, ∃ t', w = Write.saveTodo t' ∧ t'.listId = j) →
      ∀ st, itemListInvExcept j st →
        itemListInvExcept j (runWrites st ws) ∧ (runWrites st ws).lists = st.lists := by
  intro ws
  induction ws with
  | nil => intro _ st h; exact ⟨h, rfl⟩
  | cons w rest ih =>
    intro hall st h
    obtain ⟨t', rfl, hl⟩ := hall w (List.mem_cons_self w rest)
    have hrec := ih (fun w' hw' => hall w' (List.mem_cons_of_mem _ hw'))
      (st.saveTodo t') (saveTodo_except t' h hl)
    refine ⟨hrec.1, ?_⟩
    show (runWrites (st.saveTodo t') rest).lists = st.lists
    rw [hrec.2]
    rfl

theorem HandlerWrites_prefix_inv {ws : List Write} (hws : HandlerWrites ws)
    {s : Store} (hinv : itemListInv s) (n : Nat) :
    itemListInv (runWrites s (ws.take n)) := by
  rcases hws with rfl | ⟨ul, rest, rfl, hsome, hall⟩
  · simpa [runWrites] using hinv
  · cases n with
    | zero => simpa [runWrites] using hinv
    | succ m =>
      have hs1 : itemListInv (s.saveList ul) := saveList_isSome_inv hsome hinv
      have hall' : ∀ w ∈ rest.take m, ∃ t', w = Write.saveTodo t' ∧ t'.listId = ul.id := by
        intro w hw
        obtain ⟨t', hw', hl, _⟩ := hall w (List.take_subset m rest hw)
        exact ⟨t', hw', hl⟩
      have hrec := runWrites_saveTodos_except ul.id (rest.take m) hall' (s.saveList ul)
        (inv_to_except ul.id hs1)
      rw [List.take_succ_cons]
      have hpres : ∃ l ∈ (runWrites (s.saveList ul) (List.take m rest)).lists,
          l.id = ul.id ∧ l.external_id.isSome = true := by
        rw [hrec.2]
        exact ⟨ul, self_mem_upsertBy s.lists ul, rfl, hsome⟩
      exact except_to_inv hrec.1 hpres

theorem syncCore_inv (snapshot : List ExtList) (s : Store) (hinv : itemListInv s) :
    itemListInv (SyncService.syncCore snapshot s).store := by
  unfold SyncService.syncCore
  have h1 := foldl_preserve
    (P := fun acc : SyncService.ReconcileAcc =>
      itemListInv acc.store ∧ syncedListsSurvive s acc.store)
    SyncService.importRemoteList
    (snapshot.filter (fun l => strFalsy l.source_id))
    ⟨s, [], []⟩ ⟨hinv, syncedListsSurvive_refl s⟩
    (fun a x _ h => importRemoteList_P s a x h)
  have h2 := foldl_preserve
    (P := fun acc : SyncService.ReconcileAcc =>
      itemListInv acc.store ∧ syncedListsSurvive s acc.store)
    (SyncService.reconcileWithSource s)
    (snapshot.filter (fun l => !strFalsy l.source_id))
    _ h1
    (fun a x _ h => reconcileWithSource_P s a x h)
  exact h2.1

theorem key_eq_of_nodup {α : Type} (key : α → Nat) {xs : List α}
    (h : (xs.map key).Nodup) {a b : α} (ha : a ∈ xs) (hb : b ∈ xs)
    (hk : key a = key b) : a = b := by
  induction xs with
  | nil => simp at ha
  | cons x rest ih =>
    simp only [List.map_cons, List.nodup_cons] at h
    rcases List.mem_cons.mp ha with rfl | ha'
    · rcases List.mem_cons.mp hb with rfl | hb'
      · rfl
      · exact absurd (hk ▸ List.mem_map_of_mem key hb') h.1
    · rcases List.mem_cons.mp hb with rfl | hb'
      · exact absurd (hk ▸ List.mem_map_of_mem key ha') h.1
      · exact ih h.2 ha' hb'

theorem importItems_footprint (j : Nat) (items : List ExtItem) :
    ∀ (st : Store) (ws : List Write),
      (SyncService.importItems j items (st, ws)).1.nextListId = st.nextListId ∧
      st.nextTodoId ≤ (SyncService.importItems j items (st, ws)).1.nextTodoId ∧
      (SyncService.importItems j items (st, ws)).1.lists = st.lists ∧
      ∀ t' ∈ (SyncService.importItems j items (st, ws)).1.todos,
        t' ∈ st.todos ∨ st.nextTodoId ≤ t'.id := by
  induction items with
  | nil => intro st ws; exact ⟨rfl, Nat.le_refl _, rfl, fun t' ht' => Or.inl ht'⟩
  | cons item rest ih =>
    intro st ws
    unfold SyncService.importItems
    simp only [List.foldl_cons]
    have hrec := ih (st.saveTodo ⟨st.nextTodoId, item.id, item.description, item.completed, j⟩)
      (ws ++ [Write.saveTodo ⟨st.nextTodoId, item.id, item.description, item.completed, j⟩])
    unfold SyncService.importItems at hrec
    obtain ⟨h1, h2, h3, h4⟩ := hrec
    refine ⟨h1, Nat.le_trans (Nat.le_max_left _ _) h2, h3, ?_⟩
    intro t' ht'
    rcases h4 t' ht' with hmem | hge
    · rcases mem_upsertBy hmem with rfl | ⟨hold, _⟩
      · exact Or.inr (Nat.le_refl _)
      · exact Or.inl hold
    · exact Or.inr (Nat.le_trans (Nat.le_max_left _ _) hge)

theorem reconcileItems_footprint (origTodos : List Todo) (lt : TodoList)
    (items : List ExtItem) :
    ∀ (st : Store) (ws : List Write),
      ((items.foldl (SyncService.reconcileItem origTodos lt) (st, ws)).1.nextListId
        = st.nextListId) ∧
      st.nextTodoId ≤ (items.foldl (SyncService.reconcileItem origTodos lt) (st, ws)).1.nextTodoId ∧
      ((items.foldl (SyncService.reconcileItem origTodos lt) (st, ws)).1.lists = st.lists) ∧
      ∀ t' ∈ (items.foldl (SyncService.reconcileItem origTodos lt) (st, ws)).1.todos,
        t' ∈ st.todos ∨ st.nextTodoId ≤ t'.id ∨
          ∃ t0 ∈ origTodos, t'.id = t0.id ∧ t'.external_id = t0.external_id := by
  induction items with
  | nil => intro st ws; exact ⟨rfl, Nat.le_refl _, rfl, fun t' ht' => Or.inl ht'⟩
  | cons item rest ih =>
    intro st ws
    simp only [List.foldl_cons]
    have hone :
        ((SyncService.reconcileItem origTodos lt (st, ws) item).1.nextListId = st.nextListId) ∧
        st.nextTodoId ≤ (SyncService.reconcileItem origTodos lt (st, ws) item).1.nextTodoId ∧
        ((SyncService.reconcileItem origTodos lt (st, ws) item).1.lists = st.lists) ∧
        ∀ t' ∈ (SyncService.reconcileItem origTodos lt (st, ws) item).1.todos,
          t' ∈ st.todos ∨ st.nextTodoId ≤ t'.id ∨
            ∃ t0 ∈ origTodos, t'.id = t0.id ∧ t'.external_id = t0.external_id := by
      unfold SyncService.reconcileItem
      by_cases hf : strFalsy item.id
      · simp only [hf, if_true]
        exact ⟨trivial, Nat.le_refl _, trivial, fun t' ht' => Or.inl ht'⟩
      · have hf' : strFalsy item.id = false := by simpa using hf
        simp only [hf', Bool.false_eq_true, if_false]
        cases hlk : SyncService.lookupByExternalId origTodos (item.id.getD "") with
        | none =>
          simp only [hlk]
          refine ⟨rfl, Nat.le_max_left _ _, rfl, ?_⟩
          intro t' ht'
          rcases mem_upsertBy ht' with rfl | ⟨hold, _⟩
          · exact Or.inr (Or.inl (Nat.le_refl _))
          · exact Or.inl hold
        | some localTodo =>
          simp only [hlk]
          by_cases hchg : localTodo.title != item.description
              || localTodo.completed != item.completed
          · simp only [hchg, if_true]
            refine ⟨rfl, Nat.le_max_left _ _, rfl, ?_⟩
            intro t' ht'
            rcases mem_upsertBy ht' with rfl | ⟨hold, _⟩
            · exact Or.inr (Or.inr ⟨localTodo, lookupByExternalId_mem hlk, rfl, rfl⟩)
            · exact Or.inl hold
          · have hchg' : (localTodo.title != item.description
                || localTodo.completed != item.completed) = false := by simpa using hchg
            simp only [hchg', Bool.false_eq_true, if_false]
            exact ⟨trivial, Nat.le_refl _, trivial, fun t' ht' => Or.inl ht'⟩
    have hrec := ih (SyncService.reconcileItem origTodos lt (st, ws) item).1
      (SyncService.reconcileItem origTodos lt (st, ws) item).2
    obtain ⟨g1, g2, g3, g4⟩ := hrec
    refine ⟨g1.trans hone.1, Nat.le_trans hone.2.1 g2, g3.trans hone.2.2.1, ?_⟩
    intro t' ht'
    rcases g4 t' ht' with hmem | hge | hex
    · rcases hone.2.2.2 t' hmem with h | h | h
      · exact Or.inl h
      · exact Or.inr (Or.inl h)
      · exact Or.inr (Or.inr h)
    · exact Or.inr (Or.inl (Nat.le_trans hone.2.1 hge))
    · exact Or.inr (Or.inr hex)

theorem importRemoteList_store (acc : SyncService.ReconcileAcc) (L : ExtList) :
    (SyncService.importRemoteList acc L).store =
      (SyncService.importItems acc.store.nextListId L.items
        (acc.store.saveList ⟨acc.store.nextListId, some L.id, L.name⟩,
         acc.writes ++ [Write.saveList ⟨acc.store.nextListId, some L.id, L.name⟩])).1 := rfl

theorem importRemoteList_footprint (s : Store) (snapshot : List ExtList)
    (acc : SyncService.ReconcileAcc) (L : ExtList)
    (hP : ReconcilerFootprint s snapshot acc.store) :
    ReconcilerFootprint s snapshot (SyncService.importRemoteList acc L).store := by
  obtain ⟨hln, htn, hls, hts⟩ := hP
  rw [importRemoteList_store]
  obtain ⟨g1, g2, g3, g4⟩ := importItems_footprint acc.store.nextListId L.items
    (acc.store.saveList ⟨acc.store.nextListId, some L.id, L.name⟩)
    (acc.writes ++ [Write.saveList ⟨acc.store.nextListId, some L.id, L.name⟩])
  refine ⟨?_, ?_, ?_, ?_⟩
  · rw [g1]
    exact Nat.le_trans hln (Nat.le_max_left _ _)
  · exact Nat.le_trans htn g2
  · intro l' hl'
    rw [g3] at hl'
    rcases mem_upsertBy hl' with rfl | ⟨hold, _⟩
    · exact Or.inr (Or.inl hln)
    · exact hls l' hold
  · intro t' ht'
    rcases g4 t' ht' with hmem | hge
    · exact hts t' hmem
    · exact Or.inr (Or.inl (Nat.le_trans htn hge))

theorem reconcileWithSource_footprint (s : Store) (snapshot : List ExtList)
    (acc : SyncService.ReconcileAcc) (L : ExtList) (hL : L ∈ snapshot)
    (hP : ReconcilerFootprint s snapshot acc.store) :
    ReconcilerFootprint s snapshot (SyncService.reconcileWithSource s acc L).store := by
  obtain ⟨hln, htn, hls, hts⟩ := hP
  unfold SyncService.reconcileWithSource
  cases hp : (parseIntTS (L.source_id.getD "")).bind (findList s) with
  | none => exact ⟨hln, htn, hls, hts⟩
  | some l0 =>
    have hsrc : l0 ∈ s.lists ∧ parseIntTS (L.source_id.getD "") = some l0.id := by
      cases hq : parseIntTS (L.source_id.getD "") with
      | none => rw [hq] at hp; simp at hp
      | some k =>
        rw [hq] at hp
        have hp' : findList s k = some l0 := hp
        exact ⟨(findList_mem hp').1, by rw [(findList_mem hp').2]⟩
    obtain ⟨g1, g2, g3, g4⟩ :=
      reconcileItems_footprint (todosOf s l0.id) l0 L.items acc.store acc.writes
    by_cases hflag : (l0.name != L.name) || (l0.external_id != some L.id)
    · simp only [hflag, if_true]
      refine ⟨?_, ?_, ?_, ?_⟩
      · refine Nat.le_trans ?_ (Nat.le_max_left _ _)
        rw [g1]
        exact hln
      · exact Nat.le_trans htn g2
      · intro l' hl'
        rcases mem_upsertBy hl' with rfl | ⟨hold, _⟩
        · exact Or.inr (Or.inr ⟨l0, L, hsrc.1, hL, rfl, rfl, hsrc.2⟩)
        · rw [g3] at hold
          exact hls l' hold
      · intro t' ht'
        rcases g4 t' ht' with hmem | hge | ⟨t0, ht0, hid, hext⟩
        · exact hts t' hmem
        · exact Or.inr (Or.inl (Nat.le_trans htn hge))
        · exact Or.inr (Or.inr ⟨t0, (mem_todosOf.mp ht0).1, hid, hext⟩)
    · have hflag' : ((l0.name != L.name) || (l0.external_id != some L.id)) = false := by
        simpa using hflag
      simp only [hflag', Bool.false_eq_true, if_false]
      refine ⟨?_, Nat.le_trans htn g2, ?_, ?_⟩
      · rw [g1]
        exact hln
      · intro l' hl'
        rw [g3] at hl'
        exact hls l' hl'
      · intro t' ht'
        rcases g4 t' ht' with hmem | hge | ⟨t0, ht0, hid, hext⟩
        · exact hts t' hmem
        · exact Or.inr (Or.inl (Nat.le_trans htn hge))
        · exact Or.inr (Or.inr ⟨t0, (mem_todosOf.mp ht0).1, hid, hext⟩)

theorem syncCore_footprint (snapshot : List ExtList) (s : Store) :
    ReconcilerFootprint s snapshot (SyncService.syncCore snapshot s).store := by
  unfold SyncService.syncCore
  have hbase : ReconcilerFootprint s snapshot s :=
    ⟨Nat.le_refl _, Nat.le_refl _, fun l' h => Or.inl h, fun t' h => Or.inl h⟩
  have h1 := foldl_preserve
    (P := fun acc : SyncService.ReconcileAcc => ReconcilerFootprint s snapshot acc.store)
    SyncService.importRemoteList
    (snapshot.filter (fun l => strFalsy l.source_id))
    ⟨s, [], []⟩ hbase
    (fun a x _ h => importRemoteList_footprint s snapshot a x h)
  exact foldl_preserve
    (P := fun acc : SyncService.ReconcileAcc => ReconcilerFootprint s snapshot acc.store)
    (SyncService.reconcileWithSource s)
    (snapshot.filter (fun l => !strFalsy l.source_id))
    _ h1
    (fun a x hx h => reconcileWithSource_footprint s snapshot a x
      (List.mem_of_mem_filter hx) h)

theorem applyEchoItems_mem_todos (todos : List Todo) (items : List PostItemResp) :
    ∀ (st : Store) (ws : List Write),
      ∀ t' ∈ (SyncService.applyEchoItems todos items (st, ws)).1.todos,
        t' ∈ st.todos ∨ ∃ (t0 : Todo) (ri : PostItemResp), t0 ∈ todos ∧
          t' = { t0 with external_id := some ri.id } := by
  induction items with
  | nil => intro st ws t' ht'; exact Or.inl ht'
  | cons ri0 rest0 ih =>
    intro st ws t' ht'
    unfold SyncService.applyEchoItems at ht'
    simp only [List.foldl_cons] at ht'
    cases hm : SyncService.echoMatch todos ri0 with
    | none =>
      rw [hm] at ht'
      have hrec := ih st ws t'
      unfold SyncService.applyEchoItems at hrec
      exact hrec ht'
    | some t =>
      rw [hm] at ht'
      have hrec := ih (st.saveTodo { t with external_id := some ri0.id })
        (ws ++ [Write.saveTodo { t with external_id := some ri0.id }]) t'
      unfold SyncService.applyEchoItems at hrec
      rcases hrec ht' with hmem | hex
      · rcases mem_upsertBy hmem with rfl | ⟨hold, _⟩
        · exact Or.inr ⟨t, ri0, echoMatch_mem hm, rfl⟩
        · exact Or.inl hold
      · exact Or.inr hex

theorem truthy_false_isSome {o : Option String} (hf : truthy o = false)
    (hs : o.isSome = true) : o = some "" := by
  cases o with
  | none => simp at hs
  | some s =>
    simp only [truthy, strFalsy, Bool.not_eq_false'] at hf
    have : s = "" := by simpa using hf
    rw [this]

/-- C4: monotonic identity.  Under well-formedness and the data-model
invariant: no outbound handler ever changes an already-set external id of a
surviving List or Item (in particular never back to null); a reconciler pass
never changes an Item's set external id, and it changes a List's set
external id only to the id reported in the snapshot entry carrying that
list's source identifier. -/
theorem monotonic_identity (B : Backend) (s : Store) (r : Remote)
    (hWF : StoreWF s) (hInv : itemListInv s) :
    (∀ (ev : SyncEvent),
      (∀ l ∈ s.lists, ∀ e, l.external_id = some e →
        ∀ l' ∈ (SyncService.handleSyncEvent B ev s r).store.lists, l'.id = l.id →
          l'.external_id = some e) ∧
      (∀ t ∈ s.todos, ∀ d, t.external_id = some d →
        ∀ t' ∈ (SyncService.handleSyncEvent B ev s r).store.todos, t'.id = t.id →
          t'.external_id = some d)) ∧
    (∀ (snapshot : List ExtList),
      (∀ l ∈ s.lists, ∀ e, l.external_id = some e →
        ∀ l' ∈ (SyncService.syncCore snapshot s).store.lists, l'.id = l.id →
          ∃ e', l'.external_id = some e' ∧ (e' = e ∨ ∃ L ∈ snapshot, e' = L.id ∧
            parseIntTS (L.source_id.getD "") = some l.id)) ∧
      (∀ t ∈ s.todos, ∀ d, t.external_id = some d →
        ∀ t' ∈ (SyncService.syncCore snapshot s).store.todos, t'.id = t.id →
          t'.external_id = some d)) := by
  have hIdLists : ∀ l ∈ s.lists, ∀ l' ∈ s.lists, l'.id = l.id → l' = l :=
    fun l hl l' hl' hid => key_eq_of_nodup TodoList.id hWF.listIdsNodup hl' hl hid
  have hIdTodos : ∀ t ∈ s.todos, ∀ t' ∈ s.todos, t'.id = t.id → t' = t :=
    fun t ht t' ht' hid => key_eq_of_nodup Todo.id hWF.todoIdsNodup ht' ht hid
  have hInert : ∀ (st : Store), st = s →
      (∀ l ∈ s.lists, ∀ e, l.external_id = some e →
        ∀ l' ∈ st.lists, l'.id = l.id → l'.external_id = some e) ∧
      (∀ t ∈ s.todos, ∀ d, t.external_id = some d →
        ∀ t' ∈ st.todos, t'.id = t.id → t'.external_id = some d) := by
    rintro st rfl
    constructor
    · intro l hl e he l' hl' hid
      rw [hIdLists l hl l' hl' hid]
      exact he
    · intro t ht d hd t' ht' hid
      rw [hIdTodos t ht t' ht' hid]
      exact hd
  constructor
  · intro ev
    rcases handleSyncEvent_delegated B ev s r with ⟨_, hs⟩ | ⟨j, _, hs⟩
    · exact hInert _ hs
    · rcases createTodoList_cases B s r j with h | h | ⟨body, r', h⟩ |
        ⟨l0, r', resp, hf0, hext0, hpost0, h⟩
      · exact hInert _ (by rw [hs, h])
      · exact hInert _ (by rw [hs, h])
      · exact hInert _ (by rw [hs, h])
      · have hl0mem : l0 ∈ s.lists := (findList_mem hf0).1
        have hstore : (SyncService.handleSyncEvent B ev s r).store =
            (SyncService.applyEchoItems (todosOf s l0.id) resp.items
              (s.saveList { l0 with external_id := some resp.id },
               [Write.saveList { l0 with external_id := some resp.id }])).1 := by
          rw [hs, h]
        constructor
        · intro l hl e he l' hl' hid
          rw [hstore] at hl'
          have hl'' : l' ∈ (s.saveList { l0 with external_id := some resp.id }).lists := by
            rw [← applyEchoItems_lists (todosOf s l0.id) resp.items
              (s.saveList { l0 with external_id := some resp.id })
              [Write.saveList { l0 with external_id := some resp.id }]]
            exact hl'
          have htr : truthy l.external_id = true := by
            rw [he]
            refine truthy_some_of_ne ?_
            intro hcon
            exact hWF.listExtNe l hl (by rw [he, hcon])
          rcases mem_upsertBy hl'' with rfl | ⟨hold, _⟩
          · exfalso
            have : l0 = l := hIdLists l hl l0 hl0mem hid
            rw [this, htr] at hext0
            exact Bool.true_eq_false.mp hext0
          · rw [hIdLists l hl l' hold hid]
            exact he
        · intro t ht d hd t' ht' hid
          rw [hstore] at ht'
          rcases applyEchoItems_mem_todos (todosOf s l0.id) resp.items
              (s.saveList { l0 with external_id := some resp.id })
              [Write.saveList { l0 with external_id := some resp.id }] t' ht' with
            hmem | ⟨t0, ri, ht0, rfl⟩
          · rw [hIdTodos t ht t' hmem hid]
            exact hd
          · exfalso
            have ht0id : t0.id = t.id := hid
            have ht0mem : t0 ∈ s.todos := (mem_todosOf.mp ht0).1
            have : t0 = t := hIdTodos t ht t0 ht0mem ht0id
            subst this
            have hsome : t0.external_id.isSome = true := by rw [hd]; rfl
            obtain ⟨lx, hlx, hlxid, hlxsome⟩ := hInv t0 ht0mem hsome
            have hlx0 : lx = l0 := by
              refine hIdLists l0 hl0mem lx hlx ?_
              rw [hlxid, (mem_todosOf.mp ht0).2]
            rw [hlx0] at hlxsome
            have := truthy_false_isSome hext0 hlxsome
            exact hWF.listExtNe l0 hl0mem this
  · intro snapshot
    obtain ⟨_, _, hlists, htodos⟩ := syncCore_footprint snapshot s
    constructor
    · intro l hl e he l' hl' hid
      rcases hlists l' hl' with hmem | hge | ⟨l0, L, hl0, hLm, hid0, hext', hparse⟩
      · rw [hIdLists l hl l' hmem hid, he]
        exact ⟨e, rfl, Or.inl rfl⟩
      · exfalso
        have := hWF.listIdsLt l hl
        omega
      · have hl0l : l0 = l := by
          refine hIdLists l hl l0 hl0 ?_
          rw [← hid0, hid]
        refine ⟨L.id, hext', Or.inr ⟨L, hLm, rfl, ?_⟩⟩
        rw [hparse, hl0l]
    · intro t ht d hd t' ht' hid
      rcases htodos t' ht' with hmem | hge | ⟨t0, ht0, hid0, hext'⟩
      · rw [hIdTodos t ht t' hmem hid]
        exact hd
      · exfalso
        have := hWF.todoIdsLt t ht
        omega
      · have ht0t : t0 = t := by
          refine hIdTodos t ht t0 ht0 ?_
          rw [← hid0, hid]
        rw [hext', ht0t]
        exact hd

/-- Witness for C4: in a concrete well-formed store, the reconciler pass
reassigns a synced list's external id only to the snapshot-reported id for
its source identifier. -/
theorem monotonic_identity_witness :
    ∃ e', (⟨1, some "e9", "G"⟩ : TodoList).external_id = some e' ∧
      (e' = "rl-1" ∨ ∃ L ∈ [(⟨"e9", some "1", "G", []⟩ : ExtList)], e' = L.id ∧
        parseIntTS (L.source_id.getD "") = some 1) := by
  have h := (monotonic_identity specBackend
    ⟨[⟨1, some "rl-1", "G"⟩], [⟨10, some "ri-2", "eggs", false, 1⟩], 2, 11⟩ Remote.init
    ⟨by decide, by decide, by decide, by decide, by decide, by decide, by decide⟩
    (by decide)).2 [⟨"e9", some "1", "G", []⟩]
  exact h.1 ⟨1, some "rl-1", "G"⟩ (by decide) "rl-1" rfl
    ⟨1, some "e9", "G"⟩ (by decide) rfl

/-- C3 (counterexample): a reconciler pass stopped after a prefix of its
persistence steps can violate the invariant.  With a local list whose
`external_id` is null (a lost creation response) and a remote snapshot
carrying that list's source identifier plus one item, the pass persists the
newly created local item (with a non-null `external_id`) before it persists
the corrected list record, so stopping after the first write leaves a synced
item inside an unsynced list. -/
theorem invariant_violated_mid_pass :
    itemListInv (⟨[⟨1, none, "A"⟩], [], 2, 1⟩ : Store) ∧
    ¬ itemListInv (runWrites ⟨[⟨1, none, "A"⟩], [], 2, 1⟩
      ((SyncService.syncCore [⟨"e1", some "1", "A", [⟨some "i1", none, "milk", false⟩]⟩]
        ⟨[⟨1, none, "A"⟩], [], 2, 1⟩).writes.take 1)) := by
  decide

/-- C3 (amended): the invariant — every item with a non-null `external_id`
belongs to a list with a non-null `external_id` — is preserved by every
outbound handler run to completion, by every prefix of an outbound handler's
persistence steps, and by every Inbound Reconciler pass run to completion;
a reconciler pass stopped mid-iteration may violate it transiently (see the
counterexample), because an iteration persists created items before the
corrected list record. -/
theorem invariant_preservation (B : Backend) :
    (∀ (ev : SyncEvent) (s : Store) (r : Remote), itemListInv s →
      itemListInv (SyncService.handleSyncEvent B ev s r).store) ∧
    (∀ (ev : SyncEvent) (s : Store) (r : Remote) (n : Nat), itemListInv s →
      itemListInv (runWrites s ((SyncService.handleSyncEvent B ev s r).writes.take n))) ∧
    (∀ (snapshot : List ExtList) (s : Store), itemListInv s →
      itemListInv (SyncService.syncCore snapshot s).store) ∧
    (∀ (s : Store) (r : Remote), itemListInv s →
      itemListInv (SyncService.syncFromExternal B s r).store) := by
  refine ⟨?_, ?_, ?_, ?_⟩
  · intro ev s r hinv
    have h := HandlerWrites_prefix_inv (handleSyncEvent_writes_shape B ev s r) hinv
      ((SyncService.handleSyncEvent B ev s r).writes.length)
    rw [List.take_length, handleSyncEvent_replay] at h
    exact h
  · intro ev s r n hinv
    exact HandlerWrites_prefix_inv (handleSyncEvent_writes_shape B ev s r) hinv n
  · intro snapshot s hinv
    exact syncCore_inv snapshot s hinv
  · intro s r hinv
    unfold SyncService.syncFromExternal
    cases hg : B.getLists r with
    | none => exact hinv
    | some snapshot => exact syncCore_inv snapshot s hinv

/-- Witness for C3 (amended): at a concrete store satisfying the invariant,
a complete reconciler pass (the same input as the counterexample) and a
complete handler run preserve it. -/
theorem invariant_preservation_witness :
    itemListInv (SyncService.syncCore
      [⟨"e1", some "1", "A", [⟨some "i1", none, "milk", false⟩]⟩]
      ⟨[⟨1, none, "A"⟩], [], 2, 1⟩).store ∧
    itemListInv (SyncService.handleSyncEvent specBackend ⟨"create-todo-list", 1⟩
      ⟨[⟨1, none, "A"⟩], [], 2, 1⟩ Remote.init).store :=
  ⟨(invariant_preservation specBackend).2.2.1
      [⟨"e1", some "1", "A", [⟨some "i1", none, "milk", false⟩]⟩]
      ⟨[⟨1, none, "A"⟩], [], 2, 1⟩ (by decide),
   (invariant_preservation specBackend).1 ⟨"create-todo-list", 1⟩
      ⟨[⟨1, none, "A"⟩], [], 2, 1⟩ Remote.init (by decide)⟩

/-! ## Reference-server computation lemmas (for replay idempotence and
convergence) -/

theorem string_append_data (a b : String) : (a ++ b).data = a.data ++ b.data := rfl

theorem mkListExtId_ne_empty (n : Nat) : mkListExtId n ≠ "" := by
  intro h
  have hd : (mkListExtId n).data = [] := by rw [h]
  rw [show (mkListExtId n).data = ['r', 'l', '-'] ++ (natToStr n).data from rfl] at hd
  simp at hd

theorem mkItemExtId_ne_empty (n : Nat) : mkItemExtId n ≠ "" := by
  intro h
  have hd : (mkItemExtId n).data = [] := by rw [h]
  rw [show (mkItemExtId n).data = ['r', 'i', '-'] ++ (natToStr n).data from rfl] at hd
  simp at hd

theorem mkListExtId_inj {a b : Nat} (h : mkListExtId a = mkListExtId b) : a = b := by
  have hd := congrArg String.data h
  rw [show (mkListExtId a).data = ['r', 'l', '-'] ++ (natToStr a).data from rfl,
    show (mkListExtId b).data = ['r', 'l', '-'] ++ (natToStr b).data from rfl] at hd
  have : (natToStr a).data = (natToStr b).data := by
    simpa using hd
  exact natToStr_injective (String.ext this)

theorem mkItemExtId_inj {a b : Nat} (h : mkItemExtId a = mkItemExtId b) : a = b := by
  have hd := congrArg String.data h
  rw [show (mkItemExtId a).data = ['r', 'i', '-'] ++ (natToStr a).data from rfl,
    show (mkItemExtId b).data = ['r', 'i', '-'] ++ (natToStr b).data from rfl] at hd
  have : (natToStr a).data = (natToStr b).data := by
    simpa using hd
  exact natToStr_injective (String.ext this)

theorem natToStr_beq (a b : Nat) : (natToStr a == natToStr b) = (a == b) := by
  by_cases h : a = b
  · subst h
    simp
  · have hs : natToStr a ≠ natToStr b := fun hc => h (natToStr_injective hc)
    simp [hs, h]

theorem echoMatch_natToStr {alltodos : List Todo} (hnd : (alltodos.map Todo.id).Nodup)
    {t : Todo} (ht : t ∈ alltodos) (gid : String) :
    SyncService.echoMatch alltodos ⟨gid, some (natToStr t.id)⟩ = some t := by
  unfold SyncService.echoMatch
  have hfn : (fun x : Todo => natToStr x.id == natToStr t.id)
      = fun x : Todo => x.id == t.id := by
    funext x
    exact natToStr_beq x.id t.id
  show alltodos.find? (fun x => natToStr x.id == natToStr t.id) = some t
  rw [hfn]
  exact find?_key_eq_some_of_mem Todo.id hnd ht

theorem enumFrom_map_eq {α β : Type} (f : α → β) :
    ∀ (l : List α) (n : Nat),
      (l.map f).enumFrom n = (l.enumFrom n).map (fun p => (p.1, f p.2)) := by
  intro l
  induction l with
  | nil => intro n; rfl
  | cons a rest ih =>
    intro n
    simp only [List.map_cons, List.enumFrom_cons, ih (n + 1)]

theorem exists_mem_enumFrom {α : Type} {a : α} :
    ∀ {l : List α} (n : Nat), a ∈ l → ∃ k, (k, a) ∈ l.enumFrom n := by
  intro l
  induction l with
  | nil => intro n h; simp at h
  | cons x rest ih =>
    intro n h
    rcases List.mem_cons.mp h with rfl | h'
    · exact ⟨n, List.mem_cons_self _ _⟩
    · obtain ⟨k, hk⟩ := ih (n + 1) h'
      exact ⟨k, List.mem_cons_of_mem _ hk⟩

theorem snd_mem_of_mem_enumFrom {α : Type} {p : Nat × α} :
    ∀ {l : List α} {n : Nat}, p ∈ l.enumFrom n → p.2 ∈ l := by
  intro l
  induction l with
  | nil => intro n h; simp [List.enumFrom] at h
  | cons x rest ih =>
    intro n h
    rcases List.mem_cons.mp h with rfl | h'
    · exact List.mem_cons_self _ _
    · exact List.mem_cons_of_mem _ (ih h')

/-- Effect of the echo loop when the response items echo a distinct-id block
of local todos in order (the reference server's response shape): each echoed
todo's record gets exactly its positional id, everything else is untouched. -/
theorem applyEchoItems_spec_items (alltodos : List Todo)
    (hnd : (alltodos.map Todo.id).Nodup) (g : Nat → String) :
    ∀ (rem : List Todo) (n : Nat) (st : Store) (ws : List Write),
      (∀ t ∈ rem, t ∈ alltodos) →
      (rem.map Todo.id).Nodup →
      (∀ p ∈ rem.enumFrom n,
        findTodo (SyncService.applyEchoItems alltodos
          ((rem.enumFrom n).map (fun p => (⟨g p.1, some (natToStr p.2.id)⟩ : PostItemResp)))
          (st, ws)).1 p.2.id = some { p.2 with external_id := some (g p.1) }) ∧
      (∀ j, (∀ t ∈ rem, t.id ≠ j) →
        findTodo (SyncService.applyEchoItems alltodos
          ((rem.enumFrom n).map (fun p => (⟨g p.1, some (natToStr p.2.id)⟩ : PostItemResp)))
          (st, ws)).1 j = findTodo st j) := by
  intro rem
  induction rem with
  | nil =>
    intro n st ws _ _
    constructor
    · intro p hp
      simp [List.enumFrom] at hp
    · intro j _
      rfl
  | cons t rem' ih =>
    intro n st ws hsub hndrem
    have htall : t ∈ alltodos := hsub t (List.mem_cons_self t rem')
    have hsub' : ∀ t' ∈ rem', t' ∈ alltodos :=
      fun t' ht' => hsub t' (List.mem_cons_of_mem t ht')
    have hndrem' : (rem'.map Todo.id).Nodup := by
      simp only [List.map_cons, List.nodup_cons] at hndrem
      exact hndrem.2
    have htid : ∀ t' ∈ rem', t'.id ≠ t.id := by
      intro t' ht' hc
      simp only [List.map_cons, List.nodup_cons] at hndrem
      exact hndrem.1 (hc ▸ List.mem_map_of_mem Todo.id ht')
    have hstep : SyncService.echoMatch alltodos ⟨g n, some (natToStr t.id)⟩ = some t :=
      echoMatch_natToStr hnd htall (g n)
    have hrec := ih (n + 1) (st.saveTodo { t with external_id := some (g n) })
      (ws ++ [Write.saveTodo { t with external_id := some (g n) }]) hsub' hndrem'
    constructor
    · intro p hp
      simp only [List.enumFrom_cons] at hp ⊢
      rcases List.mem_cons.mp hp with rfl | hp'
      · -- the head: assigned by the first step, untouched afterwards
        simp only [List.map_cons]
        unfold SyncService.applyEchoItems
        simp only [List.foldl_cons, hstep]
        have hframe := hrec.2 t.id htid
        unfold SyncService.applyEchoItems at hframe
        rw [hframe]
        exact findTodo_saveTodo_self st { t with external_id := some (g n) }
      · simp only [List.map_cons]
        unfold SyncService.applyEchoItems
        simp only [List.foldl_cons, hstep]
        have := hrec.1 p hp'
        unfold SyncService.applyEchoItems at this
        exact this
    · intro j hj
      simp only [List.enumFrom_cons, List.map_cons]
      unfold SyncService.applyEchoItems
      simp only [List.foldl_cons, hstep]
      have hframe := hrec.2 j (fun t' ht' => hj t' (List.mem_cons_of_mem t ht'))
      unfold SyncService.applyEchoItems at hframe
      rw [hframe]
      exact findTodo_saveTodo_other st _ j (hj t (List.mem_cons_self t rem'))

/-! ## Reference-server algebra for event replay -/

theorem map_id_of_fix {α : Type} (f : α → α) :
    ∀ (l : List α), (∀ x ∈ l, f x = x) → l.map f = l := by
  intro l
  induction l with
  | nil => intro _; rfl
  | cons a rest ih =>
    intro h
    simp only [List.map_cons]
    rw [h a (List.mem_cons_self a rest), ih (fun x hx => h x (List.mem_cons_of_mem a hx))]

theorem enumFrom_fst_ge {α : Type} {p : Nat × α} :
    ∀ {l : List α} {n : Nat}, p ∈ l.enumFrom n → n ≤ p.1 := by
  intro l
  induction l with
  | nil => intro n h; simp [List.enumFrom] at h
  | cons x rest ih =>
    intro n h
    rcases List.mem_cons.mp h with rfl | h'
    · exact Nat.le_refl n
    · exact Nat.le_trans (Nat.le_succ n) (ih h')

theorem enumFrom_fst_eq {α : Type} {a b : α} :
    ∀ {l : List α} {n k : Nat}, (k, a) ∈ l.enumFrom n → (k, b) ∈ l.enumFrom n → a = b := by
  intro l
  induction l with
  | nil => intro n k h; simp [List.enumFrom] at h
  | cons x rest ih =>
    intro n k ha hb
    rcases List.mem_cons.mp ha with h1 | h1
    · injection h1 with hk hax
      rcases List.mem_cons.mp hb with h2 | h2
      · injection h2 with _ hbx
        rw [hax, hbx]
      · have := enumFrom_fst_ge h2
        omega
    · rcases List.mem_cons.mp hb with h2 | h2
      · injection h2 with hk _
        have := enumFrom_fst_ge h1
        omega
      · exact ih h1 h2

theorem todosOf_id_nodup {s : Store} (hwf : StoreWF s) (lid : Nat) :
    ((todosOf s lid).map Todo.id).Nodup := by
  have hsub : (todosOf s lid).Sublist s.todos := List.filter_sublist s.todos
  exact hwf.todoIdsNodup.sublist (hsub.map Todo.id)

theorem remoteIdsFresh_ne {r : Remote} (hfresh : remoteIdsFresh r)
    {L : ExtList} (hL : L ∈ r.lists) : L.id ≠ mkListExtId r.nextId := by
  obtain ⟨m, hm, he⟩ := hfresh L hL
  rw [he]
  intro hc
  exact absurd (mkListExtId_inj hc) (Nat.ne_of_lt hm)

/-- Renaming an existing remote list to the name it already carries is the
identity on the remote state (and succeeds). -/
theorem patchListImpl_found {eid name : String} {r : Remote}
    (h : r.lists.any (fun l => l.id == eid) = true)
    (hname : ∀ L ∈ r.lists, L.id = eid → L.name = name) :
    Remote.patchListImpl eid name r = (r, true) := by
  unfold Remote.patchListImpl
  rw [if_pos h,
    map_id_of_fix _ r.lists (by
      intro L hL
      by_cases hc : (L.id == eid) = true
      · rw [if_pos hc, ← hname L hL (eq_of_beq hc)]
      · rw [if_neg hc])]

/-- After a successful rename, the target still exists and every remote list
carrying the addressed id bears the new name. -/
theorem patchListImpl_post {eid name : String} {r : Remote}
    (h : r.lists.any (fun l => l.id == eid) = true) :
    (Remote.patchListImpl eid name r).1.lists.any (fun l => l.id == eid) = true ∧
    ∀ L ∈ (Remote.patchListImpl eid name r).1.lists, L.id = eid → L.name = name := by
  unfold Remote.patchListImpl
  rw [if_pos h]
  constructor
  · simp only [List.any_eq_true] at h ⊢
    obtain ⟨L, hL, hLe⟩ := h
    refine ⟨{ L with name := name }, ?_, by simpa using hLe⟩
    have hfL : (fun l => if l.id == eid then { l with name := name } else l) L =
        { L with name := name } := by simp [hLe]
    exact hfL ▸ List.mem_map_of_mem _ hL
  · intro L' hL' he'
    obtain ⟨L0, hL0, hfL⟩ := List.mem_map.mp hL'
    by_cases hc : (L0.id == eid) = true
    · rw [if_pos hc] at hfL
      rw [← hfL]
    · rw [if_neg hc] at hfL
      subst hfL
      exact absurd (beq_iff_eq.mpr he') hc

/-- Updating an existing remote item to the values it already carries is the
identity on the remote state (and succeeds). -/
theorem patchItemImpl_found {leid ieid d : String} {c : Bool} {r : Remote}
    (h : r.lists.any (fun l => l.id == leid &&
        l.items.any (fun it => it.id == some ieid)) = true)
    (hval : ∀ L ∈ r.lists, L.id = leid → ∀ it ∈ L.items, it.id = some ieid →
      it.description = d ∧ it.completed = c) :
    Remote.patchItemImpl leid ieid d c r = (r, true) := by
  unfold Remote.patchItemImpl
  rw [if_pos h,
    map_id_of_fix _ r.lists (by
      intro L hL
      by_cases hc : (L.id == leid) = true
      · rw [if_pos hc,
          map_id_of_fix _ L.items (by
            intro it hit
            by_cases hi : (it.id == some ieid) = true
            · obtain ⟨hd, hcmp⟩ := hval L hL (eq_of_beq hc) it hit (eq_of_beq hi)
              rw [if_pos hi, ← hd, ← hcmp]
            · rw [if_neg hi])]
      · rw [if_neg hc])]

/-- After a successful item update, the target still exists and every remote
item at the addressed coordinates bears the new values. -/
theorem patchItemImpl_post {leid ieid d : String} {c : Bool} {r : Remote}
    (h : r.lists.any (fun l => l.id == leid &&
        l.items.any (fun it => it.id == some ieid)) = true) :
    (Remote.patchItemImpl leid ieid d c r).1.lists.any (fun l => l.id == leid &&
        l.items.any (fun it => it.id == some ieid)) = true ∧
    ∀ L ∈ (Remote.patchItemImpl leid ieid d c r).1.lists, L.id = leid →
      ∀ it ∈ L.items, it.id = some ieid →
        it.description = d ∧ it.completed = c := by
  unfold Remote.patchItemImpl
  rw [if_pos h]
  constructor
  · simp only [List.any_eq_true, Bool.and_eq_true] at h ⊢
    obtain ⟨L, hL, hLe, hLi⟩ := h
    obtain ⟨it, hit, hite⟩ := hLi
    refine ⟨{ L with items := L.items.map (fun it => if it.id == some ieid then
        { it with description := d, completed := c } else it) }, ?_, by simpa using hLe, ?_⟩
    · have hfL : (fun l => if l.id == leid then
          { l with items := l.items.map (fun it => if it.id == some ieid then
              { it with description := d, completed := c } else it) }
          else l) L =
          { L with items := L.items.map (fun it => if it.id == some ieid then
              { it with description := d, completed := c } else it) } := by simp [hLe]
      exact hfL ▸ List.mem_map_of_mem _ hL
    · refine ⟨{ it with description := d, completed := c }, ?_, by simpa using hite⟩
      have hfi : (fun it => if it.id == some ieid then
          { it with description := d, completed := c } else it) it =
          { it with description := d, completed := c } := by simp [hite]
      exact hfi ▸ List.mem_map_of_mem _ hit
  · intro L' hL' he'
    obtain ⟨L0, hL0, hfL⟩ := List.mem_map.mp hL'
    by_cases hc : (L0.id == leid) = true
    · rw [if_pos hc] at hfL
      intro it' hit' hie'
      rw [← hfL] at hit'
      obtain ⟨it0, hit0, hfi⟩ := List.mem_map.mp hit'
      by_cases hi : (it0.id == some ieid) = true
      · rw [if_pos hi] at hfi
        rw [← hfi]
        exact ⟨rfl, rfl⟩
      · rw [if_neg hi] at hfi
        subst hfi
        exact absurd (beq_iff_eq.mpr hie') hi
    · rw [if_neg hc] at hfL
      subst hfL
      intro it' _ _
      exact absurd (beq_iff_eq.mpr he') hc

/-- After a remote list deletion, no remote list carries the addressed id
(whether or not the target existed). -/
theorem deleteListImpl_post (eid : String) (r : Remote) :
    (Remote.deleteListImpl eid r).1.lists.any (fun l => l.id == eid) = false := by
  unfold Remote.deleteListImpl
  by_cases h : r.lists.any (fun l => l.id == eid) = true
  · rw [if_pos h]
    simp only [List.any_eq_false]
    intro L hL
    have := (List.mem_filter.mp hL).2
    simpa using this
  · rw [if_neg h]
    simpa using h

/-- Deleting an absent remote list is a 404 no-op. -/
theorem deleteListImpl_notFound {eid : String} {r : Remote}
    (h : r.lists.any (fun l => l.id == eid) = false) :
    Remote.deleteListImpl eid r = (r, DeleteOutcome.notFound404) := by
  unfold Remote.deleteListImpl
  rw [if_neg (by simp [h])]

/-- After a remote item deletion, the addressed coordinates resolve to no
remote item (whether or not the target existed). -/
theorem deleteItemImpl_post (leid ieid : String) (r : Remote) :
    (Remote.deleteItemImpl leid ieid r).1.lists.any (fun l => l.id == leid &&
      l.items.any (fun it => it.id == some ieid)) = false := by
  unfold Remote.deleteItemImpl
  by_cases h : r.lists.any (fun l => l.id == leid &&
      l.items.any (fun it => it.id == some ieid)) = true
  · rw [if_pos h]
    simp only [List.any_eq_false]
    intro L' hL'
    obtain ⟨L0, hL0, hfL⟩ := List.mem_map.mp hL'
    by_cases hc : (L0.id == leid) = true
    · rw [if_pos hc] at hfL
      rw [← hfL]
      simp only [Bool.and_eq_true, not_and]
      intro _ hany
      obtain ⟨it, hit, hite⟩ := List.any_eq_true.mp hany
      have := (List.mem_filter.mp hit).2
      simp only [Bool.not_eq_true'] at this
      rw [this] at hite
      exact absurd hite (by simp)
    · rw [if_neg hc] at hfL
      rw [← hfL]
      simp only [Bool.and_eq_true, not_and]
      intro hcc
      exact absurd hcc hc
  · rw [if_neg h]
    simpa using h

/-- Deleting an absent remote item is a 404 no-op. -/
theorem deleteItemImpl_notFound {leid ieid : String} {r : Remote}
    (h : r.lists.any (fun l => l.id == leid &&
      l.items.any (fun it => it.id == some ieid)) = false) :
    Remote.deleteItemImpl leid ieid r = (r, DeleteOutcome.notFound404) := by
  unfold Remote.deleteItemImpl
  rw [if_neg (by simp [h])]

/-- The bundled request items, enumerated, are the list's todos enumerated
(after the `title`→`description`, local-id→`source_id` projection). -/
theorem listBody_items_enum (s : Store) (l : TodoList) :
    (SyncService.listBody s l).items.enum =
      ((todosOf s l.id).enumFrom 0).map
        (fun p => (p.1, (⟨natToStr p.2.id, p.2.title, p.2.completed⟩ : PostItemBody))) := by
  show ((todosOf s l.id).map
      (fun t => (⟨natToStr t.id, t.title, t.completed⟩ : PostItemBody))).enumFrom 0 = _
  exact enumFrom_map_eq _ _ 0

/-- Shape of the reference server's echo items for a bundled list POST: one
response item per local todo, in order, with the positional fresh remote id
and the echoed local id. -/
theorem respItems_shape (s : Store) (l : TodoList) (r : Remote) :
    (mkNewItems (SyncService.listBody s l) r).map
        (fun it => (⟨it.id.getD "", it.source_id⟩ : PostItemResp)) =
      ((todosOf s l.id).enumFrom 0).map
        (fun p => (⟨mkItemExtId (r.nextId + 1 + p.1), some (natToStr p.2.id)⟩ :
          PostItemResp)) := by
  unfold mkNewItems
  rw [List.map_map, listBody_items_enum, List.map_map]
  rfl

/-- Each todo of the posted list yields, at its position, a remote item with
the fresh positional id, the echoed source identifier, and the todo's
description/completed values. -/
theorem mkNewItems_mem_of_enum {s : Store} {l : TodoList} {r : Remote} {k : Nat} {t : Todo}
    (hk : (k, t) ∈ (todosOf s l.id).enum) :
    (⟨some (mkItemExtId (r.nextId + 1 + k)), some (natToStr t.id), t.title, t.completed⟩ :
      ExtItem) ∈ mkNewItems (SyncService.listBody s l) r := by
  unfold mkNewItems
  rw [listBody_items_enum]
  refine List.mem_map.mpr ⟨(k, ⟨natToStr t.id, t.title, t.completed⟩), ?_, rfl⟩
  exact List.mem_map.mpr ⟨(k, t), hk, rfl⟩

/-- Conversely, every remote item created for a bundled list POST comes from
a position of the list's enumerated todos. -/
theorem mkNewItems_inv {s : Store} {l : TodoList} {r : Remote} {it : ExtItem}
    (hit : it ∈ mkNewItems (SyncService.listBody s l) r) :
    ∃ k t, (k, t) ∈ (todosOf s l.id).enum ∧
      it = ⟨some (mkItemExtId (r.nextId + 1 + k)), some (natToStr t.id),
        t.title, t.completed⟩ := by
  unfold mkNewItems at hit
  rw [listBody_items_enum] at hit
  obtain ⟨p, hp, hfp⟩ := List.mem_map.mp hit
  obtain ⟨q, hq, hfq⟩ := List.mem_map.mp hp
  refine ⟨q.1, q.2, hq, ?_⟩
  rw [← hfp, ← hfq]

/-- Full characterization of a successful `createTodoList` run against the
reference server: no error, the remote gains exactly the freshly posted list
(fresh positional item ids, echoed source identifiers), the local list record
now carries the fresh remote list id, every todo of the list carries its
positional fresh remote item id, and every other local record is
untouched. -/
theorem createTodoList_spec (s : Store) (r : Remote) (l : TodoList) (i : Nat)
    (hwf : StoreWF s)
    (hfind : findList s i = some l) (hext : truthy l.external_id = false) :
    (SyncService.createTodoList specBackend s r i).err = none ∧
    (SyncService.createTodoList specBackend s r i).remote =
      ⟨r.lists ++ [⟨mkListExtId r.nextId, some (natToStr l.id), l.name,
          mkNewItems (SyncService.listBody s l) r⟩],
        r.nextId + 1 + (todosOf s l.id).length⟩ ∧
    findList (SyncService.createTodoList specBackend s r i).store i =
      some { l with external_id := some (mkListExtId r.nextId) } ∧
    (∀ j, j ≠ i →
      findList (SyncService.createTodoList specBackend s r i).store j = findList s j) ∧
    (∀ p ∈ (todosOf s l.id).enum,
      findTodo (SyncService.createTodoList specBackend s r i).store p.2.id =
        some { p.2 with external_id := some (mkItemExtId (r.nextId + 1 + p.1)) }) ∧
    (∀ j, (∀ t ∈ todosOf s l.id, t.id ≠ j) →
      findTodo (SyncService.createTodoList specBackend s r i).store j = findTodo s j) := by
  have hli : l.id = i := (findList_mem hfind).2
  have hpost : specBackend.postList (SyncService.listBody s l) r =
      (⟨r.lists ++ [⟨mkListExtId r.nextId, some (natToStr l.id), l.name,
          mkNewItems (SyncService.listBody s l) r⟩],
        r.nextId + 1 + (todosOf s l.id).length⟩,
       some ⟨mkListExtId r.nextId,
         ((todosOf s l.id).enumFrom 0).map
           (fun p => (⟨mkItemExtId (r.nextId + 1 + p.1), some (natToStr p.2.id)⟩ :
             PostItemResp))⟩) := by
    show Remote.postListImpl (SyncService.listBody s l) r = _
    rw [← respItems_shape s l r]
    unfold Remote.postListImpl
    simp [SyncService.listBody]
  have heq := createTodoList_success_spec specBackend s r l i hfind hext hpost
  have hnd : ((todosOf s l.id).map Todo.id).Nodup := todosOf_id_nodup hwf l.id
  have hmain := applyEchoItems_spec_items (todosOf s l.id) hnd
      (fun k => mkItemExtId (r.nextId + 1 + k)) (todosOf s l.id) 0
      (s.saveList { l with external_id := some (mkListExtId r.nextId) })
      [Write.saveList { l with external_id := some (mkListExtId r.nextId) }]
      (fun t ht => ht) hnd
  rw [heq]
  refine ⟨rfl, rfl, ?_, ?_, ?_, ?_⟩
  · refine Eq.trans (findList_ext (applyEchoItems_lists _ _ _ _) i) ?_
    rw [← hli]
    exact findList_saveList_self s _
  · intro j hj
    refine Eq.trans (findList_ext (applyEchoItems_lists _ _ _ _) j) ?_
    refine findList_saveList_other s _ j ?_
    show l.id ≠ j
    rw [hli]
    exact Ne.symm hj
  · intro p hp
    exact hmain.1 p hp
  · intro j hj
    exact Eq.trans (hmain.2 j hj) rfl

/-! ## Branch equations of the outbound handlers -/

theorem createTodoList_notFound (B : Backend) (s : Store) (r : Remote) (i : Nat)
    (hf : findList s i = none) :
    SyncService.createTodoList B s r i = ⟨s, r, [], [], false, false, some .notFound⟩ := by
  unfold SyncService.createTodoList
  simp only [hf]

theorem createTodoList_synced_noop (B : Backend) (s : Store) (r : Remote) (i : Nat)
    (l : TodoList) (hf : findList s i = some l) (hx : truthy l.external_id = true) :
    SyncService.createTodoList B s r i = ⟨s, r, [], [], false, false, none⟩ := by
  unfold SyncService.createTodoList
  simp only [hf, hx, if_true]

theorem updateTodoList_notFound (B : Backend) (s : Store) (r : Remote) (i : Nat)
    (hf : findList s i = none) :
    SyncService.updateTodoList B s r i = ⟨s, r, [], [], false, false, some .notFound⟩ := by
  unfold SyncService.updateTodoList
  simp only [hf]

theorem updateTodoList_delegate (B : Backend) (s : Store) (r : Remote) (i : Nat)
    (l : TodoList) (hf : findList s i = some l) (hx : truthy l.external_id = false) :
    SyncService.updateTodoList B s r i = SyncService.createTodoList B s r i := by
  unfold SyncService.updateTodoList
  simp only [hf, hx, Bool.not_false, if_true]

theorem updateTodoList_patch (B : Backend) (s : Store) (r : Remote) (i : Nat)
    (l : TodoList) (r' : Remote) (b : Bool)
    (hf : findList s i = some l) (hx : truthy l.external_id = true)
    (hp : B.patchList (l.external_id.getD "") l.name r = (r', b)) :
    SyncService.updateTodoList B s r i =
      ⟨s, r', [.patchList (l.external_id.getD "") l.name], [],
        false, false, if b then none else some .remoteError⟩ := by
  unfold SyncService.updateTodoList
  cases b with
  | true =>
    simp only [hf, hx, Bool.not_true, Bool.false_eq_true, if_false, hp, if_true]
  | false =>
    simp only [hf, hx, Bool.not_true, Bool.false_eq_true, if_false, hp]

theorem deleteTodoList_noRow (B : Backend) (s : Store) (r : Remote) (i : Nat)
    (hf : findList s i = none) :
    SyncService.deleteTodoList B s r i = ⟨s, r, [], [], false, false, none⟩ := by
  unfold SyncService.deleteTodoList
  simp only [hf]

theorem deleteTodoList_unsynced (B : Backend) (s : Store) (r : Remote) (i : Nat)
    (l : TodoList) (hf : findList s i = some l) (hx : truthy l.external_id = false) :
    SyncService.deleteTodoList B s r i = ⟨s, r, [], [], false, false, none⟩ := by
  unfold SyncService.deleteTodoList
  simp only [hf, hx, Bool.not_false, if_true]

theorem deleteTodoList_remote (B : Backend) (s : Store) (r : Remote) (i : Nat)
    (l : TodoList) (r' : Remote) (outcome : DeleteOutcome)
    (hf : findList s i = some l) (hx : truthy l.external_id = true)
    (hd : B.deleteList (l.external_id.getD "") r = (r', outcome)) :
    SyncService.deleteTodoList B s r i =
      ⟨s, r', [.deleteList (l.external_id.getD "")], [], false, false,
        match outcome with
        | .failed => some .remoteError
        | _ => none⟩ := by
  unfold SyncService.deleteTodoList
  cases outcome with
  | ok => simp only [hf, hx, Bool.not_true, Bool.false_eq_true, if_false, hd]
  | notFound404 => simp only [hf, hx, Bool.not_true, Bool.false_eq_true, if_false, hd]
  | failed => simp only [hf, hx, Bool.not_true, Bool.false_eq_true, if_false, hd]

theorem createTodoItem_notFoundT (B : Backend) (s : Store) (r : Remote) (i : Nat)
    (ht : findTodo s i = none) :
    SyncService.createTodoItem B s r i = ⟨s, r, [], [], false, false, some .notFound⟩ := by
  unfold SyncService.createTodoItem
  simp only [ht]

theorem createTodoItem_noList (B : Backend) (s : Store) (r : Remote) (i : Nat)
    (todo : Todo) (ht : findTodo s i = some todo)
    (hl : findList s todo.listId = none) :
    SyncService.createTodoItem B s r i = ⟨s, r, [], [], false, false, some .notFound⟩ := by
  unfold SyncService.createTodoItem
  simp only [ht, hl]

theorem createTodoItem_synced (B : Backend) (s : Store) (r : Remote) (i : Nat)
    (todo : Todo) (todoList : TodoList) (ht : findTodo s i = some todo)
    (hl : findList s todo.listId = some todoList)
    (htx : truthy todo.external_id = true) :
    SyncService.createTodoItem B s r i = ⟨s, r, [], [], false, false, none⟩ := by
  unfold SyncService.createTodoItem
  simp only [ht, hl, htx, if_true]

theorem createTodoItem_warn (B : Backend) (s : Store) (r : Remote) (i : Nat)
    (todo : Todo) (todoList : TodoList) (ht : findTodo s i = some todo)
    (hl : findList s todo.listId = some todoList)
    (htx : truthy todo.external_id = false)
    (hlx : truthy todoList.external_id = true) :
    SyncService.createTodoItem B s r i = ⟨s, r, [], [], true, false, none⟩ := by
  unfold SyncService.createTodoItem
  simp only [ht, hl, htx, Bool.false_eq_true, if_false, hlx, Bool.not_true]

theorem createTodoItem_delegate (B : Backend) (s : Store) (r : Remote) (i : Nat)
    (todo : Todo) (todoList : TodoList) (u : Todo)
    (ht : findTodo s i = some todo) (hl : findList s todo.listId = some todoList)
    (htx : truthy todo.external_id = false) (hlx : truthy todoList.external_id = false)
    (herr : (SyncService.createTodoList B s r todoList.id).err = none)
    (hu : findTodo (SyncService.createTodoList B s r todoList.id).store i = some u)
    (hut : truthy u.external_id = true) :
    SyncService.createTodoItem B s r i = SyncService.createTodoList B s r todoList.id := by
  unfold SyncService.createTodoItem
  simp only [ht, hl, htx, Bool.false_eq_true, if_false, hlx, Bool.not_false, if_true,
    herr, Option.isSome_none, hu, hut]

theorem updateTodoItem_notFoundT (B : Backend) (s : Store) (r : Remote) (i : Nat)
    (ht : findTodo s i = none) :
    SyncService.updateTodoItem B s r i = ⟨s, r, [], [], false, false, some .notFound⟩ := by
  unfold SyncService.updateTodoItem
  simp only [ht]

theorem updateTodoItem_noList (B : Backend) (s : Store) (r : Remote) (i : Nat)
    (todo : Todo) (ht : findTodo s i = some todo)
    (hl : findList s todo.listId = none) :
    SyncService.updateTodoItem B s r i = ⟨s, r, [], [], false, false, some .notFound⟩ := by
  unfold SyncService.updateTodoItem
  simp only [ht, hl]

theorem updateTodoItem_toCreate (B : Backend) (s : Store) (r : Remote) (i : Nat)
    (todo : Todo) (todoList : TodoList) (ht : findTodo s i = some todo)
    (hl : findList s todo.listId = some todoList)
    (htx : truthy todo.external_id = false) :
    SyncService.updateTodoItem B s r i = SyncService.createTodoItem B s r i := by
  unfold SyncService.updateTodoItem
  simp only [ht, hl, htx, Bool.not_false, if_true]

theorem updateTodoItem_patch (B : Backend) (s : Store) (r : Remote) (i : Nat)
    (todo : Todo) (todoList : TodoList) (r' : Remote) (b : Bool)
    (ht : findTodo s i = some todo) (hl : findList s todo.listId = some todoList)
    (htx : truthy todo.external_id = true) (hlx : truthy todoList.external_id = true)
    (hp : B.patchItem (todoList.external_id.getD "") (todo.external_id.getD "")
        todo.title todo.completed r = (r', b)) :
    SyncService.updateTodoItem B s r i =
      ⟨s, r', [.patchItem (todoList.external_id.getD "") (todo.external_id.getD "")
          todo.title todo.completed], [],
        false, false, if b then none else some .remoteError⟩ := by
  unfold SyncService.updateTodoItem
  cases b with
  | true =>
    simp only [ht, hl, htx, hlx, Bool.not_true, Bool.false_eq_true, if_false, hp, if_true]
  | false =>
    simp only [ht, hl, htx, hlx, Bool.not_true, Bool.false_eq_true, if_false, hp]

theorem updateTodoItem_afterCreate (B : Backend) (s : Store) (r : Remote) (i : Nat)
    (todo : Todo) (todoList : TodoList) (u : Todo) (ul : TodoList) (r2 : Remote)
    (ht : findTodo s i = some todo) (htx : truthy todo.external_id = true)
    (hl : findList s todo.listId = some todoList)
    (hlx : truthy todoList.external_id = false)
    (herr : (SyncService.createTodoList B s r todoList.id).err = none)
    (hu : findTodo (SyncService.createTodoList B s r todoList.id).store i = some u)
    (hut : truthy u.external_id = true)
    (hlu : findList (SyncService.createTodoList B s r todoList.id).store u.listId = some ul)
    (hp : B.patchItem (ul.external_id.getD "") (u.external_id.getD "")
        todo.title todo.completed (SyncService.createTodoList B s r todoList.id).remote =
      (r2, true)) :
    SyncService.updateTodoItem B s r i =
      { SyncService.createTodoList B s r todoList.id with
          remote := r2,
          calls := (SyncService.createTodoList B s r todoList.id).calls ++
            [.patchItem (ul.external_id.getD "") (u.external_id.getD "")
              todo.title todo.completed] } := by
  unfold SyncService.updateTodoItem
  simp only [ht, hl, htx, Bool.not_true, Bool.false_eq_true, if_false, hlx, Bool.not_false,
    if_true, herr, Option.isSome_none, hu, hut, hlu, hp]

theorem deleteTodoItem_noRow (B : Backend) (s : Store) (r : Remote) (i : Nat)
    (ht : findTodo s i = none) :
    SyncService.deleteTodoItem B s r i = ⟨s, r, [], [], false, false, none⟩ := by
  unfold SyncService.deleteTodoItem
  simp only [ht]

theorem deleteTodoItem_unsyncedT (B : Backend) (s : Store) (r : Remote) (i : Nat)
    (todo : Todo) (ht : findTodo s i = some todo)
    (htx : truthy todo.external_id = false) :
    SyncService.deleteTodoItem B s r i = ⟨s, r, [], [], false, false, none⟩ := by
  unfold SyncService.deleteTodoItem
  simp only [ht, htx, Bool.not_false, if_true]

theorem deleteTodoItem_noList (B : Backend) (s : Store) (r : Remote) (i : Nat)
    (todo : Todo) (ht : findTodo s i = some todo)
    (htx : truthy todo.external_id = true)
    (hl : findList s todo.listId = none) :
    SyncService.deleteTodoItem B s r i = ⟨s, r, [], [], false, false, none⟩ := by
  unfold SyncService.deleteTodoItem
  simp only [ht, htx, Bool.not_true, Bool.false_eq_true, if_false, hl]

theorem deleteTodoItem_unsyncedL (B : Backend) (s : Store) (r : Remote) (i : Nat)
    (todo : Todo) (todoList : TodoList) (ht : findTodo s i = some todo)
    (htx : truthy todo.external_id = true)
    (hl : findList s todo.listId = some todoList)
    (hlx : truthy todoList.external_id = false) :
    SyncService.deleteTodoItem B s r i = ⟨s, r, [], [], false, false, none⟩ := by
  unfold SyncService.deleteTodoItem
  simp only [ht, htx, Bool.not_true, Bool.false_eq_true, if_false, hl, hlx,
    Bool.not_false, if_true]

theorem deleteTodoItem_remote (B : Backend) (s : Store) (r : Remote) (i : Nat)
    (todo : Todo) (todoList : TodoList) (r' : Remote) (outcome : DeleteOutcome)
    (ht : findTodo s i = some todo) (htx : truthy todo.external_id = true)
    (hl : findList s todo.listId = some todoList)
    (hlx : truthy todoList.external_id = true)
    (hd : B.deleteItem (todoList.external_id.getD "") (todo.external_id.getD "") r =
      (r', outcome)) :
    SyncService.deleteTodoItem B s r i =
      ⟨s, r', [.deleteItem (todoList.external_id.getD "") (todo.external_id.getD "")], [],
        false, false,
        match outcome with
        | .failed => some .remoteError
        | _ => none⟩ := by
  unfold SyncService.deleteTodoItem
  cases outcome with
  | ok => simp only [ht, htx, hl, hlx, Bool.not_true, Bool.false_eq_true, if_false, hd]
  | notFound404 => simp only [ht, htx, hl, hlx, Bool.not_true, Bool.false_eq_true, if_false, hd]
  | failed => simp only [ht, htx, hl, hlx, Bool.not_true, Bool.false_eq_true, if_false, hd]

theorem patchListImpl_found_any {eid name : String} {r : Remote}
    (h : r.lists.any (fun l => l.id == eid) = true) :
    Remote.patchListImpl eid name r = ((Remote.patchListImpl eid name r).1, true) := by
  unfold Remote.patchListImpl
  rw [if_pos h]

theorem patchListImpl_notFound {eid name : String} {r : Remote}
    (h : r.lists.any (fun l => l.id == eid) = false) :
    Remote.patchListImpl eid name r = (r, false) := by
  unfold Remote.patchListImpl
  rw [if_neg (by simp [h])]

theorem patchItemImpl_found_any {leid ieid d : String} {c : Bool} {r : Remote}
    (h : r.lists.any (fun l => l.id == leid &&
        l.items.any (fun it => it.id == some ieid)) = true) :
    Remote.patchItemImpl leid ieid d c r =
      ((Remote.patchItemImpl leid ieid d c r).1, true) := by
  unfold Remote.patchItemImpl
  rw [if_pos h]

theorem patchItemImpl_notFound {leid ieid d : String} {c : Bool} {r : Remote}
    (h : r.lists.any (fun l => l.id == leid &&
        l.items.any (fun it => it.id == some ieid)) = false) :
    Remote.patchItemImpl leid ieid d c r = (r, false) := by
  unfold Remote.patchItemImpl
  rw [if_neg (by simp [h])]

theorem deleteListImpl_found_any {eid : String} {r : Remote}
    (h : r.lists.any (fun l => l.id == eid) = true) :
    Remote.deleteListImpl eid r = ((Remote.deleteListImpl eid r).1, .ok) := by
  unfold Remote.deleteListImpl
  rw [if_pos h]

theorem deleteItemImpl_found_any {leid ieid : String} {r : Remote}
    (h : r.lists.any (fun l => l.id == leid &&
        l.items.any (fun it => it.id == some ieid)) = true) :
    Remote.deleteItemImpl leid ieid r = ((Remote.deleteItemImpl leid ieid r).1, .ok) := by
  unfold Remote.deleteItemImpl
  rw [if_pos h]

/-! ## Replay idempotence of each handler against the reference server -/

theorem createTodoList_idem (s : Store) (r : Remote) (i : Nat) (hwf : StoreWF s) :
    (SyncService.createTodoList specBackend
        (SyncService.createTodoList specBackend s r i).store
        (SyncService.createTodoList specBackend s r i).remote i).store =
      (SyncService.createTodoList specBackend s r i).store ∧
    (SyncService.createTodoList specBackend
        (SyncService.createTodoList specBackend s r i).store
        (SyncService.createTodoList specBackend s r i).remote i).remote =
      (SyncService.createTodoList specBackend s r i).remote := by
  cases hf : findList s i with
  | none =>
    have h1 := createTodoList_notFound specBackend s r i hf
    simp [h1]
  | some l =>
    by_cases hx : truthy l.external_id = true
    · have h1 := createTodoList_synced_noop specBackend s r i l hf hx
      simp [h1]
    · have hext : truthy l.external_id = false := by simpa using hx
      obtain ⟨herr, hrm, hself, hfr, htodos, htfr⟩ := createTodoList_spec s r l i hwf hf hext
      have h3 := createTodoList_synced_noop specBackend
        (SyncService.createTodoList specBackend s r i).store
        (SyncService.createTodoList specBackend s r i).remote i
        { l with external_id := some (mkListExtId r.nextId) } hself
        (truthy_some_of_ne (mkListExtId_ne_empty r.nextId))
      rw [h3]
      exact ⟨rfl, rfl⟩

theorem deleteTodoList_idem (s : Store) (r : Remote) (i : Nat) :
    (SyncService.deleteTodoList specBackend
        (SyncService.deleteTodoList specBackend s r i).store
        (SyncService.deleteTodoList specBackend s r i).remote i).store =
      (SyncService.deleteTodoList specBackend s r i).store ∧
    (SyncService.deleteTodoList specBackend
        (SyncService.deleteTodoList specBackend s r i).store
        (SyncService.deleteTodoList specBackend s r i).remote i).remote =
      (SyncService.deleteTodoList specBackend s r i).remote := by
  cases hf : findList s i with
  | none =>
    have h1 := deleteTodoList_noRow specBackend s r i hf
    simp [h1]
  | some l =>
    by_cases hx : truthy l.external_id = true
    · by_cases hp : r.lists.any (fun L => L.id == (l.external_id.getD "")) = true
      · have h1 := deleteTodoList_remote specBackend s r i l
          (Remote.deleteListImpl (l.external_id.getD "") r).1 .ok hf hx
          (deleteListImpl_found_any hp)
        have h3 := deleteTodoList_remote specBackend s
          (Remote.deleteListImpl (l.external_id.getD "") r).1 i l
          (Remote.deleteListImpl (l.external_id.getD "") r).1 .notFound404 hf hx
          (deleteListImpl_notFound (deleteListImpl_post (l.external_id.getD "") r))
        simp [h1, h3]
      · have hpf : r.lists.any (fun L => L.id == (l.external_id.getD "")) = false := by
          simpa using hp
        have h1 := deleteTodoList_remote specBackend s r i l r .notFound404 hf hx
          (deleteListImpl_notFound hpf)
        simp [h1]
    · have hext : truthy l.external_id = false := by simpa using hx
      have h1 := deleteTodoList_unsynced specBackend s r i l hf hext
      simp [h1]

theorem updateTodoList_idem (s : Store) (r : Remote) (i : Nat)
    (hwf : StoreWF s) (hfresh : remoteIdsFresh r) :
    (SyncService.updateTodoList specBackend
        (SyncService.updateTodoList specBackend s r i).store
        (SyncService.updateTodoList specBackend s r i).remote i).store =
      (SyncService.updateTodoList specBackend s r i).store ∧
    (SyncService.updateTodoList specBackend
        (SyncService.updateTodoList specBackend s r i).store
        (SyncService.updateTodoList specBackend s r i).remote i).remote =
      (SyncService.updateTodoList specBackend s r i).remote := by
  cases hf : findList s i with
  | none =>
    have h1 := updateTodoList_notFound specBackend s r i hf
    simp [h1]
  | some l =>
    by_cases hx : truthy l.external_id = true
    · by_cases hp : r.lists.any (fun L => L.id == (l.external_id.getD "")) = true
      · have h1 := updateTodoList_patch specBackend s r i l
          (Remote.patchListImpl (l.external_id.getD "") l.name r).1 true hf hx
          (patchListImpl_found_any hp)
        obtain ⟨hany2, hname2⟩ := @patchListImpl_post (l.external_id.getD "") l.name r hp
        have h3 := updateTodoList_patch specBackend s
          (Remote.patchListImpl (l.external_id.getD "") l.name r).1 i l
          (Remote.patchListImpl (l.external_id.getD "") l.name r).1 true hf hx
          (patchListImpl_found hany2 hname2)
        simp [h1, h3]
      · have hpf : r.lists.any (fun L => L.id == (l.external_id.getD "")) = false := by
          simpa using hp
        have h1 := updateTodoList_patch specBackend s r i l r false hf hx
          (patchListImpl_notFound hpf)
        simp [h1]
    · have hext : truthy l.external_id = false := by simpa using hx
      have h1 := updateTodoList_delegate specBackend s r i l hf hext
      obtain ⟨herr, hrm, hself, hfr, htodos, htfr⟩ := createTodoList_spec s r l i hwf hf hext
      have hany : (SyncService.createTodoList specBackend s r i).remote.lists.any
          (fun L => L.id == mkListExtId r.nextId) = true := by
        rw [hrm]
        apply List.any_eq_true.mpr
        refine ⟨⟨mkListExtId r.nextId, some (natToStr l.id), l.name,
          mkNewItems (SyncService.listBody s l) r⟩, ?_, by simp⟩
        exact List.mem_append_right _ (by simp)
      have hname : ∀ L ∈ (SyncService.createTodoList specBackend s r i).remote.lists,
          L.id = mkListExtId r.nextId → L.name = l.name := by
        rw [hrm]
        intro L hL he
        rcases List.mem_append.mp hL with hL' | hL'
        · exact absurd he (remoteIdsFresh_ne hfresh hL')
        · have hLe := List.mem_singleton.mp hL'
          subst hLe
          rfl
      have hp2 := patchListImpl_found hany hname
      have h3 := updateTodoList_patch specBackend
        (SyncService.createTodoList specBackend s r i).store
        (SyncService.createTodoList specBackend s r i).remote i
        { l with external_id := some (mkListExtId r.nextId) }
        (SyncService.createTodoList specBackend s r i).remote true hself
        (truthy_some_of_ne (mkListExtId_ne_empty r.nextId)) hp2
      rw [h1, h3]
      exact ⟨rfl, rfl⟩

theorem createTodoItem_idem (s : Store) (r : Remote) (i : Nat) (hwf : StoreWF s) :
    (SyncService.createTodoItem specBackend
        (SyncService.createTodoItem specBackend s r i).store
        (SyncService.createTodoItem specBackend s r i).remote i).store =
      (SyncService.createTodoItem specBackend s r i).store ∧
    (SyncService.createTodoItem specBackend
        (SyncService.createTodoItem specBackend s r i).store
        (SyncService.createTodoItem specBackend s r i).remote i).remote =
      (SyncService.createTodoItem specBackend s r i).remote := by
  cases ht : findTodo s i with
  | none =>
    have h1 := createTodoItem_notFoundT specBackend s r i ht
    simp [h1]
  | some todo =>
    cases hl : findList s todo.listId with
    | none =>
      have h1 := createTodoItem_noList specBackend s r i todo ht hl
      simp [h1]
    | some todoList =>
      by_cases htx : truthy todo.external_id = true
      · have h1 := createTodoItem_synced specBackend s r i todo todoList ht hl htx
        simp [h1]
      · have htxf : truthy todo.external_id = false := by simpa using htx
        by_cases hlx : truthy todoList.external_id = true
        · have h1 := createTodoItem_warn specBackend s r i todo todoList ht hl htxf hlx
          simp [h1]
        · have hlxf : truthy todoList.external_id = false := by simpa using hlx
          have hlf : findList s todoList.id = some todoList := by
            rw [(findList_mem hl).2]
            exact hl
          obtain ⟨herr, hrm, hself, hfr, htodos, htfr⟩ :=
            createTodoList_spec s r todoList todoList.id hwf hlf hlxf
          have htmem : todo ∈ todosOf s todoList.id :=
            mem_todosOf.mpr ⟨(findTodo_mem ht).1, ((findList_mem hl).2).symm⟩
          obtain ⟨k, hk⟩ := exists_mem_enumFrom 0 htmem
          have hu := htodos (k, todo) hk
          have hui : findTodo (SyncService.createTodoList specBackend s r todoList.id).store i
              = some { todo with external_id := some (mkItemExtId (r.nextId + 1 + k)) } := by
            rw [← (findTodo_mem ht).2]
            exact hu
          have hut : truthy ({ todo with
              external_id := some (mkItemExtId (r.nextId + 1 + k)) } : Todo).external_id =
              true :=
            truthy_some_of_ne (mkItemExtId_ne_empty _)
          have h1 := createTodoItem_delegate specBackend s r i todo todoList
            { todo with external_id := some (mkItemExtId (r.nextId + 1 + k)) }
            ht hl htxf hlxf herr hui hut
          have hl2 : findList (SyncService.createTodoList specBackend s r todoList.id).store
              ({ todo with
                external_id := some (mkItemExtId (r.nextId + 1 + k)) } : Todo).listId =
              some { todoList with external_id := some (mkListExtId r.nextId) } := by
            show findList _ todo.listId = _
            rw [← (findList_mem hl).2]
            exact hself
          have h3 := createTodoItem_synced specBackend
            (SyncService.createTodoList specBackend s r todoList.id).store
            (SyncService.createTodoList specBackend s r todoList.id).remote i
            { todo with external_id := some (mkItemExtId (r.nextId + 1 + k)) }
            { todoList with external_id := some (mkListExtId r.nextId) }
            hui hl2 hut
          rw [h1, h3]
          exact ⟨rfl, rfl⟩

theorem deleteTodoItem_idem (s : Store) (r : Remote) (i : Nat) :
    (SyncService.deleteTodoItem specBackend
        (SyncService.deleteTodoItem specBackend s r i).store
        (SyncService.deleteTodoItem specBackend s r i).remote i).store =
      (SyncService.deleteTodoItem specBackend s r i).store ∧
    (SyncService.deleteTodoItem specBackend
        (SyncService.deleteTodoItem specBackend s r i).store
        (SyncService.deleteTodoItem specBackend s r i).remote i).remote =
      (SyncService.deleteTodoItem specBackend s r i).remote := by
  cases ht : findTodo s i with
  | none =>
    have h1 := deleteTodoItem_noRow specBackend s r i ht
    simp [h1]
  | some todo =>
    by_cases htx : truthy todo.external_id = true
    · cases hl : findList s todo.listId with
      | none =>
        have h1 := deleteTodoItem_noList specBackend s r i todo ht htx hl
        simp [h1]
      | some todoList =>
        by_cases hlx : truthy todoList.external_id = true
        · by_cases hp : r.lists.any (fun L => L.id == (todoList.external_id.getD "") &&
              L.items.any (fun it => it.id == some (todo.external_id.getD ""))) = true
          · have h1 := deleteTodoItem_remote specBackend s r i todo todoList
              (Remote.deleteItemImpl (todoList.external_id.getD "")
                (todo.external_id.getD "") r).1 .ok ht htx hl hlx
              (deleteItemImpl_found_any hp)
            have h3 := deleteTodoItem_remote specBackend s
              (Remote.deleteItemImpl (todoList.external_id.getD "")
                (todo.external_id.getD "") r).1 i todo todoList
              (Remote.deleteItemImpl (todoList.external_id.getD "")
                (todo.external_id.getD "") r).1 .notFound404 ht htx hl hlx
              (deleteItemImpl_notFound (deleteItemImpl_post
                (todoList.external_id.getD "") (todo.external_id.getD "") r))
            simp [h1, h3]
          · have hpf : r.lists.any (fun L => L.id == (todoList.external_id.getD "") &&
                L.items.any (fun it => it.id == some (todo.external_id.getD ""))) = false := by
              simpa using hp
            have h1 := deleteTodoItem_remote specBackend s r i todo todoList r .notFound404
              ht htx hl hlx (deleteItemImpl_notFound hpf)
            simp [h1]
        · have hlxf : truthy todoList.external_id = false := by simpa using hlx
          have h1 := deleteTodoItem_unsyncedL specBackend s r i todo todoList ht htx hl hlxf
          simp [h1]
    · have htxf : truthy todo.external_id = false := by simpa using htx
      have h1 := deleteTodoItem_unsyncedT specBackend s r i todo ht htxf
      simp [h1]

theorem updateTodoItem_idem (s : Store) (r : Remote) (i : Nat)
    (hwf : StoreWF s) (hfresh : remoteIdsFresh r) :
    (SyncService.updateTodoItem specBackend
        (SyncService.updateTodoItem specBackend s r i).store
        (SyncService.updateTodoItem specBackend s r i).remote i).store =
      (SyncService.updateTodoItem specBackend s r i).store ∧
    (SyncService.updateTodoItem specBackend
        (SyncService.updateTodoItem specBackend s r i).store
        (SyncService.updateTodoItem specBackend s r i).remote i).remote =
      (SyncService.updateTodoItem specBackend s r i).remote := by
  cases ht : findTodo s i with
  | none =>
    have h1 := updateTodoItem_notFoundT specBackend s r i ht
    simp [h1]
  | some todo =>
    cases hl : findList s todo.listId with
    | none =>
      have h1 := updateTodoItem_noList specBackend s r i todo ht hl
      simp [h1]
    | some todoList =>
      by_cases htx : truthy todo.external_id = true
      · by_cases hlx : truthy todoList.external_id = true
        · -- both synced: one identity-checkable PATCH per run
          by_cases hp : r.lists.any (fun L => L.id == (todoList.external_id.getD "") &&
              L.items.any (fun it => it.id == some (todo.external_id.getD ""))) = true
          · have h1 := updateTodoItem_patch specBackend s r i todo todoList
              (Remote.patchItemImpl (todoList.external_id.getD "") (todo.external_id.getD "")
                todo.title todo.completed r).1 true ht hl htx hlx
              (patchItemImpl_found_any hp)
            obtain ⟨hany2, hval2⟩ := @patchItemImpl_post (todoList.external_id.getD "")
              (todo.external_id.getD "") todo.title todo.completed r hp
            have h3 := updateTodoItem_patch specBackend s
              (Remote.patchItemImpl (todoList.external_id.getD "") (todo.external_id.getD "")
                todo.title todo.completed r).1 i todo todoList
              (Remote.patchItemImpl (todoList.external_id.getD "") (todo.external_id.getD "")
                todo.title todo.completed r).1 true ht hl htx hlx
              (patchItemImpl_found hany2 hval2)
            simp [h1, h3]
          · have hpf : r.lists.any (fun L => L.id == (todoList.external_id.getD "") &&
                L.items.any (fun it => it.id == some (todo.external_id.getD ""))) = false := by
              simpa using hp
            have h1 := updateTodoItem_patch specBackend s r i todo todoList r false
              ht hl htx hlx (patchItemImpl_notFound hpf)
            simp [h1]
        · -- synced todo in an unsynced list: list sync rewrites the ids, then an
          -- identity PATCH; the second run is a pure identity PATCH
          have hlxf : truthy todoList.external_id = false := by simpa using hlx
          have hlf : findList s todoList.id = some todoList := by
            rw [(findList_mem hl).2]
            exact hl
          obtain ⟨herr, hrm, hself, hfr, htodos, htfr⟩ :=
            createTodoList_spec s r todoList todoList.id hwf hlf hlxf
          have htmem : todo ∈ todosOf s todoList.id :=
            mem_todosOf.mpr ⟨(findTodo_mem ht).1, ((findList_mem hl).2).symm⟩
          obtain ⟨k, hk⟩ := exists_mem_enumFrom 0 htmem
          have hu := htodos (k, todo) hk
          have hui : findTodo
              (SyncService.createTodoList specBackend s r todoList.id).store i
              = some { todo with external_id := some (mkItemExtId (r.nextId + 1 + k)) } := by
            rw [← (findTodo_mem ht).2]
            exact hu
          have hut : truthy ({ todo with
              external_id := some (mkItemExtId (r.nextId + 1 + k)) } : Todo).external_id =
              true :=
            truthy_some_of_ne (mkItemExtId_ne_empty _)
          have hl2 : findList (SyncService.createTodoList specBackend s r todoList.id).store
              ({ todo with
                external_id := some (mkItemExtId (r.nextId + 1 + k)) } : Todo).listId =
              some { todoList with external_id := some (mkListExtId r.nextId) } := by
            show findList _ todo.listId = _
            rw [← (findList_mem hl).2]
            exact hself
          have hany2 : (SyncService.createTodoList specBackend s r todoList.id).remote.lists.any
              (fun L => L.id == mkListExtId r.nextId &&
                L.items.any (fun it => it.id == some (mkItemExtId (r.nextId + 1 + k)))) =
              true := by
            rw [hrm]
            apply List.any_eq_true.mpr
            refine ⟨⟨mkListExtId r.nextId, some (natToStr todoList.id), todoList.name,
              mkNewItems (SyncService.listBody s todoList) r⟩,
              List.mem_append_right _ (by simp), ?_⟩
            rw [Bool.and_eq_true]
            refine ⟨by simp, ?_⟩
            apply List.any_eq_true.mpr
            exact ⟨⟨some (mkItemExtId (r.nextId + 1 + k)), some (natToStr todo.id),
              todo.title, todo.completed⟩, mkNewItems_mem_of_enum hk, by simp⟩
          have hval2 : ∀ L ∈ (SyncService.createTodoList specBackend s r
                todoList.id).remote.lists,
              L.id = mkListExtId r.nextId →
              ∀ it ∈ L.items, it.id = some (mkItemExtId (r.nextId + 1 + k)) →
                it.description = todo.title ∧ it.completed = todo.completed := by
            rw [hrm]
            intro L hL he
            rcases List.mem_append.mp hL with hL' | hL'
            · exact absurd he (remoteIdsFresh_ne hfresh hL')
            · have hLe := List.mem_singleton.mp hL'
              subst hLe
              intro it hit hie
              obtain ⟨j, t', hj, hit'⟩ := mkNewItems_inv hit
              subst hit'
              have h2 : some (mkItemExtId (r.nextId + 1 + j)) =
                  some (mkItemExtId (r.nextId + 1 + k)) := hie
              have hjk : r.nextId + 1 + j = r.nextId + 1 + k :=
                mkItemExtId_inj (Option.some.inj h2)
              have hj' : j = k := by omega
              subst hj'
              have ht' : t' = todo := enumFrom_fst_eq hj hk
              subst ht'
              exact ⟨rfl, rfl⟩
          have hPfound := patchItemImpl_found hany2 hval2
          have h1 := updateTodoItem_afterCreate specBackend s r i todo todoList
            { todo with external_id := some (mkItemExtId (r.nextId + 1 + k)) }
            { todoList with external_id := some (mkListExtId r.nextId) }
            (SyncService.createTodoList specBackend s r todoList.id).remote
            ht htx hl hlxf herr hui hut hl2 hPfound
          have h3 := updateTodoItem_patch specBackend
            (SyncService.createTodoList specBackend s r todoList.id).store
            (SyncService.createTodoList specBackend s r todoList.id).remote i
            { todo with external_id := some (mkItemExtId (r.nextId + 1 + k)) }
            { todoList with external_id := some (mkListExtId r.nextId) }
            (SyncService.createTodoList specBackend s r todoList.id).remote true
            hui hl2 hut (truthy_some_of_ne (mkListExtId_ne_empty r.nextId)) hPfound
          simp [h1, h3]
      · -- unsynced todo: delegate to the ItemCreated handler
        have htxf : truthy todo.external_id = false := by simpa using htx
        have h1 := updateTodoItem_toCreate specBackend s r i todo todoList ht hl htxf
        by_cases hlx : truthy todoList.external_id = true
        · have hC := createTodoItem_warn specBackend s r i todo todoList ht hl htxf hlx
          simp [h1, hC]
        · have hlxf : truthy todoList.external_id = false := by simpa using hlx
          have hlf : findList s todoList.id = some todoList := by
            rw [(findList_mem hl).2]
            exact hl
          obtain ⟨herr, hrm, hself, hfr, htodos, htfr⟩ :=
            createTodoList_spec s r todoList todoList.id hwf hlf hlxf
          have htmem : todo ∈ todosOf s todoList.id :=
            mem_todosOf.mpr ⟨(findTodo_mem ht).1, ((findList_mem hl).2).symm⟩
          obtain ⟨k, hk⟩ := exists_mem_enumFrom 0 htmem
          have hu := htodos (k, todo) hk
          have hui : findTodo
              (SyncService.createTodoList specBackend s r todoList.id).store i
              = some { todo with external_id := some (mkItemExtId (r.nextId + 1 + k)) } := by
            rw [← (findTodo_mem ht).2]
            exact hu
          have hut : truthy ({ todo with
              external_id := some (mkItemExtId (r.nextId + 1 + k)) } : Todo).external_id =
              true :=
            truthy_some_of_ne (mkItemExtId_ne_empty _)
          have hCd := createTodoItem_delegate specBackend s r i todo todoList
            { todo with external_id := some (mkItemExtId (r.nextId + 1 + k)) }
            ht hl htxf hlxf herr hui hut
          have hl2 : findList (SyncService.createTodoList specBackend s r todoList.id).store
              ({ todo with
                external_id := some (mkItemExtId (r.nextId + 1 + k)) } : Todo).listId =
              some { todoList with external_id := some (mkListExtId r.nextId) } := by
            show findList _ todo.listId = _
            rw [← (findList_mem hl).2]
            exact hself
          have hany2 : (SyncService.createTodoList specBackend s r todoList.id).remote.lists.any
              (fun L => L.id == mkListExtId r.nextId &&
                L.items.any (fun it => it.id == some (mkItemExtId (r.nextId + 1 + k)))) =
              true := by
            rw [hrm]
            apply List.any_eq_true.mpr
            refine ⟨⟨mkListExtId r.nextId, some (natToStr todoList.id), todoList.name,
              mkNewItems (SyncService.listBody s todoList) r⟩,
              List.mem_append_right _ (by simp), ?_⟩
            rw [Bool.and_eq_true]
            refine ⟨by simp, ?_⟩
            apply List.any_eq_true.mpr
            exact ⟨⟨some (mkItemExtId (r.nextId + 1 + k)), some (natToStr todo.id),
              todo.title, todo.completed⟩, mkNewItems_mem_of_enum hk, by simp⟩
          have hval2 : ∀ L ∈ (SyncService.createTodoList specBackend s r
                todoList.id).remote.lists,
              L.id = mkListExtId r.nextId →
              ∀ it ∈ L.items, it.id = some (mkItemExtId (r.nextId + 1 + k)) →
                it.description = todo.title ∧ it.completed = todo.completed := by
            rw [hrm]
            intro L hL he
            rcases List.mem_append.mp hL with hL' | hL'
            · exact absurd he (remoteIdsFresh_ne hfresh hL')
            · have hLe := List.mem_singleton.mp hL'
              subst hLe
              intro it hit hie
              obtain ⟨j, t', hj, hit'⟩ := mkNewItems_inv hit
              subst hit'
              have h2 : some (mkItemExtId (r.nextId + 1 + j)) =
                  some (mkItemExtId (r.nextId + 1 + k)) := hie
              have hjk : r.nextId + 1 + j = r.nextId + 1 + k :=
                mkItemExtId_inj (Option.some.inj h2)
              have hj' : j = k := by omega
              subst hj'
              have ht' : t' = todo := enumFrom_fst_eq hj hk
              subst ht'
              exact ⟨rfl, rfl⟩
          have hPfound := patchItemImpl_found hany2 hval2
          have h3 := updateTodoItem_patch specBackend
            (SyncService.createTodoList specBackend s r todoList.id).store
            (SyncService.createTodoList specBackend s r todoList.id).remote i
            { todo with external_id := some (mkItemExtId (r.nextId + 1 + k)) }
            { todoList with external_id := some (mkListExtId r.nextId) }
            (SyncService.createTodoList specBackend s r todoList.id).remote true
            hui hl2 hut (truthy_some_of_ne (mkListExtId_ne_empty r.nextId)) hPfound
          rw [h1, hCd, h3]
          exact ⟨rfl, rfl⟩

/-- C8: event-replay idempotence.  For every sync event (each of the six
recognized kinds, and vacuously the warning-only unknown kinds), every
well-formed local store, and every remote state whose list ids were generated
by the reference server's fresh-id scheme, processing the same event twice in
succession leaves the local store and the remote state equal to the state
after processing it once. -/
theorem event_replay_idempotent (ev : SyncEvent) (s : Store) (r : Remote)
    (hwf : StoreWF s) (hfresh : remoteIdsFresh r) :
    (SyncService.handleSyncEvent specBackend ev
        (SyncService.handleSyncEvent specBackend ev s r).store
        (SyncService.handleSyncEvent specBackend ev s r).remote).store =
      (SyncService.handleSyncEvent specBackend ev s r).store ∧
    (SyncService.handleSyncEvent specBackend ev
        (SyncService.handleSyncEvent specBackend ev s r).store
        (SyncService.handleSyncEvent specBackend ev s r).remote).remote =
      (SyncService.handleSyncEvent specBackend ev s r).remote := by
  cases hb1 : ev.type == "create-todo-list" with
  | true =>
    have hdisp : ∀ (s' : Store) (r' : Remote),
        SyncService.handleSyncEvent specBackend ev s' r' =
          SyncService.createTodoList specBackend s' r' ev.id := by
      intro s' r'
      unfold SyncService.handleSyncEvent
      simp [hb1]
    simp only [hdisp]
    exact createTodoList_idem s r ev.id hwf
  | false =>
  cases hb2 : ev.type == "update-todo-list" with
  | true =>
    have hdisp : ∀ (s' : Store) (r' : Remote),
        SyncService.handleSyncEvent specBackend ev s' r' =
          SyncService.updateTodoList specBackend s' r' ev.id := by
      intro s' r'
      unfold SyncService.handleSyncEvent
      simp [hb1, hb2]
    simp only [hdisp]
    exact updateTodoList_idem s r ev.id hwf hfresh
  | false =>
  cases hb3 : ev.type == "delete-todo-list" with
  | true =>
    have hdisp : ∀ (s' : Store) (r' : Remote),
        SyncService.handleSyncEvent specBackend ev s' r' =
          SyncService.deleteTodoList specBackend s' r' ev.id := by
      intro s' r'
      unfold SyncService.handleSyncEvent
      simp [hb1, hb2, hb3]
    simp only [hdisp]
    exact deleteTodoList_idem s r ev.id
  | false =>
  cases hb4 : ev.type == "create-todo-item" with
  | true =>
    have hdisp : ∀ (s' : Store) (r' : Remote),
        SyncService.handleSyncEvent specBackend ev s' r' =
          SyncService.createTodoItem specBackend s' r' ev.id := by
      intro s' r'
      unfold SyncService.handleSyncEvent
      simp [hb1, hb2, hb3, hb4]
    simp only [hdisp]
    exact createTodoItem_idem s r ev.id hwf
  | false =>
  cases hb5 : ev.type == "update-todo-item" with
  | true =>
    have hdisp : ∀ (s' : Store) (r' : Remote),
        SyncService.handleSyncEvent specBackend ev s' r' =
          SyncService.updateTodoItem specBackend s' r' ev.id := by
      intro s' r'
      unfold SyncService.handleSyncEvent
      simp [hb1, hb2, hb3, hb4, hb5]
    simp only [hdisp]
    exact updateTodoItem_idem s r ev.id hwf hfresh
  | false =>
  cases hb6 : ev.type == "delete-todo-item" with
  | true =>
    have hdisp : ∀ (s' : Store) (r' : Remote),
        SyncService.handleSyncEvent specBackend ev s' r' =
          SyncService.deleteTodoItem specBackend s' r' ev.id := by
      intro s' r'
      unfold SyncService.handleSyncEvent
      simp [hb1, hb2, hb3, hb4, hb5, hb6]
    simp only [hdisp]
    exact deleteTodoItem_idem s r ev.id
  | false =>
    have hdisp : ∀ (s' : Store) (r' : Remote),
        SyncService.handleSyncEvent specBackend ev s' r' =
          ⟨s', r', [], [], false, true, none⟩ := by
      intro s' r'
      unfold SyncService.handleSyncEvent
      simp [hb1, hb2, hb3, hb4, hb5, hb6]
    simp only [hdisp]
    exact ⟨trivial, trivial⟩

/-- Witness instantiating C8 at a concrete well-formed store (one unsynced
list holding one unsynced todo), the empty remote, and a ListCreated
event. -/
theorem event_replay_idempotent_witness :
    (SyncService.handleSyncEvent specBackend ⟨"create-todo-list", 1⟩
        (SyncService.handleSyncEvent specBackend ⟨"create-todo-list", 1⟩
          ⟨[⟨1, none, "Groceries"⟩], [⟨1, none, "milk", false, 1⟩], 2, 2⟩
          ⟨[], 1⟩).store
        (SyncService.handleSyncEvent specBackend ⟨"create-todo-list", 1⟩
          ⟨[⟨1, none, "Groceries"⟩], [⟨1, none, "milk", false, 1⟩], 2, 2⟩
          ⟨[], 1⟩).remote).store =
      (SyncService.handleSyncEvent specBackend ⟨"create-todo-list", 1⟩
        ⟨[⟨1, none, "Groceries"⟩], [⟨1, none, "milk", false, 1⟩], 2, 2⟩
        ⟨[], 1⟩).store ∧
    (SyncService.handleSyncEvent specBackend ⟨"create-todo-list", 1⟩
        (SyncService.handleSyncEvent specBackend ⟨"create-todo-list", 1⟩
          ⟨[⟨1, none, "Groceries"⟩], [⟨1, none, "milk", false, 1⟩], 2, 2⟩
          ⟨[], 1⟩).store
        (SyncService.handleSyncEvent specBackend ⟨"create-todo-list", 1⟩
          ⟨[⟨1, none, "Groceries"⟩], [⟨1, none, "milk", false, 1⟩], 2, 2⟩
          ⟨[], 1⟩).remote).remote =
      (SyncService.handleSyncEvent specBackend ⟨"create-todo-list", 1⟩
        ⟨[⟨1, none, "Groceries"⟩], [⟨1, none, "milk", false, 1⟩], 2, 2⟩
        ⟨[], 1⟩).remote :=
  event_replay_idempotent ⟨"create-todo-list", 1⟩
    ⟨[⟨1, none, "Groceries"⟩], [⟨1, none, "milk", false, 1⟩], 2, 2⟩ ⟨[], 1⟩
    ⟨by decide, by decide, by decide, by decide, by decide, by decide, by decide⟩
    (by simp [remoteIdsFresh])

/-! ## Convergence: store and remote algebra -/

theorem upsert_map_key_of_mem {α : Type} {key : α → Nat} {xs : List α} (x : α)
    (h : key x ∈ xs.map key) :
    (upsertBy key xs x).map key = xs.map key := by
  unfold upsertBy
  obtain ⟨z, hz, hzk⟩ := List.mem_map.mp h
  rw [if_pos (List.any_eq_true.mpr ⟨z, hz, by simp [hzk]⟩), List.map_map]
  apply List.map_congr_left
  intro y _
  by_cases hk : (key y == key x) = true
  · have : key y = key x := by simpa using hk
    simp [Function.comp, hk, this]
  · simp [Function.comp, hk]

theorem upsertBy_fresh {α : Type} {key : α → Nat} {xs : List α} (x : α)
    (h : ∀ y ∈ xs, key y ≠ key x) :
    upsertBy key xs x = xs ++ [x] := by
  unfold upsertBy
  rw [if_neg]
  intro hany
  obtain ⟨z, hz, hzk⟩ := List.any_eq_true.mp hany
  exact h z hz (by simpa using hzk)

theorem applyEchoItems_map_id (todos : List Todo) :
    ∀ (items : List PostItemResp) (st : Store) (ws : List Write),
      (∀ t ∈ todos, t.id ∈ st.todos.map Todo.id) →
      (SyncService.applyEchoItems todos items (st, ws)).1.todos.map Todo.id =
        st.todos.map Todo.id := by
  intro items
  induction items with
  | nil => intro st ws _; rfl
  | cons ri rest ih =>
    intro st ws hmem
    unfold SyncService.applyEchoItems
    simp only [List.foldl_cons]
    cases hm : SyncService.echoMatch todos ri with
    | none =>
      have := ih st ws hmem
      unfold SyncService.applyEchoItems at this
      exact this
    | some t =>
      have ht : t ∈ todos := echoMatch_mem hm
      have hsave : (st.saveTodo { t with external_id := some ri.id }).todos.map Todo.id =
          st.todos.map Todo.id :=
        upsert_map_key_of_mem _ (hmem t ht)
      have := ih (st.saveTodo { t with external_id := some ri.id })
        (ws ++ [Write.saveTodo { t with external_id := some ri.id }])
        (fun t' ht' => hsave ▸ hmem t' ht')
      unfold SyncService.applyEchoItems at this
      rw [this, hsave]

theorem find?_key_filter_ne {α : Type} (key : α → Nat) (xs : List α) (i : Nat) :
    (xs.filter (fun x => !(key x == i))).find? (fun x => key x == i) = none := by
  apply List.find?_eq_none.mpr
  intro x hx
  have := (List.mem_filter.mp hx).2
  simpa using this

theorem enumFrom_fst_lt {α : Type} {p : Nat × α} :
    ∀ {l : List α} {n : Nat}, p ∈ l.enumFrom n → p.1 < n + l.length := by
  intro l
  induction l with
  | nil => intro n h; simp [List.enumFrom] at h
  | cons x rest ih =>
    intro n h
    rcases List.mem_cons.mp h with rfl | h'
    · simp
    · have := ih h'
      simp only [List.length_cons]
      omega

theorem key_eq_of_nodup_gen {α β : Type} (key : α → β) {xs : List α}
    (hnd : (xs.map key).Nodup) {x y : α}
    (hx : x ∈ xs) (hy : y ∈ xs) (h : key x = key y) : x = y := by
  induction xs with
  | nil => simp at hx
  | cons a rest ih =>
    simp only [List.map_cons, List.nodup_cons] at hnd
    rcases List.mem_cons.mp hx with rfl | hx'
    · rcases List.mem_cons.mp hy with rfl | hy'
      · rfl
      · exact absurd (h ▸ List.mem_map_of_mem key hy') hnd.1
    · rcases List.mem_cons.mp hy with rfl | hy'
      · exact absurd (h ▸ List.mem_map_of_mem key hx') hnd.1
      · exact ih hnd.2 hx' hy'

/-- The reference server's reply to a bundled list POST, in closed form. -/
theorem specBackend_post_eq (s : Store) (l : TodoList) (r : Remote) :
    specBackend.postList (SyncService.listBody s l) r =
      (⟨r.lists ++ [⟨mkListExtId r.nextId, some (natToStr l.id), l.name,
          mkNewItems (SyncService.listBody s l) r⟩],
        r.nextId + 1 + (todosOf s l.id).length⟩,
       some ⟨mkListExtId r.nextId,
         ((todosOf s l.id).enumFrom 0).map
           (fun p => (⟨mkItemExtId (r.nextId + 1 + p.1), some (natToStr p.2.id)⟩ :
             PostItemResp))⟩) := by
  show Remote.postListImpl (SyncService.listBody s l) r = _
  rw [← respItems_shape s l r]
  unfold Remote.postListImpl
  simp [SyncService.listBody]

/-- Structural shape of the store after a successful list sync: the list
record is upserted, the todo rows keep exactly their primary keys, and the
counters keep their bounds. -/
theorem createTodoList_store_shape (s : Store) (r : Remote) (l : TodoList) (i : Nat)
    (_hwf : StoreWF s)
    (hfind : findList s i = some l) (hext : truthy l.external_id = false) :
    (SyncService.createTodoList specBackend s r i).store.lists =
      upsertList s.lists { l with external_id := some (mkListExtId r.nextId) } ∧
    (SyncService.createTodoList specBackend s r i).store.todos.map Todo.id =
      s.todos.map Todo.id ∧
    (SyncService.createTodoList specBackend s r i).store.nextListId =
      max s.nextListId (l.id + 1) ∧
    s.nextTodoId ≤ (SyncService.createTodoList specBackend s r i).store.nextTodoId := by
  have heq := createTodoList_success_spec specBackend s r l i hfind hext
    (specBackend_post_eq s l r)
  rw [heq]
  refine ⟨?_, ?_, ?_, ?_⟩
  · exact applyEchoItems_lists _ _ _ _
  · exact applyEchoItems_map_id (todosOf s l.id) _
      (s.saveList { l with external_id := some (mkListExtId r.nextId) }) _
      (fun t ht => List.mem_map_of_mem Todo.id (mem_todosOf.mp ht).1)
  · have h := applyEchoItems_counters (todosOf s l.id)
      (((todosOf s l.id).enumFrom 0).map
        (fun p => (⟨mkItemExtId (r.nextId + 1 + p.1), some (natToStr p.2.id)⟩ : PostItemResp)))
      (s.saveList { l with external_id := some (mkListExtId r.nextId) })
      [Write.saveList { l with external_id := some (mkListExtId r.nextId) }]
    exact h.1
  · have h := applyEchoItems_counters (todosOf s l.id)
      (((todosOf s l.id).enumFrom 0).map
        (fun p => (⟨mkItemExtId (r.nextId + 1 + p.1), some (natToStr p.2.id)⟩ : PostItemResp)))
      (s.saveList { l with external_id := some (mkListExtId r.nextId) })
      [Write.saveList { l with external_id := some (mkListExtId r.nextId) }]
    exact h.2

/-- Exact membership of the todo rows after a successful list sync: rows of
other lists are untouched, and the synced list's rows are exactly its
original rows carrying their positional fresh remote item ids. -/
theorem createTodoList_todos_char (s : Store) (r : Remote) (l : TodoList) (i : Nat)
    (hwf : StoreWF s)
    (hfind : findList s i = some l) (hext : truthy l.external_id = false) :
    ∀ t', t' ∈ (SyncService.createTodoList specBackend s r i).store.todos ↔
      ((t' ∈ s.todos ∧ t'.listId ≠ l.id) ∨
       ∃ p ∈ (todosOf s l.id).enum,
         t' = { p.2 with external_id := some (mkItemExtId (r.nextId + 1 + p.1)) }) := by
  obtain ⟨herr, hrm, hself, hfr, htodos, htfr⟩ := createTodoList_spec s r l i hwf hfind hext
  obtain ⟨hlists, hids, hnl, hnt⟩ := createTodoList_store_shape s r l i hwf hfind hext
  have hndC : ((SyncService.createTodoList specBackend s r i).store.todos.map
      Todo.id).Nodup := by
    rw [hids]
    exact hwf.todoIdsNodup
  intro t'
  constructor
  · intro ht'
    have hfindC : findTodo (SyncService.createTodoList specBackend s r i).store t'.id =
        some t' := findTodo_eq_some_of_mem hndC ht'
    by_cases hcase : ∃ p ∈ (todosOf s l.id).enum, (p : Nat × Todo).2.id = t'.id
    · obtain ⟨p, hp, hpid⟩ := hcase
      right
      have hup := htodos p hp
      rw [hpid, hfindC] at hup
      exact ⟨p, hp, Option.some.inj hup⟩
    · have hframe : ∀ t ∈ todosOf s l.id, t.id ≠ t'.id := by
        intro t htl hc
        obtain ⟨k, hk⟩ := exists_mem_enumFrom 0 htl
        exact hcase ⟨(k, t), hk, hc⟩
      have hfr' := htfr t'.id hframe
      rw [hfindC] at hfr'
      have hmem := findTodo_mem hfr'.symm
      left
      refine ⟨hmem.1, ?_⟩
      intro hlid
      exact hframe t' (mem_todosOf.mpr ⟨hmem.1, hlid⟩) rfl
  · intro h
    rcases h with ⟨hmem, hne⟩ | ⟨p, hp, hpe⟩
    · have hframe : ∀ t ∈ todosOf s l.id, t.id ≠ t'.id := by
        intro t htl hc
        have htl' := mem_todosOf.mp htl
        have heq : t = t' := key_eq_of_nodup_gen Todo.id hwf.todoIdsNodup htl'.1 hmem hc
        rw [heq] at htl'
        exact hne htl'.2
      have hC := htfr t'.id hframe
      have hS : findTodo s t'.id = some t' := findTodo_eq_some_of_mem hwf.todoIdsNodup hmem
      rw [hS] at hC
      exact (findTodo_mem hC).1
    · subst hpe
      exact (findTodo_mem (htodos p hp)).1

theorem enumFrom_nodup {α : Type} : ∀ (l : List α) (n : Nat), (l.enumFrom n).Nodup := by
  intro l
  induction l with
  | nil => intro n; simp [List.enumFrom]
  | cons x rest ih =>
    intro n
    rw [List.enumFrom_cons]
    refine List.nodup_cons.mpr ⟨?_, ih (n + 1)⟩
    intro hmem
    have h : n + 1 ≤ n := enumFrom_fst_ge hmem
    omega

/-- The fresh remote item ids of one bundled POST are pairwise distinct. -/
theorem mkNewItems_ids_nodup (s : Store) (l : TodoList) (r : Remote) :
    ((mkNewItems (SyncService.listBody s l) r).map ExtItem.id).Nodup := by
  unfold mkNewItems
  rw [List.map_map, listBody_items_enum, List.map_map]
  refine List.Nodup.map_on ?_ (enumFrom_nodup _ 0)
  intro p hp q hq hpq
  rcases p with ⟨pa, pb⟩
  rcases q with ⟨qa, qb⟩
  have h1 : some (mkItemExtId (r.nextId + 1 + pa)) =
      some (mkItemExtId (r.nextId + 1 + qa)) := hpq
  have h2 := mkItemExtId_inj (Option.some.inj h1)
  have hfst : pa = qa := by omega
  subst hfst
  have hsnd : pb = qb := enumFrom_fst_eq hp hq
  rw [hsnd]

/-- Syncing an unsynced list (the only state-changing outbound path under
warning-free processing) preserves the reachability invariant. -/
theorem createTodoList_SysInv (s : Store) (r : Remote) (l : TodoList) (i : Nat)
    (hinv : SysInv s r) (hfind : findList s i = some l)
    (hunext : l.external_id = none) :
    SysInv (SyncService.createTodoList specBackend s r i).store
      (SyncService.createTodoList specBackend s r i).remote := by
  have hext : truthy l.external_id = false := by rw [hunext]; rfl
  have lmem : l ∈ s.lists := (findList_mem hfind).1
  have hlltN : l.id < s.nextListId := hinv.wf.listIdsLt l lmem
  obtain ⟨herr, hrm, hself, hfr, htodos, htfr⟩ :=
    createTodoList_spec s r l i hinv.wf hfind hext
  obtain ⟨hlists, hids, hnlmax, hnt⟩ := createTodoList_store_shape s r l i hinv.wf hfind hext
  have hchar := createTodoList_todos_char s r l i hinv.wf hfind hext
  have hnl : (SyncService.createTodoList specBackend s r i).store.nextListId =
      s.nextListId := by
    rw [hnlmax]
    omega
  have hrn : r.nextId ≤ (SyncService.createTodoList specBackend s r i).remote.nextId := by
    rw [hrm]
    show r.nextId ≤ r.nextId + 1 + (todosOf s l.id).length
    omega
  have hNmem : (⟨mkListExtId r.nextId, some (natToStr l.id), l.name,
      mkNewItems (SyncService.listBody s l) r⟩ : ExtList) ∈
      (SyncService.createTodoList specBackend s r i).remote.lists := by
    rw [hrm]
    exact List.mem_append_right _ (by simp)
  have hRmem : ∀ R ∈ r.lists,
      R ∈ (SyncService.createTodoList specBackend s r i).remote.lists := by
    intro R hR
    rw [hrm]
    exact List.mem_append_left _ hR
  have hRcase : ∀ R ∈ (SyncService.createTodoList specBackend s r i).remote.lists,
      R ∈ r.lists ∨ R = ⟨mkListExtId r.nextId, some (natToStr l.id), l.name,
        mkNewItems (SyncService.listBody s l) r⟩ := by
    intro R hR
    rw [hrm] at hR
    rcases List.mem_append.mp hR with h | h
    · exact Or.inl h
    · exact Or.inr (List.mem_singleton.mp h)
  have hULmem : ({ l with external_id := some (mkListExtId r.nextId) } : TodoList) ∈
      (SyncService.createTodoList specBackend s r i).store.lists := by
    rw [hlists]
    exact self_mem_upsertBy _ _
  have hOLmem : ∀ l' ∈ s.lists, l'.id ≠ l.id →
      l' ∈ (SyncService.createTodoList specBackend s r i).store.lists := by
    intro l' hl' hne
    rw [hlists]
    exact mem_upsertBy_of_mem hl' hne
  have hLcase : ∀ l' ∈ (SyncService.createTodoList specBackend s r i).store.lists,
      l' = { l with external_id := some (mkListExtId r.nextId) } ∨
      (l' ∈ s.lists ∧ l'.id ≠ l.id) := by
    intro l' hl'
    rw [hlists] at hl'
    rcases mem_upsertBy hl' with h | ⟨h1, h2⟩
    · exact Or.inl h
    · exact Or.inr ⟨h1, h2⟩
  refine ⟨⟨?_, ?_, ?_, ?_, ?_, ?_, ?_⟩, ?_, ?_, ?_, ?_, ?_, ?_, ?_, ?_, ?_⟩
  · -- listIdsNodup
    rw [hlists]
    exact map_key_upsertBy_nodup _ hinv.wf.listIdsNodup
  · -- todoIdsNodup
    rw [hids]
    exact hinv.wf.todoIdsNodup
  · -- listIdsLt
    intro l' hl'
    rw [hnl]
    rcases hLcase l' hl' with h2 | ⟨h3, _⟩
    · subst h2
      show l.id < s.nextListId
      exact hlltN
    · exact hinv.wf.listIdsLt l' h3
  · -- todoIdsLt
    intro t' ht'
    have hidmem : t'.id ∈
        (SyncService.createTodoList specBackend s r i).store.todos.map Todo.id :=
      List.mem_map_of_mem Todo.id ht'
    rw [hids] at hidmem
    obtain ⟨t0, ht0, hid0⟩ := List.mem_map.mp hidmem
    have h1 := hinv.wf.todoIdsLt t0 ht0
    omega
  · -- todoRef
    intro t' ht'
    rcases (hchar t').mp ht' with ⟨hmem, hne⟩ | ⟨p, hp, hpe⟩
    · obtain ⟨l0, hl0, hl0id⟩ := hinv.wf.todoRef t' hmem
      exact ⟨l0, hOLmem l0 hl0 (fun hc => hne (hl0id ▸ hc)), hl0id⟩
    · refine ⟨{ l with external_id := some (mkListExtId r.nextId) }, hULmem, ?_⟩
      show l.id = t'.listId
      rw [hpe]
      exact ((mem_todosOf.mp (snd_mem_of_mem_enumFrom hp)).2).symm
  · -- listExtNe
    intro l' hl'
    rcases hLcase l' hl' with h2 | ⟨h3, _⟩
    · subst h2
      show some (mkListExtId r.nextId) ≠ some ""
      intro hc
      exact mkListExtId_ne_empty r.nextId (Option.some.inj hc)
    · exact hinv.wf.listExtNe l' h3
  · -- todoExtNe
    intro t' ht'
    rcases (hchar t').mp ht' with ⟨hmem, _⟩ | ⟨p, hp, hpe⟩
    · exact hinv.wf.todoExtNe t' hmem
    · rw [hpe]
      show some (mkItemExtId (r.nextId + 1 + p.1)) ≠ some ""
      intro hc
      exact mkItemExtId_ne_empty _ (Option.some.inj hc)
  · -- remoteListId
    intro R hR
    rcases hRcase R hR with h | h2
    · obtain ⟨m, hm, he⟩ := hinv.remoteListId R h
      exact ⟨m, Nat.lt_of_lt_of_le hm hrn, he⟩
    · subst h2
      refine ⟨r.nextId, ?_, rfl⟩
      rw [hrm]
      show r.nextId < r.nextId + 1 + (todosOf s l.id).length
      omega
  · -- remoteItemId
    intro R hR it hit
    rcases hRcase R hR with h | h2
    · obtain ⟨m, hm, he⟩ := hinv.remoteItemId R h it hit
      exact ⟨m, Nat.lt_of_lt_of_le hm hrn, he⟩
    · subst h2
      obtain ⟨k, t, hk, he⟩ := mkNewItems_inv hit
      refine ⟨r.nextId + 1 + k, ?_, by rw [he]⟩
      rw [hrm]
      show r.nextId + 1 + k < r.nextId + 1 + (todosOf s l.id).length
      have hkl : k < 0 + (todosOf s l.id).length := enumFrom_fst_lt hk
      omega
  · -- remoteListIdsNodup
    rw [hrm]
    show ((r.lists ++ [(⟨mkListExtId r.nextId, some (natToStr l.id), l.name,
      mkNewItems (SyncService.listBody s l) r⟩ : ExtList)]).map ExtList.id).Nodup
    rw [List.map_append, List.map_singleton]
    refine List.nodup_append.mpr ⟨hinv.remoteListIdsNodup, List.nodup_singleton _, ?_⟩
    intro a ha
    simp only [List.mem_singleton]
    intro hax
    obtain ⟨R, hR, hRid⟩ := List.mem_map.mp ha
    subst hax
    exact remoteIdsFresh_ne hinv.remoteListId hR hRid
  · -- remoteItemIdsNodup
    intro R hR
    rcases hRcase R hR with h | h2
    · exact hinv.remoteItemIdsNodup R h
    · subst h2
      exact mkNewItems_ids_nodup s l r
  · -- remoteSrc
    intro R hR
    rcases hRcase R hR with h | h2
    · obtain ⟨k, hk1, hk2, hk3⟩ := hinv.remoteSrc R h
      refine ⟨k, hk1, by rw [hnl]; exact hk2, ?_⟩
      intro l' hl' he
      rcases hLcase l' hl' with h2 | ⟨h3, h4⟩
      · subst h2
        have hle : l.external_id = some R.id := hk3 l lmem he
        rw [hunext] at hle
        exact absurd hle (by simp)
      · exact hk3 l' h3 he
    · subst h2
      refine ⟨l.id, rfl, ?_, ?_⟩
      · rw [hnl]
        exact hlltN
      · intro l' hl' he
        rcases hLcase l' hl' with h2 | ⟨h3, h4⟩
        · subst h2
          rfl
        · exact absurd he h4
  · -- unsyncedClean
    intro l' hl' hene
    rcases hLcase l' hl' with h2 | ⟨h3, h4⟩
    · subst h2
      exact absurd hene (by simp)
    · have hold := hinv.unsyncedClean l' h3 hene
      constructor
      · intro R hR
        rcases hRcase R hR with h | h2
        · exact hold.1 R h
        · subst h2
          show some (natToStr l.id) ≠ some (natToStr l'.id)
          intro hc
          exact h4 (natToStr_injective (Option.some.inj hc)).symm
      · intro t htl
        have hms := mem_todosOf.mp htl
        rcases (hchar t).mp hms.1 with ⟨hmem, hne⟩ | ⟨p, hp, hpe⟩
        · exact hold.2 t (mem_todosOf.mpr ⟨hmem, hms.2⟩)
        · exfalso
          have hpl : t.listId = l.id := by
            rw [hpe]
            exact (mem_todosOf.mp (snd_mem_of_mem_enumFrom hp)).2
          rw [hms.2] at hpl
          exact h4 hpl
  · -- syncedMatch
    intro l' hl' e he
    rcases hLcase l' hl' with h2 | ⟨h3, h4⟩
    · subst h2
      have hee : e = mkListExtId r.nextId := (Option.some.inj he).symm
      subst hee
      refine ⟨⟨mkListExtId r.nextId, some (natToStr l.id), l.name,
        mkNewItems (SyncService.listBody s l) r⟩, hNmem, rfl, rfl, rfl, ?_⟩
      intro t htl
      have hms := mem_todosOf.mp htl
      rcases (hchar t).mp hms.1 with ⟨hmem, hne⟩ | ⟨p, hp, hpe⟩
      · exact absurd hms.2 hne
      · subst hpe
        refine ⟨mkItemExtId (r.nextId + 1 + p.1), rfl, ?_⟩
        exact ⟨⟨some (mkItemExtId (r.nextId + 1 + p.1)), some (natToStr p.2.id),
          p.2.title, p.2.completed⟩, mkNewItems_mem_of_enum hp, rfl, rfl, rfl⟩
    · obtain ⟨R, hR, hRid, hRsrc, hRname, hRtodos⟩ := hinv.syncedMatch l' h3 e he
      refine ⟨R, hRmem R hR, hRid, hRsrc, hRname, ?_⟩
      intro t htl
      have hms := mem_todosOf.mp htl
      rcases (hchar t).mp hms.1 with ⟨hmem, hne⟩ | ⟨p, hp, hpe⟩
      · exact hRtodos t (mem_todosOf.mpr ⟨hmem, hms.2⟩)
      · exfalso
        have hpl : t.listId = l.id := by
          rw [hpe]
          exact (mem_todosOf.mp (snd_mem_of_mem_enumFrom hp)).2
        rw [hms.2] at hpl
        exact h4 hpl
  · -- todoExtShape
    intro t ht d hd
    rcases (hchar t).mp ht with ⟨hmem, hne⟩ | ⟨p, hp, hpe⟩
    · obtain ⟨m, hm, he⟩ := hinv.todoExtShape t hmem d hd
      exact ⟨m, Nat.lt_of_lt_of_le hm hrn, he⟩
    · subst hpe
      have hd' : some (mkItemExtId (r.nextId + 1 + p.1)) = some d := hd
      refine ⟨r.nextId + 1 + p.1, ?_, (Option.some.inj hd').symm⟩
      rw [hrm]
      show r.nextId + 1 + p.1 < r.nextId + 1 + (todosOf s l.id).length
      have hkl : p.1 < 0 + (todosOf s l.id).length := enumFrom_fst_lt hp
      omega
  · -- todoExtUnique
    intro t1 h1 t2 h2 d hd1 hd2
    rcases (hchar t1).mp h1 with ⟨hm1, _⟩ | ⟨p, hp, hpe⟩
    · rcases (hchar t2).mp h2 with ⟨hm2, _⟩ | ⟨q, hq, hqe⟩
      · exact hinv.todoExtUnique t1 hm1 t2 hm2 d hd1 hd2
      · exfalso
        obtain ⟨m, hm, he⟩ := hinv.todoExtShape t1 hm1 d hd1
        subst hqe
        have hd2' : some (mkItemExtId (r.nextId + 1 + q.1)) = some d := hd2
        have heq : mkItemExtId (r.nextId + 1 + q.1) = mkItemExtId m := by
          rw [Option.some.inj hd2', he]
        have hcon := mkItemExtId_inj heq
        omega
    · rcases (hchar t2).mp h2 with ⟨hm2, _⟩ | ⟨q, hq, hqe⟩
      · exfalso
        obtain ⟨m, hm, he⟩ := hinv.todoExtShape t2 hm2 d hd2
        subst hpe
        have hd1' : some (mkItemExtId (r.nextId + 1 + p.1)) = some d := hd1
        have heq : mkItemExtId (r.nextId + 1 + p.1) = mkItemExtId m := by
          rw [Option.some.inj hd1', he]
        have hcon := mkItemExtId_inj heq
        omega
      · subst hpe
        subst hqe
        have hd1' : some (mkItemExtId (r.nextId + 1 + p.1)) = some d := hd1
        have hd2' : some (mkItemExtId (r.nextId + 1 + q.1)) = some d := hd2
        have heq : mkItemExtId (r.nextId + 1 + p.1) =
            mkItemExtId (r.nextId + 1 + q.1) := by
          rw [Option.some.inj hd1', Option.some.inj hd2']
        have hpq := mkItemExtId_inj heq
        rcases p with ⟨pa, pb⟩
        rcases q with ⟨qa, qb⟩
        have hfst : pa = qa := by omega
        subst hfst
        have hsnd : pb = qb := enumFrom_fst_eq hp hq
        rw [hsnd]

theorem dispatch_create_list (B : Backend) (s : Store) (r : Remote) (i : Nat) :
    SyncService.handleSyncEvent B ⟨"create-todo-list", i⟩ s r =
      SyncService.createTodoList B s r i := by
  unfold SyncService.handleSyncEvent
  simp

theorem dispatch_update_list (B : Backend) (s : Store) (r : Remote) (i : Nat) :
    SyncService.handleSyncEvent B ⟨"update-todo-list", i⟩ s r =
      SyncService.updateTodoList B s r i := by
  unfold SyncService.handleSyncEvent
  simp

theorem dispatch_delete_list (B : Backend) (s : Store) (r : Remote) (i : Nat) :
    SyncService.handleSyncEvent B ⟨"delete-todo-list", i⟩ s r =
      SyncService.deleteTodoList B s r i := by
  unfold SyncService.handleSyncEvent
  simp

theorem dispatch_create_item (B : Backend) (s : Store) (r : Remote) (i : Nat) :
    SyncService.handleSyncEvent B ⟨"create-todo-item", i⟩ s r =
      SyncService.createTodoItem B s r i := by
  unfold SyncService.handleSyncEvent
  simp

theorem dispatch_update_item (B : Backend) (s : Store) (r : Remote) (i : Nat) :
    SyncService.handleSyncEvent B ⟨"update-todo-item", i⟩ s r =
      SyncService.updateTodoItem B s r i := by
  unfold SyncService.handleSyncEvent
  simp

theorem dispatch_delete_item (B : Backend) (s : Store) (r : Remote) (i : Nat) :
    SyncService.handleSyncEvent B ⟨"delete-todo-item", i⟩ s r =
      SyncService.deleteTodoItem B s r i := by
  unfold SyncService.handleSyncEvent
  simp

theorem patchListImpl_found_fst {eid name : String} {r : Remote}
    (h : r.lists.any (fun l => l.id == eid) = true) :
    (Remote.patchListImpl eid name r).1 =
      { r with lists := (r.lists.map
          (fun l => if l.id == eid then { l with name := name } else l)) } := by
  unfold Remote.patchListImpl
  rw [if_pos h]

theorem patchItemImpl_found_fst {leid ieid d : String} {c : Bool} {r : Remote}
    (h : r.lists.any (fun l => l.id == leid &&
        l.items.any (fun it => it.id == some ieid)) = true) :
    (Remote.patchItemImpl leid ieid d c r).1 =
      { r with lists := (r.lists.map (fun l =>
          if l.id == leid then
            { l with items := (l.items.map (fun it =>
                if it.id == some ieid then
                  { it with description := d, completed := c }
                else it)) }
          else l)) } := by
  unfold Remote.patchItemImpl
  rw [if_pos h]

/-- Two local lists synced to the same remote id are the same list. -/
theorem SysInv_ext_unique {s : Store} {r : Remote} (hinv : SysInv s r)
    {l₁ l₂ : TodoList} (h₁ : l₁ ∈ s.lists) (h₂ : l₂ ∈ s.lists)
    {e : String} (he₁ : l₁.external_id = some e) (he₂ : l₂.external_id = some e) :
    l₁ = l₂ := by
  obtain ⟨R₁, hR₁, hid₁, hsrc₁, -, -⟩ := hinv.syncedMatch l₁ h₁ e he₁
  obtain ⟨R₂, hR₂, hid₂, hsrc₂, -, -⟩ := hinv.syncedMatch l₂ h₂ e he₂
  have hRR : R₁ = R₂ :=
    key_eq_of_nodup_gen ExtList.id hinv.remoteListIdsNodup hR₁ hR₂ (hid₁.trans hid₂.symm)
  subst hRR
  have hsrc : some (natToStr l₁.id) = some (natToStr l₂.id) := hsrc₁.symm.trans hsrc₂
  have hids : l₁.id = l₂.id := natToStr_injective (Option.some.inj hsrc)
  exact key_eq_of_nodup_gen TodoList.id hinv.wf.listIdsNodup h₁ h₂ hids

/-- Inserting a fresh unsynced list preserves the reachability invariant. -/
theorem SysInv_saveList_freshUnsynced (s : Store) (r : Remote) (name : String)
    (hinv : SysInv s r) :
    SysInv (s.saveList ⟨s.nextListId, none, name⟩) r := by
  have hfresh : ∀ y ∈ s.lists,
      TodoList.id y ≠ TodoList.id (⟨s.nextListId, none, name⟩ : TodoList) :=
    fun y hy => Nat.ne_of_lt (hinv.wf.listIdsLt y hy)
  have hlists : (s.saveList ⟨s.nextListId, none, name⟩).lists =
      s.lists ++ [⟨s.nextListId, none, name⟩] := upsertBy_fresh _ hfresh
  have hnl : (s.saveList ⟨s.nextListId, none, name⟩).nextListId = s.nextListId + 1 := by
    show max s.nextListId (s.nextListId + 1) = s.nextListId + 1
    omega
  have hLcase : ∀ l' ∈ (s.saveList ⟨s.nextListId, none, name⟩).lists,
      l' ∈ s.lists ∨ l' = ⟨s.nextListId, none, name⟩ := by
    intro l' hl'
    rw [hlists] at hl'
    rcases List.mem_append.mp hl' with h | h
    · exact Or.inl h
    · exact Or.inr (List.mem_singleton.mp h)
  refine ⟨⟨?_, ?_, ?_, ?_, ?_, ?_, ?_⟩, ?_, ?_, ?_, ?_, ?_, ?_, ?_, ?_, ?_⟩
  · rw [hlists, List.map_append, List.map_singleton]
    refine List.nodup_append.mpr ⟨hinv.wf.listIdsNodup, List.nodup_singleton _, ?_⟩
    intro a ha
    simp only [List.mem_singleton]
    intro hax
    obtain ⟨y, hy, hyk⟩ := List.mem_map.mp ha
    subst hax
    exact hfresh y hy hyk
  · exact hinv.wf.todoIdsNodup
  · intro l' hl'
    rw [hnl]
    rcases hLcase l' hl' with h | h
    · have := hinv.wf.listIdsLt l' h
      omega
    · subst h
      show s.nextListId < s.nextListId + 1
      omega
  · exact hinv.wf.todoIdsLt
  · intro t ht
    obtain ⟨l0, hl0, he⟩ := hinv.wf.todoRef t ht
    refine ⟨l0, ?_, he⟩
    rw [hlists]
    exact List.mem_append_left _ hl0
  · intro l' hl'
    rcases hLcase l' hl' with h | h
    · exact hinv.wf.listExtNe l' h
    · subst h
      simp
  · exact hinv.wf.todoExtNe
  · exact hinv.remoteListId
  · exact hinv.remoteItemId
  · exact hinv.remoteListIdsNodup
  · exact hinv.remoteItemIdsNodup
  · intro R hR
    obtain ⟨k, h1, h2, h3⟩ := hinv.remoteSrc R hR
    refine ⟨k, h1, ?_, ?_⟩
    · rw [hnl]
      omega
    · intro l' hl' he
      rcases hLcase l' hl' with h | h
      · exact h3 l' h he
      · subst h
        exfalso
        have hk : s.nextListId = k := he
        omega
  · intro l' hl' hne
    rcases hLcase l' hl' with h | h
    · exact hinv.unsyncedClean l' h hne
    · subst h
      constructor
      · intro R hR hc
        obtain ⟨k, h1, h2, h3⟩ := hinv.remoteSrc R hR
        rw [h1] at hc
        have hk : k = s.nextListId := natToStr_injective (Option.some.inj hc)
        omega
      · intro t htl
        exfalso
        have hm := mem_todosOf.mp htl
        obtain ⟨l0, hl0, he0⟩ := hinv.wf.todoRef t hm.1
        have hlt := hinv.wf.listIdsLt l0 hl0
        rw [he0] at hlt
        have hTL : t.listId = s.nextListId := hm.2
        omega
  · intro l' hl' e he
    rcases hLcase l' hl' with h | h
    · exact hinv.syncedMatch l' h e he
    · subst h
      exact absurd he (by simp)
  · exact hinv.todoExtShape
  · exact hinv.todoExtUnique

/-- Renaming an unsynced list preserves the reachability invariant. -/
theorem SysInv_rename_unsynced (s : Store) (r : Remote) (l : TodoList) (nm : String)
    (hinv : SysInv s r) (hl : l ∈ s.lists) (hln : l.external_id = none) :
    SysInv (s.saveList { l with name := nm }) r := by
  have hkeymem : TodoList.id ({ l with name := nm } : TodoList) ∈
      s.lists.map TodoList.id := by
    show l.id ∈ s.lists.map TodoList.id
    exact List.mem_map_of_mem TodoList.id hl
  have hids : ((s.saveList { l with name := nm }).lists).map TodoList.id =
      s.lists.map TodoList.id := by
    show (upsertBy TodoList.id s.lists { l with name := nm }).map TodoList.id =
      s.lists.map TodoList.id
    exact upsert_map_key_of_mem { l with name := nm } hkeymem
  have hnl : (s.saveList { l with name := nm }).nextListId = s.nextListId := by
    show max s.nextListId (l.id + 1) = s.nextListId
    have := hinv.wf.listIdsLt l hl
    omega
  have hLcase : ∀ l' ∈ (s.saveList { l with name := nm }).lists,
      l' = { l with name := nm } ∨ (l' ∈ s.lists ∧ l'.id ≠ l.id) := by
    intro l' hl'
    rcases mem_upsertBy hl' with h | ⟨h1, h2⟩
    · exact Or.inl h
    · exact Or.inr ⟨h1, h2⟩
  have hULmem : ({ l with name := nm } : TodoList) ∈
      (s.saveList { l with name := nm }).lists := self_mem_upsertBy _ _
  have hOL : ∀ l' ∈ s.lists, l'.id ≠ l.id →
      l' ∈ (s.saveList { l with name := nm }).lists :=
    fun l' h1 h2 => mem_upsertBy_of_mem h1 h2
  refine ⟨⟨?_, ?_, ?_, ?_, ?_, ?_, ?_⟩, ?_, ?_, ?_, ?_, ?_, ?_, ?_, ?_, ?_⟩
  · rw [hids]
    exact hinv.wf.listIdsNodup
  · exact hinv.wf.todoIdsNodup
  · intro l' hl'
    rw [hnl]
    rcases hLcase l' hl' with h | ⟨h1, _⟩
    · subst h
      show l.id < s.nextListId
      exact hinv.wf.listIdsLt l hl
    · exact hinv.wf.listIdsLt l' h1
  · exact hinv.wf.todoIdsLt
  · intro t ht
    obtain ⟨l0, hl0, he⟩ := hinv.wf.todoRef t ht
    by_cases hc : l0.id = l.id
    · refine ⟨{ l with name := nm }, hULmem, ?_⟩
      show l.id = t.listId
      rw [← hc]
      exact he
    · exact ⟨l0, hOL l0 hl0 hc, he⟩
  · intro l' hl'
    rcases hLcase l' hl' with h | ⟨h1, _⟩
    · subst h
      show l.external_id ≠ some ""
      exact hinv.wf.listExtNe l hl
    · exact hinv.wf.listExtNe l' h1
  · exact hinv.wf.todoExtNe
  · exact hinv.remoteListId
  · exact hinv.remoteItemId
  · exact hinv.remoteListIdsNodup
  · exact hinv.remoteItemIdsNodup
  · intro R hR
    obtain ⟨k, h1, h2, h3⟩ := hinv.remoteSrc R hR
    refine ⟨k, h1, by rw [hnl]; exact h2, ?_⟩
    intro l' hl' he
    rcases hLcase l' hl' with h | ⟨ha, _⟩
    · subst h
      have hlk : l.id = k := he
      have hcon := h3 l hl hlk
      rw [hln] at hcon
      exact absurd hcon (by simp)
    · exact h3 l' ha he
  · intro l' hl' hne
    rcases hLcase l' hl' with h | ⟨ha, _⟩
    · subst h
      exact hinv.unsyncedClean l hl hln
    · exact hinv.unsyncedClean l' ha hne
  · intro l' hl' e he
    rcases hLcase l' hl' with h | ⟨ha, _⟩
    · subst h
      have hcon : l.external_id = some e := he
      rw [hln] at hcon
      exact absurd hcon (by simp)
    · exact hinv.syncedMatch l' ha e he
  · exact hinv.todoExtShape
  · exact hinv.todoExtUnique

/-- Deleting a list aggregate (the row and its item rows) preserves the
reachability invariant. -/
theorem SysInv_removeList (s : Store) (r : Remote) (i : Nat) (hinv : SysInv s r) :
    SysInv ({ s with lists := (s.lists.filter (fun l => !(l.id == i))), todos := (s.todos.filter (fun t => !(t.listId == i))) }) r := by
  have hLsub : ∀ l' ∈ (s.lists.filter (fun l => !(l.id == i))), l' ∈ s.lists := by
    intro l' h
    exact (List.mem_filter.mp h).1
  have hTsub : ∀ t ∈ (s.todos.filter (fun t => !(t.listId == i))), t ∈ s.todos := by
    intro t h
    exact (List.mem_filter.mp h).1
  have hTodosOf : ∀ (j : Nat) (t : Todo),
      t ∈ todosOf ({ s with lists := (s.lists.filter (fun l => !(l.id == i))), todos := (s.todos.filter (fun t => !(t.listId == i))) }) j → t ∈ todosOf s j := by
    intro j t h
    have hm := mem_todosOf.mp h
    exact mem_todosOf.mpr ⟨hTsub t hm.1, hm.2⟩
  refine ⟨⟨?_, ?_, ?_, ?_, ?_, ?_, ?_⟩, ?_, ?_, ?_, ?_, ?_, ?_, ?_, ?_, ?_⟩
  · exact hinv.wf.listIdsNodup.sublist ((List.filter_sublist _).map _)
  · exact hinv.wf.todoIdsNodup.sublist ((List.filter_sublist _).map _)
  · intro l' hl'
    exact hinv.wf.listIdsLt l' (hLsub l' hl')
  · intro t ht
    exact hinv.wf.todoIdsLt t (hTsub t ht)
  · intro t ht
    have htf := List.mem_filter.mp ht
    have htne : t.listId ≠ i := by simpa using htf.2
    obtain ⟨l0, hl0, he⟩ := hinv.wf.todoRef t htf.1
    refine ⟨l0, ?_, he⟩
    apply List.mem_filter.mpr
    refine ⟨hl0, ?_⟩
    have hne0 : l0.id ≠ i := by
      rw [he]
      exact htne
    simpa using hne0
  · intro l' hl'
    exact hinv.wf.listExtNe l' (hLsub l' hl')
  · intro t ht
    exact hinv.wf.todoExtNe t (hTsub t ht)
  · exact hinv.remoteListId
  · exact hinv.remoteItemId
  · exact hinv.remoteListIdsNodup
  · exact hinv.remoteItemIdsNodup
  · intro R hR
    obtain ⟨k, h1, h2, h3⟩ := hinv.remoteSrc R hR
    exact ⟨k, h1, h2, fun l' hl' he => h3 l' (hLsub l' hl') he⟩
  · intro l' hl' hne
    obtain ⟨ha, hb⟩ := hinv.unsyncedClean l' (hLsub l' hl') hne
    exact ⟨ha, fun t htl => hb t (hTodosOf _ t htl)⟩
  · intro l' hl' e he
    obtain ⟨R, hR, h1, h2, h3, h4⟩ := hinv.syncedMatch l' (hLsub l' hl') e he
    exact ⟨R, hR, h1, h2, h3, fun t htl => h4 t (hTodosOf _ t htl)⟩
  · intro t ht d hd
    exact hinv.todoExtShape t (hTsub t ht) d hd
  · intro t1 h1 t2 h2 d hd1 hd2
    exact hinv.todoExtUnique t1 (hTsub t1 h1) t2 (hTsub t2 h2) d hd1 hd2

/-- Deleting a single item row preserves the reachability invariant. -/
theorem SysInv_deleteTodoRow (s : Store) (r : Remote) (i : Nat) (hinv : SysInv s r) :
    SysInv (s.deleteTodoRow i) r := by
  have hTsub : ∀ t ∈ (s.deleteTodoRow i).todos, t ∈ s.todos := by
    intro t h
    exact (List.mem_filter.mp h).1
  have hTodosOf : ∀ (j : Nat) (t : Todo),
      t ∈ todosOf (s.deleteTodoRow i) j → t ∈ todosOf s j := by
    intro j t h
    have hm := mem_todosOf.mp h
    exact mem_todosOf.mpr ⟨hTsub t hm.1, hm.2⟩
  refine ⟨⟨?_, ?_, ?_, ?_, ?_, ?_, ?_⟩, ?_, ?_, ?_, ?_, ?_, ?_, ?_, ?_, ?_⟩
  · exact hinv.wf.listIdsNodup
  · exact hinv.wf.todoIdsNodup.sublist ((List.filter_sublist _).map _)
  · exact hinv.wf.listIdsLt
  · intro t ht
    exact hinv.wf.todoIdsLt t (hTsub t ht)
  · intro t ht
    exact hinv.wf.todoRef t (hTsub t ht)
  · exact hinv.wf.listExtNe
  · intro t ht
    exact hinv.wf.todoExtNe t (hTsub t ht)
  · exact hinv.remoteListId
  · exact hinv.remoteItemId
  · exact hinv.remoteListIdsNodup
  · exact hinv.remoteItemIdsNodup
  · exact hinv.remoteSrc
  · intro l' hl' hne
    obtain ⟨ha, hb⟩ := hinv.unsyncedClean l' hl' hne
    exact ⟨ha, fun t htl => hb t (hTodosOf _ t htl)⟩
  · intro l' hl' e he
    obtain ⟨R, hR, h1, h2, h3, h4⟩ := hinv.syncedMatch l' hl' e he
    exact ⟨R, hR, h1, h2, h3, fun t htl => h4 t (hTodosOf _ t htl)⟩
  · intro t ht d hd
    exact hinv.todoExtShape t (hTsub t ht) d hd
  · intro t1 h1 t2 h2 d hd1 hd2
    exact hinv.todoExtUnique t1 (hTsub t1 h1) t2 (hTsub t2 h2) d hd1 hd2

/-- Inserting a fresh unsynced item into an unsynced list preserves the
reachability invariant. -/
theorem SysInv_saveTodo_freshUnsynced (s : Store) (r : Remote) (l : TodoList)
    (title : String) (hinv : SysInv s r) (hl : l ∈ s.lists)
    (hln : l.external_id = none) :
    SysInv (s.saveTodo ⟨s.nextTodoId, none, title, false, l.id⟩) r := by
  have hfresh : ∀ y ∈ s.todos,
      Todo.id y ≠ Todo.id (⟨s.nextTodoId, none, title, false, l.id⟩ : Todo) :=
    fun y hy => Nat.ne_of_lt (hinv.wf.todoIdsLt y hy)
  have htodos : (s.saveTodo ⟨s.nextTodoId, none, title, false, l.id⟩).todos =
      s.todos ++ [⟨s.nextTodoId, none, title, false, l.id⟩] := upsertBy_fresh _ hfresh
  have hnt : (s.saveTodo ⟨s.nextTodoId, none, title, false, l.id⟩).nextTodoId =
      s.nextTodoId + 1 := by
    show max s.nextTodoId (s.nextTodoId + 1) = s.nextTodoId + 1
    omega
  have hTcase : ∀ t ∈ (s.saveTodo ⟨s.nextTodoId, none, title, false, l.id⟩).todos,
      t ∈ s.todos ∨ t = ⟨s.nextTodoId, none, title, false, l.id⟩ := by
    intro t ht
    rw [htodos] at ht
    rcases List.mem_append.mp ht with h | h
    · exact Or.inl h
    · exact Or.inr (List.mem_singleton.mp h)
  refine ⟨⟨?_, ?_, ?_, ?_, ?_, ?_, ?_⟩, ?_, ?_, ?_, ?_, ?_, ?_, ?_, ?_, ?_⟩
  · exact hinv.wf.listIdsNodup
  · rw [htodos, List.map_append, List.map_singleton]
    refine List.nodup_append.mpr ⟨hinv.wf.todoIdsNodup, List.nodup_singleton _, ?_⟩
    intro a ha
    simp only [List.mem_singleton]
    intro hax
    obtain ⟨y, hy, hyk⟩ := List.mem_map.mp ha
    subst hax
    exact hfresh y hy hyk
  · exact hinv.wf.listIdsLt
  · intro t ht
    rw [hnt]
    rcases hTcase t ht with h | h
    · have := hinv.wf.todoIdsLt t h
      omega
    · subst h
      show s.nextTodoId < s.nextTodoId + 1
      omega
  · intro t ht
    rcases hTcase t ht with h | h
    · exact hinv.wf.todoRef t h
    · subst h
      exact ⟨l, hl, rfl⟩
  · exact hinv.wf.listExtNe
  · intro t ht
    rcases hTcase t ht with h | h
    · exact hinv.wf.todoExtNe t h
    · subst h
      simp
  · exact hinv.remoteListId
  · exact hinv.remoteItemId
  · exact hinv.remoteListIdsNodup
  · exact hinv.remoteItemIdsNodup
  · exact hinv.remoteSrc
  · intro l' hl' hne
    obtain ⟨ha, hb⟩ := hinv.unsyncedClean l' hl' hne
    refine ⟨ha, ?_⟩
    intro t htl
    have hm := mem_todosOf.mp htl
    rcases hTcase t hm.1 with h | h
    · exact hb t (mem_todosOf.mpr ⟨h, hm.2⟩)
    · subst h
      rfl
  · intro l' hl' e he
    obtain ⟨R, hR, h1, h2, h3, h4⟩ := hinv.syncedMatch l' hl' e he
    refine ⟨R, hR, h1, h2, h3, ?_⟩
    intro t htl
    have hm := mem_todosOf.mp htl
    rcases hTcase t hm.1 with h | h
    · exact h4 t (mem_todosOf.mpr ⟨h, hm.2⟩)
    · exfalso
      subst h
      have hll : l.id = l'.id := hm.2
      have hone : l = l' :=
        key_eq_of_nodup_gen TodoList.id hinv.wf.listIdsNodup hl hl' hll
      rw [hone, he] at hln
      exact absurd hln (by simp)
  · intro t ht d hd
    rcases hTcase t ht with h | h
    · exact hinv.todoExtShape t h d hd
    · subst h
      exact absurd hd (by simp)
  · intro t1 h1 t2 h2 d hd1 hd2
    rcases hTcase t1 h1 with ha | ha
    · rcases hTcase t2 h2 with hb | hb
      · exact hinv.todoExtUnique t1 ha t2 hb d hd1 hd2
      · subst hb
        exact absurd hd2 (by simp)
    · subst ha
      exact absurd hd1 (by simp)

/-- Updating the mutable fields of an unsynced item preserves the
reachability invariant. -/
theorem SysInv_saveTodo_updUnsynced (s : Store) (r : Remote) (t0 : Todo)
    (title' : String) (completed' : Bool) (hinv : SysInv s r) (ht0 : t0 ∈ s.todos)
    (htn : t0.external_id = none) :
    SysInv (s.saveTodo { t0 with title := title', completed := completed' }) r := by
  have hkeymem : Todo.id ({ t0 with title := title', completed := completed' } : Todo) ∈
      s.todos.map Todo.id := by
    show t0.id ∈ s.todos.map Todo.id
    exact List.mem_map_of_mem Todo.id ht0
  have hids : ((s.saveTodo { t0 with title := title', completed := completed' }).todos).map Todo.id = s.todos.map Todo.id := by
    show (upsertBy Todo.id s.todos
        { t0 with title := title', completed := completed' }).map Todo.id =
      s.todos.map Todo.id
    exact upsert_map_key_of_mem { t0 with title := title', completed := completed' } hkeymem
  have hnt : (s.saveTodo { t0 with title := title', completed := completed' }).nextTodoId = s.nextTodoId := by
    show max s.nextTodoId (t0.id + 1) = s.nextTodoId
    have := hinv.wf.todoIdsLt t0 ht0
    omega
  have hTcase : ∀ t ∈ (s.saveTodo { t0 with title := title', completed := completed' }).todos,
      t = { t0 with title := title', completed := completed' } ∨
      (t ∈ s.todos ∧ t.id ≠ t0.id) := by
    intro t ht
    rcases mem_upsertBy ht with h | ⟨h1, h2⟩
    · exact Or.inl h
    · exact Or.inr ⟨h1, h2⟩
  refine ⟨⟨?_, ?_, ?_, ?_, ?_, ?_, ?_⟩, ?_, ?_, ?_, ?_, ?_, ?_, ?_, ?_, ?_⟩
  · exact hinv.wf.listIdsNodup
  · rw [hids]
    exact hinv.wf.todoIdsNodup
  · exact hinv.wf.listIdsLt
  · intro t ht
    rw [hnt]
    rcases hTcase t ht with h | ⟨h1, _⟩
    · subst h
      show t0.id < s.nextTodoId
      exact hinv.wf.todoIdsLt t0 ht0
    · exact hinv.wf.todoIdsLt t h1
  · intro t ht
    rcases hTcase t ht with h | ⟨h1, _⟩
    · subst h
      show ∃ l0 ∈ s.lists, l0.id = t0.listId
      exact hinv.wf.todoRef t0 ht0
    · exact hinv.wf.todoRef t h1
  · exact hinv.wf.listExtNe
  · intro t ht
    rcases hTcase t ht with h | ⟨h1, _⟩
    · subst h
      show t0.external_id ≠ some ""
      exact hinv.wf.todoExtNe t0 ht0
    · exact hinv.wf.todoExtNe t h1
  · exact hinv.remoteListId
  · exact hinv.remoteItemId
  · exact hinv.remoteListIdsNodup
  · exact hinv.remoteItemIdsNodup
  · exact hinv.remoteSrc
  · intro l' hl' hne
    obtain ⟨ha, hb⟩ := hinv.unsyncedClean l' hl' hne
    refine ⟨ha, ?_⟩
    intro t htl
    have hm := mem_todosOf.mp htl
    rcases hTcase t hm.1 with h | ⟨h1, _⟩
    · subst h
      exact htn
    · exact hb t (mem_todosOf.mpr ⟨h1, hm.2⟩)
  · intro l' hl' e he
    obtain ⟨R, hR, h1, h2, h3, h4⟩ := hinv.syncedMatch l' hl' e he
    refine ⟨R, hR, h1, h2, h3, ?_⟩
    intro t htl
    have hm := mem_todosOf.mp htl
    rcases hTcase t hm.1 with h | ⟨ha, _⟩
    · exfalso
      subst h
      have hmem0 : t0 ∈ todosOf s l'.id := mem_todosOf.mpr ⟨ht0, hm.2⟩
      obtain ⟨d, hd, -⟩ := h4 t0 hmem0
      rw [htn] at hd
      exact absurd hd (by simp)
    · exact h4 t (mem_todosOf.mpr ⟨ha, hm.2⟩)
  · intro t ht d hd
    rcases hTcase t ht with h | ⟨h1, _⟩
    · exfalso
      subst h
      have hd' : t0.external_id = some d := hd
      rw [htn] at hd'
      exact absurd hd' (by simp)
    · exact hinv.todoExtShape t h1 d hd
  · intro t1 h1 t2 h2 d hd1 hd2
    rcases hTcase t1 h1 with ha | ⟨ha, _⟩
    · exfalso
      subst ha
      have hd' : t0.external_id = some d := hd1
      rw [htn] at hd'
      exact absurd hd' (by simp)
    · rcases hTcase t2 h2 with hb | ⟨hb, _⟩
      · exfalso
        subst hb
        have hd' : t0.external_id = some d := hd2
        rw [htn] at hd'
        exact absurd hd' (by simp)
      · exact hinv.todoExtUnique t1 ha t2 hb d hd1 hd2

/-- Renaming a synced list together with the handler's remote PATCH preserves
the reachability invariant. -/
theorem SysInv_rename_synced (s : Store) (r : Remote) (l : TodoList) (e nm : String)
    (hinv : SysInv s r) (hl : l ∈ s.lists) (he : l.external_id = some e) :
    SysInv (s.saveList { l with name := nm }) (Remote.patchListImpl e nm r).1 := by
  obtain ⟨R, hR, hRid, hRsrc, hRname, hRtodos⟩ := hinv.syncedMatch l hl e he
  have hany : r.lists.any (fun L => L.id == e) = true :=
    List.any_eq_true.mpr ⟨R, hR, by simp [hRid]⟩
  have hfst := @patchListImpl_found_fst e nm r hany
  have hRnext : (Remote.patchListImpl e nm r).1.nextId = r.nextId := by
    rw [hfst]
  have hRchar : ∀ R' ∈ (Remote.patchListImpl e nm r).1.lists,
      ∃ R₀ ∈ r.lists, R'.id = R₀.id ∧ R'.source_id = R₀.source_id ∧
        R'.items = R₀.items := by
    intro R' hR'
    rw [hfst] at hR'
    obtain ⟨R₀, hR₀, hfR⟩ := List.mem_map.mp hR'
    by_cases hc : (R₀.id == e) = true
    · rw [if_pos hc] at hfR
      subst hfR
      exact ⟨R₀, hR₀, rfl, rfl, rfl⟩
    · rw [if_neg hc] at hfR
      subst hfR
      exact ⟨R₀, hR₀, rfl, rfl, rfl⟩
  have hRfwd : ∀ R₀ ∈ r.lists, R₀.id ≠ e →
      R₀ ∈ (Remote.patchListImpl e nm r).1.lists := by
    intro R₀ h hne
    rw [hfst]
    have hfix : (fun L => if L.id == e then { L with name := nm } else L) R₀ = R₀ := by
      show (if R₀.id == e then { R₀ with name := nm } else R₀) = R₀
      rw [if_neg (fun hc => hne (eq_of_beq hc))]
    exact hfix ▸ List.mem_map_of_mem _ h
  have hRfwdE : ({ R with name := nm } : ExtList) ∈
      (Remote.patchListImpl e nm r).1.lists := by
    rw [hfst]
    have hfix : (fun L => if L.id == e then { L with name := nm } else L) R =
        { R with name := nm } := by
      show (if R.id == e then { R with name := nm } else R) = { R with name := nm }
      rw [if_pos (by simp [hRid])]
    exact hfix ▸ List.mem_map_of_mem _ hR
  have hRids : (Remote.patchListImpl e nm r).1.lists.map ExtList.id =
      r.lists.map ExtList.id := by
    rw [hfst]
    show (r.lists.map _).map ExtList.id = r.lists.map ExtList.id
    rw [List.map_map]
    apply List.map_congr_left
    intro L _
    by_cases hc : (L.id == e) = true
    · simp [Function.comp, hc]
    · simp [Function.comp, hc]
  have hkeymem : TodoList.id ({ l with name := nm } : TodoList) ∈
      s.lists.map TodoList.id := by
    show l.id ∈ s.lists.map TodoList.id
    exact List.mem_map_of_mem TodoList.id hl
  have hids : ((s.saveList { l with name := nm }).lists).map TodoList.id =
      s.lists.map TodoList.id := by
    show (upsertBy TodoList.id s.lists { l with name := nm }).map TodoList.id =
      s.lists.map TodoList.id
    exact upsert_map_key_of_mem { l with name := nm } hkeymem
  have hnl : (s.saveList { l with name := nm }).nextListId = s.nextListId := by
    show max s.nextListId (l.id + 1) = s.nextListId
    have := hinv.wf.listIdsLt l hl
    omega
  have hLcase : ∀ l' ∈ (s.saveList { l with name := nm }).lists,
      l' = { l with name := nm } ∨ (l' ∈ s.lists ∧ l'.id ≠ l.id) := by
    intro l' hl'
    rcases mem_upsertBy hl' with h | ⟨h1, h2⟩
    · exact Or.inl h
    · exact Or.inr ⟨h1, h2⟩
  have hULmem : ({ l with name := nm } : TodoList) ∈
      (s.saveList { l with name := nm }).lists := self_mem_upsertBy _ _
  have hOL : ∀ l' ∈ s.lists, l'.id ≠ l.id →
      l' ∈ (s.saveList { l with name := nm }).lists :=
    fun l' h1 h2 => mem_upsertBy_of_mem h1 h2
  refine ⟨⟨?_, ?_, ?_, ?_, ?_, ?_, ?_⟩, ?_, ?_, ?_, ?_, ?_, ?_, ?_, ?_, ?_⟩
  · rw [hids]
    exact hinv.wf.listIdsNodup
  · exact hinv.wf.todoIdsNodup
  · intro l' hl'
    rw [hnl]
    rcases hLcase l' hl' with h | ⟨h1, _⟩
    · subst h
      show l.id < s.nextListId
      exact hinv.wf.listIdsLt l hl
    · exact hinv.wf.listIdsLt l' h1
  · exact hinv.wf.todoIdsLt
  · intro t ht
    obtain ⟨l0, hl0, heq⟩ := hinv.wf.todoRef t ht
    by_cases hc : l0.id = l.id
    · refine ⟨{ l with name := nm }, hULmem, ?_⟩
      show l.id = t.listId
      rw [← hc]
      exact heq
    · exact ⟨l0, hOL l0 hl0 hc, heq⟩
  · intro l' hl'
    rcases hLcase l' hl' with h | ⟨h1, _⟩
    · subst h
      show l.external_id ≠ some ""
      exact hinv.wf.listExtNe l hl
    · exact hinv.wf.listExtNe l' h1
  · exact hinv.wf.todoExtNe
  · intro R' hR'
    obtain ⟨R₀, hR₀, hid, hsrc, hitems⟩ := hRchar R' hR'
    obtain ⟨m, hm, hmid⟩ := hinv.remoteListId R₀ hR₀
    refine ⟨m, ?_, by rw [hid]; exact hmid⟩
    rw [hRnext]
    exact hm
  · intro R' hR' it hit
    obtain ⟨R₀, hR₀, hid, hsrc, hitems⟩ := hRchar R' hR'
    rw [hitems] at hit
    obtain ⟨m, hm, hmid⟩ := hinv.remoteItemId R₀ hR₀ it hit
    refine ⟨m, ?_, hmid⟩
    rw [hRnext]
    exact hm
  · rw [hRids]
    exact hinv.remoteListIdsNodup
  · intro R' hR'
    obtain ⟨R₀, hR₀, hid, hsrc, hitems⟩ := hRchar R' hR'
    rw [hitems]
    exact hinv.remoteItemIdsNodup R₀ hR₀
  · intro R' hR'
    obtain ⟨R₀, hR₀, hid, hsrc, hitems⟩ := hRchar R' hR'
    obtain ⟨k, h1, h2, h3⟩ := hinv.remoteSrc R₀ hR₀
    refine ⟨k, by rw [hsrc]; exact h1, by rw [hnl]; exact h2, ?_⟩
    intro l' hl' hlk
    rcases hLcase l' hl' with h | ⟨ha, _⟩
    · subst h
      have hlk' : l.id = k := hlk
      have hcon := h3 l hl hlk'
      show l.external_id = some R'.id
      rw [hid]
      exact hcon
    · rw [hid]
      exact h3 l' ha hlk
  · intro l' hl' hne
    rcases hLcase l' hl' with h | ⟨ha, _⟩
    · subst h
      have hcon : l.external_id = none := hne
      rw [he] at hcon
      exact absurd hcon (by simp)
    · obtain ⟨hA, hB⟩ := hinv.unsyncedClean l' ha hne
      refine ⟨?_, hB⟩
      intro R' hR'
      obtain ⟨R₀, hR₀, hid, hsrc, hitems⟩ := hRchar R' hR'
      rw [hsrc]
      exact hA R₀ hR₀
  · intro l' hl' e' he'
    rcases hLcase l' hl' with h | ⟨ha, hne⟩
    · subst h
      have he'' : l.external_id = some e' := he'
      have hee : e' = e := by
        rw [he] at he''
        exact (Option.some.inj he'').symm
      subst hee
      refine ⟨{ R with name := nm }, hRfwdE, ?_, ?_, rfl, ?_⟩
      · show R.id = e'
        exact hRid
      · show R.source_id = some (natToStr l.id)
        exact hRsrc
      · intro t htl
        exact hRtodos t htl
    · by_cases hee : e' = e
      · exfalso
        subst hee
        have : l' = l := SysInv_ext_unique hinv ha hl he' he
        rw [this] at hne
        exact hne rfl
      · obtain ⟨R₀, hR₀, h1, h2, h3, h4⟩ := hinv.syncedMatch l' ha e' he'
        refine ⟨R₀, hRfwd R₀ hR₀ ?_, h1, h2, h3, h4⟩
        rw [h1]
        exact hee
  · intro t ht d hd
    obtain ⟨m, hm, hmd⟩ := hinv.todoExtShape t ht d hd
    refine ⟨m, ?_, hmd⟩
    rw [hRnext]
    exact hm
  · exact hinv.todoExtUnique

/-- Updating a synced item's mutable fields together with the handler's
remote item PATCH preserves the reachability invariant. -/
theorem SysInv_updateItem_synced (s : Store) (r : Remote) (t0 : Todo) (l : TodoList)
    (e d title' : String) (completed' : Bool)
    (hinv : SysInv s r) (ht0 : t0 ∈ s.todos) (hl : l ∈ s.lists)
    (hlid : l.id = t0.listId) (hd0 : t0.external_id = some d)
    (he : l.external_id = some e) :
    SysInv (s.saveTodo { t0 with title := title', completed := completed' })
      (Remote.patchItemImpl e d title' completed' r).1 := by
  obtain ⟨R, hR, hRid, hRsrc, hRname, hRtodos⟩ := hinv.syncedMatch l hl e he
  have ht0of : t0 ∈ todosOf s l.id := mem_todosOf.mpr ⟨ht0, hlid.symm⟩
  obtain ⟨d0, hdd, it, hit, hitid, hitdesc, hitcomp⟩ := hRtodos t0 ht0of
  have hd0d : d0 = d := by
    rw [hd0] at hdd
    exact (Option.some.inj hdd).symm
  rw [hd0d] at hdd hitid
  have hany : r.lists.any (fun L => L.id == e &&
      L.items.any (fun it => it.id == some d)) = true := by
    apply List.any_eq_true.mpr
    refine ⟨R, hR, ?_⟩
    show (R.id == e && R.items.any (fun it => it.id == some d)) = true
    rw [Bool.and_eq_true]
    exact ⟨by simp [hRid], List.any_eq_true.mpr ⟨it, hit, by simp [hitid]⟩⟩
  have hfst := @patchItemImpl_found_fst e d title' completed' r hany
  have hRnext : (Remote.patchItemImpl e d title' completed' r).1.nextId = r.nextId := by
    rw [hfst]
  have hIids : ∀ (items : List ExtItem),
      (items.map (fun it => if it.id == some d then
        { it with description := title', completed := completed' } else it)).map
          ExtItem.id = items.map ExtItem.id := by
    intro items
    rw [List.map_map]
    apply List.map_congr_left
    intro itx _
    by_cases hc : (itx.id == some d) = true
    · simp [Function.comp, hc]
    · simp [Function.comp, hc]
  have hRchar : ∀ R' ∈ (Remote.patchItemImpl e d title' completed' r).1.lists,
      ∃ R₀ ∈ r.lists, R'.id = R₀.id ∧ R'.source_id = R₀.source_id ∧
        R'.name = R₀.name ∧
        (R'.items = R₀.items ∨ R'.items = R₀.items.map (fun it =>
          if it.id == some d then
            { it with description := title', completed := completed' } else it)) := by
    intro R' hR'
    rw [hfst] at hR'
    obtain ⟨R₀, hR₀, hfR⟩ := List.mem_map.mp hR'
    by_cases hc : (R₀.id == e) = true
    · rw [if_pos hc] at hfR
      subst hfR
      exact ⟨R₀, hR₀, rfl, rfl, rfl, Or.inr rfl⟩
    · rw [if_neg hc] at hfR
      subst hfR
      exact ⟨R₀, hR₀, rfl, rfl, rfl, Or.inl rfl⟩
  have hRids : (Remote.patchItemImpl e d title' completed' r).1.lists.map ExtList.id =
      r.lists.map ExtList.id := by
    rw [hfst]
    show (r.lists.map _).map ExtList.id = r.lists.map ExtList.id
    rw [List.map_map]
    apply List.map_congr_left
    intro L _
    by_cases hc : (L.id == e) = true
    · simp [Function.comp, hc]
    · simp [Function.comp, hc]
  have hkeymem : Todo.id ({ t0 with title := title', completed := completed' } : Todo) ∈
      s.todos.map Todo.id := by
    show t0.id ∈ s.todos.map Todo.id
    exact List.mem_map_of_mem Todo.id ht0
  have hids : ((s.saveTodo { t0 with title := title', completed := completed' }).todos).map Todo.id = s.todos.map Todo.id := by
    show (upsertBy Todo.id s.todos
        { t0 with title := title', completed := completed' }).map Todo.id =
      s.todos.map Todo.id
    exact upsert_map_key_of_mem { t0 with title := title', completed := completed' } hkeymem
  have hnt : (s.saveTodo { t0 with title := title', completed := completed' }).nextTodoId = s.nextTodoId := by
    show max s.nextTodoId (t0.id + 1) = s.nextTodoId
    have := hinv.wf.todoIdsLt t0 ht0
    omega
  have hTcase : ∀ t ∈ (s.saveTodo { t0 with title := title', completed := completed' }).todos,
      t = { t0 with title := title', completed := completed' } ∨
      (t ∈ s.todos ∧ t.id ≠ t0.id) := by
    intro t ht
    rcases mem_upsertBy ht with h | ⟨h1, h2⟩
    · exact Or.inl h
    · exact Or.inr ⟨h1, h2⟩
  refine ⟨⟨?_, ?_, ?_, ?_, ?_, ?_, ?_⟩, ?_, ?_, ?_, ?_, ?_, ?_, ?_, ?_, ?_⟩
  · exact hinv.wf.listIdsNodup
  · rw [hids]
    exact hinv.wf.todoIdsNodup
  · exact hinv.wf.listIdsLt
  · intro t ht
    rw [hnt]
    rcases hTcase t ht with h | ⟨h1, _⟩
    · subst h
      show t0.id < s.nextTodoId
      exact hinv.wf.todoIdsLt t0 ht0
    · exact hinv.wf.todoIdsLt t h1
  · intro t ht
    rcases hTcase t ht with h | ⟨h1, _⟩
    · subst h
      show ∃ l0 ∈ s.lists, l0.id = t0.listId
      exact hinv.wf.todoRef t0 ht0
    · exact hinv.wf.todoRef t h1
  · exact hinv.wf.listExtNe
  · intro t ht
    rcases hTcase t ht with h | ⟨h1, _⟩
    · subst h
      show t0.external_id ≠ some ""
      exact hinv.wf.todoExtNe t0 ht0
    · exact hinv.wf.todoExtNe t h1
  · intro R' hR'
    obtain ⟨R₀, hR₀, hid, hsrc, hname, hitems⟩ := hRchar R' hR'
    obtain ⟨m, hm, hmid⟩ := hinv.remoteListId R₀ hR₀
    refine ⟨m, by rw [hRnext]; exact hm, by rw [hid]; exact hmid⟩
  · intro R' hR' it' hit'
    obtain ⟨R₀, hR₀, hid, hsrc, hname, hitems⟩ := hRchar R' hR'
    rcases hitems with hsame | hmap
    · rw [hsame] at hit'
      obtain ⟨m, hm, hmid⟩ := hinv.remoteItemId R₀ hR₀ it' hit'
      exact ⟨m, by rw [hRnext]; exact hm, hmid⟩
    · rw [hmap] at hit'
      obtain ⟨it₀, hit₀, hfit⟩ := List.mem_map.mp hit'
      obtain ⟨m, hm, hmid⟩ := hinv.remoteItemId R₀ hR₀ it₀ hit₀
      refine ⟨m, by rw [hRnext]; exact hm, ?_⟩
      by_cases hc : (it₀.id == some d) = true
      · rw [if_pos hc] at hfit
        subst hfit
        exact hmid
      · rw [if_neg hc] at hfit
        subst hfit
        exact hmid
  · rw [hRids]
    exact hinv.remoteListIdsNodup
  · intro R' hR'
    obtain ⟨R₀, hR₀, hid, hsrc, hname, hitems⟩ := hRchar R' hR'
    rcases hitems with hsame | hmap
    · rw [hsame]
      exact hinv.remoteItemIdsNodup R₀ hR₀
    · rw [hmap, hIids R₀.items]
      exact hinv.remoteItemIdsNodup R₀ hR₀
  · intro R' hR'
    obtain ⟨R₀, hR₀, hid, hsrc, hname, hitems⟩ := hRchar R' hR'
    obtain ⟨k, h1, h2, h3⟩ := hinv.remoteSrc R₀ hR₀
    refine ⟨k, by rw [hsrc]; exact h1, h2, ?_⟩
    intro l' hl' hlk
    rw [hid]
    exact h3 l' hl' hlk
  · intro l' hl' hne
    obtain ⟨hA, hB⟩ := hinv.unsyncedClean l' hl' hne
    constructor
    · intro R' hR'
      obtain ⟨R₀, hR₀, hid, hsrc, hname, hitems⟩ := hRchar R' hR'
      rw [hsrc]
      exact hA R₀ hR₀
    · intro t htl
      have hm := mem_todosOf.mp htl
      rcases hTcase t hm.1 with h | ⟨ha, _⟩
      · exfalso
        subst h
        have hll : t0.listId = l'.id := hm.2
        have hle : l.id = l'.id := by
          rw [hlid]
          exact hll
        have hLL : l = l' := key_eq_of_nodup_gen TodoList.id hinv.wf.listIdsNodup hl hl' hle
        rw [← hLL, he] at hne
        exact absurd hne (by simp)
      · exact hB t (mem_todosOf.mpr ⟨ha, hm.2⟩)
  · intro l'' hl'' e'' he''
    by_cases hee : e'' = e
    · subst hee
      have hLL : l'' = l := SysInv_ext_unique hinv hl'' hl he'' he
      subst hLL
      refine ⟨{ R with items := (R.items.map (fun itx => if itx.id == some d then
          { itx with description := title', completed := completed' } else itx)) }, ?_, ?_, ?_, ?_, ?_⟩
      · rw [hfst]
        refine List.mem_map.mpr ⟨R, hR, ?_⟩
        show (if R.id == e'' then { R with items := (R.items.map (fun itx =>
            if itx.id == some d then
              { itx with description := title', completed := completed' } else itx)) }
          else R) = _
        rw [if_pos (by simp [hRid])]
      · show R.id = e''
        exact hRid
      · show R.source_id = some (natToStr l''.id)
        exact hRsrc
      · show R.name = l''.name
        exact hRname
      · intro t htl
        have hm := mem_todosOf.mp htl
        rcases hTcase t hm.1 with h | ⟨ha, hane⟩
        · subst h
          refine ⟨d, hd0, ?_⟩
          refine ⟨{ it with description := title', completed := completed' }, ?_, ?_, rfl, rfl⟩
          · refine List.mem_map.mpr ⟨it, hit, ?_⟩
            show (if it.id == some d then
                { it with description := title', completed := completed' } else it) = _
            rw [if_pos (by simp [hitid])]
          · show it.id = some d
            exact hitid
        · obtain ⟨dt, hdt, itt, hitt, hq1, hq2, hq3⟩ :=
            hRtodos t (mem_todosOf.mpr ⟨ha, hm.2⟩)
          have hdtne : dt ≠ d := by
            intro hc
            subst hc
            exact hane (hinv.todoExtUnique t ha t0 ht0 dt hdt hd0)
          refine ⟨dt, hdt, itt, ?_, hq1, hq2, hq3⟩
          refine List.mem_map.mpr ⟨itt, hitt, ?_⟩
          show (if itt.id == some d then
              { itt with description := title', completed := completed' } else itt) = itt
          rw [if_neg]
          intro hc
          have : itt.id = some d := eq_of_beq hc
          rw [hq1] at this
          exact hdtne (Option.some.inj this)
    · obtain ⟨R₀, hR₀, h1, h2, h3, h4⟩ := hinv.syncedMatch l'' hl'' e'' he''
      have hR₀ne : R₀.id ≠ e := by
        rw [h1]
        exact hee
      refine ⟨R₀, ?_, h1, h2, h3, ?_⟩
      · rw [hfst]
        refine List.mem_map.mpr ⟨R₀, hR₀, ?_⟩
        show (if R₀.id == e then { R₀ with items := (R₀.items.map (fun itx =>
            if itx.id == some d then
              { itx with description := title', completed := completed' } else itx)) }
          else R₀) = R₀
        rw [if_neg (fun hc => hR₀ne (eq_of_beq hc))]
      · intro t htl
        have hm := mem_todosOf.mp htl
        rcases hTcase t hm.1 with h | ⟨ha, _⟩
        · exfalso
          subst h
          have hll : t0.listId = l''.id := hm.2
          have hle : l.id = l''.id := by
            rw [hlid]
            exact hll
          have hLL : l = l'' := key_eq_of_nodup_gen TodoList.id hinv.wf.listIdsNodup hl hl'' hle
          rw [← hLL, he] at he''
          exact hee (Option.some.inj he'').symm
        · exact h4 t (mem_todosOf.mpr ⟨ha, hm.2⟩)
  · intro t ht dd hd
    rcases hTcase t ht with h | ⟨h1, _⟩
    · subst h
      have hd' : t0.external_id = some dd := hd
      obtain ⟨m, hm, hmd⟩ := hinv.todoExtShape t0 ht0 dd hd'
      exact ⟨m, by rw [hRnext]; exact hm, hmd⟩
    · obtain ⟨m, hm, hmd⟩ := hinv.todoExtShape t h1 dd hd
      exact ⟨m, by rw [hRnext]; exact hm, hmd⟩
  · intro t1 h1 t2 h2 dd hd1 hd2
    rcases hTcase t1 h1 with ha | ⟨ha, _⟩
    · rcases hTcase t2 h2 with hb | ⟨hb, _⟩
      · subst ha
        subst hb
        rfl
      · subst ha
        have hd1' : t0.external_id = some dd := hd1
        show t0.id = t2.id
        exact hinv.todoExtUnique t0 ht0 t2 hb dd hd1' hd2
    · rcases hTcase t2 h2 with hb | ⟨hb, _⟩
      · subst hb
        have hd2' : t0.external_id = some dd := hd2
        show t1.id = t0.id
        exact hinv.todoExtUnique t1 ha t0 ht0 dd hd1 hd2'
      · exact hinv.todoExtUnique t1 ha t2 hb dd hd1 hd2

/-- A hit in the by-external-id map comes from the list and carries the id. -/
theorem lookupByExternalId_spec {todos : List Todo} {eid : String} {t : Todo}
    (h : SyncService.lookupByExternalId todos eid = some t) :
    t ∈ todos ∧ t.external_id = some eid := by
  unfold SyncService.lookupByExternalId at h
  have hm := List.mem_of_find?_eq_some h
  have hp := List.find?_some h
  refine ⟨(List.mem_filter.mp (List.mem_reverse.mp hm)).1, ?_⟩
  simpa using hp

theorem mem_localPairs {st : Store} {j : Nat} {p : String × Bool} :
    p ∈ localPairs st j ↔ ∃ t ∈ todosOf st j, (t.title, t.completed) = p := by
  simp [localPairs]

theorem mem_remotePairs {R : ExtList} {p : String × Bool} :
    p ∈ remotePairs R ↔ ∃ it ∈ R.items, (it.description, it.completed) = p := by
  simp [remotePairs]

/-- One reconciled item of a synced, matched list: under the reachability
invariant's matching facts the iteration either no-ops (the item already has
its equal local counterpart) or appends a fresh local todo copying the item;
either way the item's `(description, completed)` pair is present afterwards
and nothing else changes. -/
theorem reconcileItem_clean (s : Store) (l : TodoList) (R : ExtList)
    (hmatch : ∀ t ∈ todosOf s l.id, ∃ d, t.external_id = some d ∧
      ∃ it ∈ R.items, it.id = some d ∧ it.description = t.title ∧ it.completed = t.completed)
    (hitemNodup : (R.items.map ExtItem.id).Nodup)
    (hitemIds : ∀ it ∈ R.items, ∃ m, it.id = some (mkItemExtId m))
    (it0 : ExtItem) (hit0 : it0 ∈ R.items)
    (st : Store) (ws : List Write)
    (hB : ∀ t ∈ st.todos, t.id < st.nextTodoId)
    (hf : ∀ t ∈ todosOf s l.id, t ∈ todosOf st l.id) :
    (SyncService.reconcileItem (todosOf s l.id) l (st, ws) it0).1.lists = st.lists ∧
    (SyncService.reconcileItem (todosOf s l.id) l (st, ws) it0).1.nextListId = st.nextListId ∧
    st.nextTodoId ≤ (SyncService.reconcileItem (todosOf s l.id) l (st, ws) it0).1.nextTodoId ∧
    (∀ t ∈ (SyncService.reconcileItem (todosOf s l.id) l (st, ws) it0).1.todos,
      t.id < (SyncService.reconcileItem (todosOf s l.id) l (st, ws) it0).1.nextTodoId) ∧
    (∀ j, j ≠ l.id →
      todosOf (SyncService.reconcileItem (todosOf s l.id) l (st, ws) it0).1 j = todosOf st j) ∧
    (∀ t ∈ st.todos, t ∈ (SyncService.reconcileItem (todosOf s l.id) l (st, ws) it0).1.todos) ∧
    (∀ t ∈ todosOf (SyncService.reconcileItem (todosOf s l.id) l (st, ws) it0).1 l.id,
      t ∈ todosOf st l.id ∨ (t.title, t.completed) ∈ remotePairs R) ∧
    (it0.description, it0.completed) ∈
      localPairs (SyncService.reconcileItem (todosOf s l.id) l (st, ws) it0).1 l.id := by
  obtain ⟨m, hid⟩ := hitemIds it0 hit0
  have hsf : strFalsy it0.id = false := by
    rw [hid]
    simp [strFalsy, mkItemExtId_ne_empty m]
  have heid : it0.id.getD "" = mkItemExtId m := by rw [hid]; rfl
  cases hlk : SyncService.lookupByExternalId (todosOf s l.id) (it0.id.getD "") with
  | some t =>
    obtain ⟨htmem, htext⟩ := lookupByExternalId_spec hlk
    obtain ⟨d, hd, it', hit', hit'id, hdesc, hcomp⟩ := hmatch t htmem
    have hdeq : d = it0.id.getD "" := by
      rw [htext] at hd
      exact (Option.some.inj hd).symm
    have hiteq : it' = it0 := by
      apply key_eq_of_nodup_gen ExtItem.id hitemNodup hit' hit0
      rw [hit'id, hdeq, heid, hid]
    rw [hiteq] at hdesc hcomp
    have hcond : (t.title != it0.description || t.completed != it0.completed) = false := by
      rw [hdesc, hcomp]
      simp
    have hres : SyncService.reconcileItem (todosOf s l.id) l (st, ws) it0 = (st, ws) := by
      unfold SyncService.reconcileItem
      simp only [hsf, Bool.false_eq_true, if_false, hlk, hcond]
    rw [hres]
    refine ⟨rfl, rfl, le_refl _, hB, fun j _ => rfl, fun t' ht' => ht', fun t' ht' => Or.inl ht', ?_⟩
    exact mem_localPairs.mpr ⟨t, hf t htmem, by rw [hdesc, hcomp]⟩
  | none =>
    have hfresh : upsertTodo st.todos
        ⟨st.nextTodoId, it0.id, it0.description, it0.completed, l.id⟩ =
        st.todos ++ [⟨st.nextTodoId, it0.id, it0.description, it0.completed, l.id⟩] := by
      apply upsertBy_fresh
      intro y hy
      exact Nat.ne_of_lt (hB y hy)
    have hres : SyncService.reconcileItem (todosOf s l.id) l (st, ws) it0 =
        (st.saveTodo ⟨st.nextTodoId, it0.id, it0.description, it0.completed, l.id⟩,
         ws ++ [Write.saveTodo ⟨st.nextTodoId, it0.id, it0.description, it0.completed, l.id⟩]) := by
      unfold SyncService.reconcileItem
      simp only [hsf, Bool.false_eq_true, if_false, hlk]
      rfl
    rw [hres]
    have htodos' : (st.saveTodo
        ⟨st.nextTodoId, it0.id, it0.description, it0.completed, l.id⟩).todos =
        st.todos ++ [⟨st.nextTodoId, it0.id, it0.description, it0.completed, l.id⟩] := hfresh
    have hnext' : (st.saveTodo
        ⟨st.nextTodoId, it0.id, it0.description, it0.completed, l.id⟩).nextTodoId =
        st.nextTodoId + 1 := by
      show max st.nextTodoId (st.nextTodoId + 1) = st.nextTodoId + 1
      exact Nat.max_eq_right (Nat.le_succ _)
    refine ⟨rfl, rfl, ?_, ?_, ?_, ?_, ?_, ?_⟩
    · rw [hnext']
      exact Nat.le_succ _
    · intro t ht
      rw [htodos'] at ht
      rw [hnext']
      rcases List.mem_append.mp ht with h1 | h2
      · exact Nat.lt_succ_of_lt (hB t h1)
      · rw [List.mem_singleton.mp h2]
        exact Nat.lt_succ_self _
    · intro j hj
      show ((st.saveTodo _).todos.filter (fun t => t.listId == j)) = _
      rw [show (st.saveTodo ⟨st.nextTodoId, it0.id, it0.description, it0.completed, l.id⟩).todos
          = st.todos ++ [⟨st.nextTodoId, it0.id, it0.description, it0.completed, l.id⟩] from hfresh]
      rw [List.filter_append]
      have : ([(⟨st.nextTodoId, it0.id, it0.description, it0.completed, l.id⟩ : Todo)].filter
          (fun t => t.listId == j)) = [] := by
        simp [show (l.id == j) = false by simpa using (Ne.symm hj)]
      rw [this, List.append_nil]
      rfl
    · intro t ht
      rw [htodos']
      exact List.mem_append.mpr (Or.inl ht)
    · intro t ht
      rw [mem_todosOf] at ht
      obtain ⟨htm, htl⟩ := ht
      rw [htodos'] at htm
      rcases List.mem_append.mp htm with h1 | h2
      · exact Or.inl (mem_todosOf.mpr ⟨h1, htl⟩)
      · right
        rw [List.mem_singleton.mp h2]
        exact mem_remotePairs.mpr ⟨it0, hit0, rfl⟩
    · apply mem_localPairs.mpr
      refine ⟨⟨st.nextTodoId, it0.id, it0.description, it0.completed, l.id⟩, ?_, rfl⟩
      rw [mem_todosOf, htodos']
      exact ⟨List.mem_append.mpr (Or.inr (List.mem_singleton.mpr rfl)), rfl⟩

/-- The whole item loop of a synced, matched list: afterwards the local
`(description, completed)` pairs of the list cover exactly the remote
pairs plus the original local ones (which are themselves remote pairs),
and no other list's todos change. -/
theorem reconcileItems_clean (s : Store) (l : TodoList) (R : ExtList)
    (hmatch : ∀ t ∈ todosOf s l.id, ∃ d, t.external_id = some d ∧
      ∃ it ∈ R.items, it.id = some d ∧ it.description = t.title ∧ it.completed = t.completed)
    (hitemNodup : (R.items.map ExtItem.id).Nodup)
    (hitemIds : ∀ it ∈ R.items, ∃ m, it.id = some (mkItemExtId m)) :
    ∀ (its : List ExtItem), (∀ it ∈ its, it ∈ R.items) →
    ∀ (st : Store) (ws : List Write),
      (∀ t ∈ st.todos, t.id < st.nextTodoId) →
      (∀ t ∈ todosOf s l.id, t ∈ todosOf st l.id) →
      (∀ t ∈ todosOf st l.id, t ∈ todosOf s l.id ∨ (t.title, t.completed) ∈ remotePairs R) →
      (∀ it ∈ R.items, it ∈ its ∨ (it.description, it.completed) ∈ localPairs st l.id) →
      (its.foldl (SyncService.reconcileItem (todosOf s l.id) l) (st, ws)).1.lists = st.lists ∧
      (its.foldl (SyncService.reconcileItem (todosOf s l.id) l) (st, ws)).1.nextListId = st.nextListId ∧
      st.nextTodoId ≤ (its.foldl (SyncService.reconcileItem (todosOf s l.id) l) (st, ws)).1.nextTodoId ∧
      (∀ t ∈ (its.foldl (SyncService.reconcileItem (todosOf s l.id) l) (st, ws)).1.todos,
        t.id < (its.foldl (SyncService.reconcileItem (todosOf s l.id) l) (st, ws)).1.nextTodoId) ∧
      (∀ j, j ≠ l.id →
        todosOf (its.foldl (SyncService.reconcileItem (todosOf s l.id) l) (st, ws)).1 j = todosOf st j) ∧
      (∀ t ∈ st.todos, t ∈ (its.foldl (SyncService.reconcileItem (todosOf s l.id) l) (st, ws)).1.todos) ∧
      (∀ t ∈ todosOf (its.foldl (SyncService.reconcileItem (todosOf s l.id) l) (st, ws)).1 l.id,
        t ∈ todosOf s l.id ∨ (t.title, t.completed) ∈ remotePairs R) ∧
      (∀ it ∈ R.items,
        (it.description, it.completed) ∈
          localPairs (its.foldl (SyncService.reconcileItem (todosOf s l.id) l) (st, ws)).1 l.id) := by
  intro its
  induction its with
  | nil =>
    intro _ st ws hB hf hfwd hd
    refine ⟨rfl, rfl, le_refl _, hB, fun j _ => rfl, fun t ht => ht, hfwd, ?_⟩
    intro it hit
    rcases hd it hit with hin | hp
    · exact absurd hin (List.not_mem_nil it)
    · exact hp
  | cons it0 rest ih =>
    intro hsub st ws hB hf hfwd hd
    have hit0 : it0 ∈ R.items := hsub it0 (List.mem_cons_self it0 rest)
    obtain ⟨e1, e2, e3, e4, e5, e6, e7, e8⟩ :=
      reconcileItem_clean s l R hmatch hitemNodup hitemIds it0 hit0 st ws hB hf
    simp only [List.foldl_cons]
    have hstep_eta : SyncService.reconcileItem (todosOf s l.id) l (st, ws) it0 =
        ((SyncService.reconcileItem (todosOf s l.id) l (st, ws) it0).1,
         (SyncService.reconcileItem (todosOf s l.id) l (st, ws) it0).2) := rfl
    rw [hstep_eta]
    have hf' : ∀ t ∈ todosOf s l.id,
        t ∈ todosOf (SyncService.reconcileItem (todosOf s l.id) l (st, ws) it0).1 l.id := by
      intro t ht
      have h1 := hf t ht
      rw [mem_todosOf] at h1 ⊢
      exact ⟨e6 t h1.1, h1.2⟩
    have hfwd' : ∀ t ∈ todosOf (SyncService.reconcileItem (todosOf s l.id) l (st, ws) it0).1 l.id,
        t ∈ todosOf s l.id ∨ (t.title, t.completed) ∈ remotePairs R := by
      intro t ht
      exact (e7 t ht).elim (fun h => hfwd t h) Or.inr
    have hmono : ∀ p ∈ localPairs st l.id,
        p ∈ localPairs (SyncService.reconcileItem (todosOf s l.id) l (st, ws) it0).1 l.id := by
      intro p hp
      obtain ⟨t, ht, hpt⟩ := mem_localPairs.mp hp
      refine mem_localPairs.mpr ⟨t, ?_, hpt⟩
      rw [mem_todosOf] at ht ⊢
      exact ⟨e6 t ht.1, ht.2⟩
    have hd' : ∀ it ∈ R.items, it ∈ rest ∨ (it.description, it.completed) ∈
        localPairs (SyncService.reconcileItem (todosOf s l.id) l (st, ws) it0).1 l.id := by
      intro it hit
      rcases hd it hit with hin | hp
      · rcases List.mem_cons.mp hin with rfl | hr
        · exact Or.inr e8
        · exact Or.inl hr
      · exact Or.inr (hmono _ hp)
    obtain ⟨g1, g2, g3, g4, g5, g6, g7, g8⟩ :=
      ih (fun it hit => hsub it (List.mem_cons_of_mem it0 hit))
        (SyncService.reconcileItem (todosOf s l.id) l (st, ws) it0).1
        (SyncService.reconcileItem (todosOf s l.id) l (st, ws) it0).2 e4 hf' hfwd' hd'
    exact ⟨g1.trans e1, g2.trans e2, le_trans e3 g3, g4,
      fun j hj => (g5 j hj).trans (e5 j hj), fun t ht => g6 _ (e6 t ht), g7, g8⟩

theorem deleteListImpl_mem_of_ne {eid : String} {r : Remote} {R : ExtList}
    (hR : R ∈ r.lists) (hne : R.id ≠ eid) : R ∈ (Remote.deleteListImpl eid r).1.lists := by
  unfold Remote.deleteListImpl
  by_cases h : r.lists.any (fun l => l.id == eid) = true
  · rw [if_pos h]
    show R ∈ r.lists.filter _
    exact List.mem_filter.mpr ⟨hR, by simpa using hne⟩
  · rw [if_neg h]
    exact hR

/-- A remote list not addressed by any recorded deletion survives the
reconciler's trailing remote deletions. -/
theorem foldDeletes_mem (dels : List String) :
    ∀ (r : Remote) (R : ExtList), R ∈ r.lists → (∀ eid ∈ dels, R.id ≠ eid) →
    R ∈ (dels.foldl (fun rr eid => (specBackend.deleteList eid rr).1) r).lists := by
  induction dels with
  | nil =>
    intro r R hR _
    exact hR
  | cons e0 rest ih =>
    intro r R hR hne
    simp only [List.foldl_cons]
    exact ih _ R (deleteListImpl_mem_of_ne hR (hne e0 (List.mem_cons_self e0 rest)))
      (fun eid h => hne eid (List.mem_cons_of_mem e0 h))

/-- The with-source loop of a reconciler pass, under the reachability
invariant: the pass leaves the list table untouched, records deletions only
against remote lists whose local counterpart is gone, and brings every synced
local list to `(description, completed)` set equality with its remote
counterpart. -/
theorem reconcileWithSource_fold (s : Store) (r : Remote) (hinv : SysInv s r) :
    ∀ (remaining : List ExtList), remaining.Sublist r.lists →
    ∀ (acc : SyncService.ReconcileAcc),
      acc.store.lists = s.lists →
      (∀ t ∈ acc.store.todos, t.id < acc.store.nextTodoId) →
      (∀ eid ∈ acc.dels, ∃ R ∈ r.lists, R.id = eid ∧
        (parseIntTS (R.source_id.getD "")).bind (findList s) = none) →
      (∀ l ∈ s.lists, ∀ e, l.external_id = some e →
        (todosOf acc.store l.id = todosOf s l.id ∧
          ∃ R ∈ remaining, R.source_id = some (natToStr l.id)) ∨
        ((∃ R ∈ r.lists, R.id = e ∧ R.source_id = some (natToStr l.id) ∧
            sameElems (localPairs acc.store l.id) (remotePairs R)) ∧
          ∀ R ∈ remaining, R.source_id ≠ some (natToStr l.id))) →
      (remaining.foldl (SyncService.reconcileWithSource s) acc).store.lists = s.lists ∧
      (∀ eid ∈ (remaining.foldl (SyncService.reconcileWithSource s) acc).dels,
        ∃ R ∈ r.lists, R.id = eid ∧
        (parseIntTS (R.source_id.getD "")).bind (findList s) = none) ∧
      (∀ l ∈ s.lists, ∀ e, l.external_id = some e →
        ∃ R ∈ r.lists, R.id = e ∧ R.source_id = some (natToStr l.id) ∧
          sameElems
            (localPairs (remaining.foldl (SyncService.reconcileWithSource s) acc).store l.id)
            (remotePairs R)) := by
  intro remaining
  induction remaining with
  | nil =>
    intro _ acc hA hB hD hH
    refine ⟨hA, hD, ?_⟩
    intro l hl e he
    rcases hH l hl e he with ⟨-, R, hR, -⟩ | ⟨⟨R, hR, hRid, hRsrc, hsame⟩, -⟩
    · exact absurd hR (List.not_mem_nil R)
    · exact ⟨R, hR, hRid, hRsrc, hsame⟩
  | cons R0 rest ih =>
    intro hsub acc hA hB hD hH
    have hR0 : R0 ∈ r.lists := hsub.subset (List.mem_cons_self R0 rest)
    have hsub' : rest.Sublist r.lists := List.sublist_of_cons_sublist hsub
    simp only [List.foldl_cons]
    obtain ⟨k', hsrc, hk'lt, hforce⟩ := hinv.remoteSrc R0 hR0
    have hparse : parseIntTS (R0.source_id.getD "") = some k' := by
      rw [hsrc]
      exact parseIntTS_natToStr k'
    cases hcase : (parseIntTS (R0.source_id.getD "")).bind (findList s) with
    | none =>
      have hstep : SyncService.reconcileWithSource s acc R0 =
          ⟨acc.store, acc.writes, acc.dels ++ [R0.id]⟩ := by
        unfold SyncService.reconcileWithSource
        rw [hcase]
      rw [hstep]
      apply ih hsub' ⟨acc.store, acc.writes, acc.dels ++ [R0.id]⟩ hA hB
      · intro eid heid
        rcases List.mem_append.mp heid with h1 | h2
        · exact hD eid h1
        · rw [List.mem_singleton.mp h2]
          exact ⟨R0, hR0, rfl, hcase⟩
      · intro l hl e he
        rcases hH l hl e he with ⟨heq, Rw, hRw, hRwsrc⟩ | ⟨hdone, hnone⟩
        · left
          refine ⟨heq, Rw, ?_, hRwsrc⟩
          rcases List.mem_cons.mp hRw with rfl | hr
          · exfalso
            have : (parseIntTS (Rw.source_id.getD "")).bind (findList s) =
                findList s l.id := by
              rw [hRwsrc]
              show (parseIntTS (natToStr l.id)).bind (findList s) = _
              rw [parseIntTS_natToStr]
              rfl
            rw [hcase] at this
            rw [findList_eq_some_of_mem hinv.wf.listIdsNodup hl] at this
            exact Option.noConfusion this
          · exact hr
        · right
          exact ⟨hdone, fun R hR => hnone R (List.mem_cons_of_mem R0 hR)⟩
    | some l0 =>
      have hfind : findList s k' = some l0 := by
        rw [hparse] at hcase
        exact hcase
      have hl0mem : l0 ∈ s.lists := (findList_mem hfind).1
      have hl0id : l0.id = k' := (findList_mem hfind).2
      have hl0ext : l0.external_id = some R0.id := hforce l0 hl0mem hl0id
      obtain ⟨R₀, hR₀mem, hR₀id, hR₀src, hR₀name, hR₀match⟩ :=
        hinv.syncedMatch l0 hl0mem R0.id hl0ext
      have hR₀eq : R₀ = R0 :=
        key_eq_of_nodup_gen ExtList.id hinv.remoteListIdsNodup hR₀mem hR0 hR₀id
      rw [hR₀eq] at hR₀name hR₀match
      have hpend : todosOf acc.store l0.id = todosOf s l0.id := by
        rcases hH l0 hl0mem R0.id hl0ext with ⟨heq, -⟩ | ⟨-, hnone⟩
        · exact heq
        · exfalso
          apply hnone R0 (List.mem_cons_self R0 rest)
          rw [hsrc, hl0id]
      have hitemIds : ∀ it ∈ R0.items, ∃ m, it.id = some (mkItemExtId m) := by
        intro it hit
        obtain ⟨m, -, hm⟩ := hinv.remoteItemId R0 hR0 it hit
        exact ⟨m, hm⟩
      have hcond : (l0.name != R0.name || l0.external_id != some R0.id) = false := by
        rw [hR₀name, hl0ext]
        simp
      have hstep : SyncService.reconcileWithSource s acc R0 =
          ⟨(R0.items.foldl (SyncService.reconcileItem (todosOf s l0.id) l0)
              (acc.store, acc.writes)).1,
            (R0.items.foldl (SyncService.reconcileItem (todosOf s l0.id) l0)
              (acc.store, acc.writes)).2, acc.dels⟩ := by
        unfold SyncService.reconcileWithSource
        simp only [hcase, hcond, Bool.false_eq_true, if_false]
      rw [hstep]
      obtain ⟨g1, g2, g3, g4, g5, g6, g7, g8⟩ :=
        reconcileItems_clean s l0 R0 hR₀match (hinv.remoteItemIdsNodup R0 hR0) hitemIds
          R0.items (fun it h => h) acc.store acc.writes hB
          (by rw [hpend]; exact fun t ht => ht)
          (by rw [hpend]; exact fun t ht => Or.inl ht)
          (fun it hit => Or.inl hit)
      have hsame0 : sameElems
          (localPairs (R0.items.foldl (SyncService.reconcileItem (todosOf s l0.id) l0)
            (acc.store, acc.writes)).1 l0.id) (remotePairs R0) := by
        intro p
        constructor
        · intro hp
          obtain ⟨t, ht, hpt⟩ := mem_localPairs.mp hp
          rcases g7 t ht with hin | hpr
          · obtain ⟨d, -, it, hit, -, hdesc, hcomp⟩ := hR₀match t hin
            refine mem_remotePairs.mpr ⟨it, hit, ?_⟩
            rw [hdesc, hcomp, hpt]
          · rw [← hpt]
            exact hpr
        · intro hp
          obtain ⟨it, hit, hpt⟩ := mem_remotePairs.mp hp
          rw [← hpt]
          exact g8 it hit
      apply ih hsub'
        ⟨(R0.items.foldl (SyncService.reconcileItem (todosOf s l0.id) l0)
            (acc.store, acc.writes)).1,
          (R0.items.foldl (SyncService.reconcileItem (todosOf s l0.id) l0)
            (acc.store, acc.writes)).2, acc.dels⟩
        (g1.trans hA) g4 hD
      intro l hl e he
      by_cases hll : l.id = l0.id
      · have hleq : l = l0 :=
          key_eq_of_nodup_gen TodoList.id hinv.wf.listIdsNodup hl hl0mem hll
        right
        constructor
        · refine ⟨R0, hR0, ?_, ?_, ?_⟩
          · rw [hleq] at he
            rw [hl0ext] at he
            exact Option.some.inj he
          · rw [hsrc, show k' = l.id from (hll.trans hl0id).symm]
          · rw [hll]
            exact hsame0
        · intro R' hR' hR'src
          obtain ⟨k'', hsrc'', -, hforce''⟩ := hinv.remoteSrc R' (hsub'.subset hR')
          rw [hsrc''] at hR'src
          have hk'' : k'' = l.id := natToStr_injective (Option.some.inj hR'src)
          have : l0.external_id = some R'.id := by
            apply hforce'' l0 hl0mem
            exact (hk''.trans hll).symm
          rw [hl0ext] at this
          have hidq : R'.id = R0.id := (Option.some.inj this).symm
          have hnd : ((R0 :: rest).map ExtList.id).Nodup :=
            (List.Sublist.map ExtList.id hsub).nodup hinv.remoteListIdsNodup
          rw [List.map_cons, List.nodup_cons] at hnd
          exact hnd.1 (hidq ▸ List.mem_map_of_mem ExtList.id hR')
      · rcases hH l hl e he with ⟨heq, Rw, hRw, hRwsrc⟩ | ⟨⟨Rd, hRd, hRdid, hRdsrc, hsame⟩, hnone⟩
        · left
          refine ⟨(g5 l.id hll).trans heq, Rw, ?_, hRwsrc⟩
          rcases List.mem_cons.mp hRw with rfl | hr
          · exfalso
            rw [hsrc] at hRwsrc
            have : k' = l.id := natToStr_injective (Option.some.inj hRwsrc)
            rw [← hl0id] at this
            exact hll this.symm
          · exact hr
        · right
          constructor
          · refine ⟨Rd, hRd, hRdid, hRdsrc, ?_⟩
            have hpairs : localPairs (R0.items.foldl
                (SyncService.reconcileItem (todosOf s l0.id) l0)
                (acc.store, acc.writes)).1 l.id = localPairs acc.store l.id := by
              unfold localPairs
              rw [g5 l.id hll]
            rw [hpairs]
            exact hsame
          · exact fun R hR => hnone R (List.mem_cons_of_mem R0 hR)

/-- A full reconciler pass from a state satisfying the reachability
invariant brings every synced local list to `(description, completed)` set
equality with its surviving remote counterpart. -/
theorem syncFromExternal_converges (s : Store) (r : Remote) (hinv : SysInv s r) :
    ∀ l ∈ (SyncService.syncFromExternal specBackend s r).store.lists,
    ∀ e, l.external_id = some e →
      ∃ R ∈ (SyncService.syncFromExternal specBackend s r).remote.lists,
        R.id = e ∧ sameElems
          (localPairs (SyncService.syncFromExternal specBackend s r).store l.id)
          (remotePairs R) := by
  have hwo : r.lists.filter (fun l => strFalsy l.source_id) = [] := by
    apply List.filter_eq_nil_iff.mpr
    intro R hR
    obtain ⟨k, hsrc, -, -⟩ := hinv.remoteSrc R hR
    rw [hsrc]
    simp [strFalsy, natToStr_ne_empty k]
  have hws : r.lists.filter (fun l => !strFalsy l.source_id) = r.lists := by
    apply List.filter_eq_self.mpr
    intro R hR
    obtain ⟨k, hsrc, -, -⟩ := hinv.remoteSrc R hR
    rw [hsrc]
    simp [strFalsy, natToStr_ne_empty k]
  have hcore : SyncService.syncCore r.lists s =
      r.lists.foldl (SyncService.reconcileWithSource s) ⟨s, [], []⟩ := by
    unfold SyncService.syncCore
    simp only [hwo, hws, List.foldl_nil]
  obtain ⟨hFl, hFd, hFh⟩ :=
    reconcileWithSource_fold s r hinv r.lists (List.Sublist.refl _) ⟨s, [], []⟩ rfl
      hinv.wf.todoIdsLt
      (by intro eid h; exact absurd h (List.not_mem_nil eid))
      (by
        intro l hl e he
        left
        refine ⟨rfl, ?_⟩
        obtain ⟨R, hR, -, hRsrc, -, -⟩ := hinv.syncedMatch l hl e he
        exact ⟨R, hR, hRsrc⟩)
  intro l hl e he
  have hls : l ∈ s.lists := by
    have hl' : l ∈ (SyncService.syncCore r.lists s).store.lists := hl
    rw [hcore, hFl] at hl'
    exact hl'
  obtain ⟨R, hR, hRid, hRsrc, hsame⟩ := hFh l hls e he
  have hpf : (parseIntTS (R.source_id.getD "")).bind (findList s) = some l := by
    rw [hRsrc]
    show (parseIntTS (natToStr l.id)).bind (findList s) = some l
    rw [parseIntTS_natToStr]
    show findList s l.id = some l
    exact findList_eq_some_of_mem hinv.wf.listIdsNodup hls
  have hRne : ∀ eid ∈ (SyncService.syncCore r.lists s).dels, R.id ≠ eid := by
    intro eid heid hq
    have heid' : eid ∈ (r.lists.foldl (SyncService.reconcileWithSource s) ⟨s, [], []⟩).dels := by
      rw [← hcore]
      exact heid
    obtain ⟨Rb, hRb, hRbid, hRbnone⟩ := hFd eid heid'
    have hReq : R = Rb :=
      key_eq_of_nodup_gen ExtList.id hinv.remoteListIdsNodup hR hRb (by rw [hq, hRbid])
    rw [← hReq] at hRbnone
    rw [hpf] at hRbnone
    exact Option.noConfusion hRbnone
  have hmem : R ∈ ((SyncService.syncCore r.lists s).dels.foldl
      (fun rr eid => (specBackend.deleteList eid rr).1) r).lists :=
    foldDeletes_mem (SyncService.syncCore r.lists s).dels r R hR hRne
  have hsame' : sameElems (localPairs (SyncService.syncCore r.lists s).store l.id)
      (remotePairs R) := by
    rw [hcore]
    exact hsame
  exact ⟨R, hmem, hRid, hsame'⟩

/-- The empty initial system satisfies the reachability invariant. -/
theorem SysInv_init : SysInv Store.init Remote.init := by
  refine ⟨⟨?_, ?_, ?_, ?_, ?_, ?_, ?_⟩, ?_, ?_, ?_, ?_, ?_, ?_, ?_, ?_, ?_⟩ <;>
    simp [Store.init, Remote.init, todosOf]

/-- The permanently-unsynced warning flag never resets. -/
theorem sysStep_warn_mono (st : SysState) (m : Mutation)
    (h : st.unsyncWarned = true) : (sysStep st m).unsyncWarned = true := by
  unfold sysStep
  cases hmut : applyMutation st.store m with
  | mk s1 oev =>
    cases oev with
    | none => exact h
    | some ev =>
      show (st.unsyncWarned || _) = true
      rw [h]
      rfl

/-- One warning-free system step (local mutation plus immediate delivery of
its outbound event to the reference server) preserves the reachability
invariant. -/
theorem sysStep_SysInv (st : SysState) (m : Mutation)
    (hinv : SysInv st.store st.remote)
    (hw : (sysStep st m).unsyncWarned = false) :
    SysInv (sysStep st m).store (sysStep st m).remote := by
  cases m with
  | createList name =>
    have hmut : applyMutation st.store (Mutation.createList name) =
        (st.store.saveList ⟨st.store.nextListId, none, name⟩,
         some ⟨"create-todo-list", st.store.nextListId⟩) := rfl
    have hgoal : sysStep st (Mutation.createList name) =
        ⟨(SyncService.handleSyncEvent specBackend ⟨"create-todo-list", st.store.nextListId⟩
            (st.store.saveList ⟨st.store.nextListId, none, name⟩) st.remote).store,
          (SyncService.handleSyncEvent specBackend ⟨"create-todo-list", st.store.nextListId⟩
            (st.store.saveList ⟨st.store.nextListId, none, name⟩) st.remote).remote,
          st.unsyncWarned ||
            (SyncService.handleSyncEvent specBackend ⟨"create-todo-list", st.store.nextListId⟩
              (st.store.saveList ⟨st.store.nextListId, none, name⟩) st.remote).unsyncWarn⟩ := by
      unfold sysStep
      rw [hmut]
    rw [hgoal, dispatch_create_list]
    have hinv1 := SysInv_saveList_freshUnsynced st.store st.remote name hinv
    have hfind1 : findList (st.store.saveList ⟨st.store.nextListId, none, name⟩)
        st.store.nextListId = some ⟨st.store.nextListId, none, name⟩ :=
      findList_saveList_self st.store ⟨st.store.nextListId, none, name⟩
    exact createTodoList_SysInv _ _ _ _ hinv1 hfind1 rfl
  | renameList i nm =>
    cases hf : findList st.store i with
    | none =>
      have hgoal : sysStep st (Mutation.renameList i nm) = { st with store := st.store } := by
        unfold sysStep
        have hmut : applyMutation st.store (Mutation.renameList i nm) = (st.store, none) := by
          show TodoListsService.update st.store i nm = (st.store, none)
          unfold TodoListsService.update
          rw [hf]
        rw [hmut]
      rw [hgoal]
      exact hinv
    | some l =>
      have hlmem : l ∈ st.store.lists := (findList_mem hf).1
      have hli : l.id = i := (findList_mem hf).2
      have hmut : applyMutation st.store (Mutation.renameList i nm) =
          (st.store.saveList { l with name := nm }, some ⟨"update-todo-list", i⟩) := by
        show TodoListsService.update st.store i nm = _
        unfold TodoListsService.update
        rw [hf]
      have hgoal : sysStep st (Mutation.renameList i nm) =
          ⟨(SyncService.handleSyncEvent specBackend ⟨"update-todo-list", i⟩
              (st.store.saveList { l with name := nm }) st.remote).store,
            (SyncService.handleSyncEvent specBackend ⟨"update-todo-list", i⟩
              (st.store.saveList { l with name := nm }) st.remote).remote,
            st.unsyncWarned ||
              (SyncService.handleSyncEvent specBackend ⟨"update-todo-list", i⟩
                (st.store.saveList { l with name := nm }) st.remote).unsyncWarn⟩ := by
        unfold sysStep
        rw [hmut]
      have hfind1 : findList (st.store.saveList { l with name := nm }) i =
          some { l with name := nm } := by
        rw [← hli]
        exact findList_saveList_self st.store { l with name := nm }
      cases hx : l.external_id with
      | none =>
        rw [hgoal, dispatch_update_list]
        have hinv1 := SysInv_rename_unsynced st.store st.remote l nm hinv hlmem hx
        have hdel := updateTodoList_delegate specBackend
          (st.store.saveList { l with name := nm }) st.remote i { l with name := nm }
          hfind1 (by show truthy l.external_id = false; rw [hx]; rfl)
        rw [hdel]
        exact createTodoList_SysInv _ _ { l with name := nm } i hinv1 hfind1 hx
      | some e =>
        rw [hgoal, dispatch_update_list]
        have hene : e ≠ "" := by
          intro hc
          apply hinv.wf.listExtNe l hlmem
          rw [hx, hc]
        obtain ⟨R, hR, hRid, -, -, -⟩ := hinv.syncedMatch l hlmem e hx
        have hany : st.remote.lists.any (fun L => L.id == e) = true :=
          List.any_eq_true.mpr ⟨R, hR, by simp [hRid]⟩
        have htrx : truthy ({ l with name := nm } : TodoList).external_id = true := by
          show truthy l.external_id = true
          rw [hx]
          exact truthy_some_of_ne hene
        have hp : specBackend.patchList
            (({ l with name := nm } : TodoList).external_id.getD "")
            ({ l with name := nm } : TodoList).name st.remote =
            ((Remote.patchListImpl e nm st.remote).1, true) := by
          show Remote.patchListImpl (l.external_id.getD "") nm st.remote = _
          rw [hx]
          exact patchListImpl_found_any hany
        have hpatch := updateTodoList_patch specBackend
          (st.store.saveList { l with name := nm }) st.remote i { l with name := nm }
          (Remote.patchListImpl e nm st.remote).1 true hfind1 htrx hp
        rw [hpatch]
        exact SysInv_rename_synced st.store st.remote l e nm hinv hlmem hx
  | removeList i =>
    cases hf : findList st.store i with
    | none =>
      have hgoal : sysStep st (Mutation.removeList i) = { st with store := st.store } := by
        unfold sysStep
        have hmut : applyMutation st.store (Mutation.removeList i) = (st.store, none) := by
          show TodoListsService.delete st.store i = (st.store, none)
          unfold TodoListsService.delete
          rw [hf]
        rw [hmut]
      rw [hgoal]
      exact hinv
    | some l =>
      have hmut : applyMutation st.store (Mutation.removeList i) =
          (({ st.store with lists := (st.store.lists.filter (fun l => !(l.id == i))), todos := (st.store.todos.filter (fun t => !(t.listId == i))) }),
           some ⟨"delete-todo-list", i⟩) := by
        show TodoListsService.delete st.store i = _
        unfold TodoListsService.delete
        rw [hf]
      have hgoal : sysStep st (Mutation.removeList i) =
          ⟨(SyncService.handleSyncEvent specBackend ⟨"delete-todo-list", i⟩
              ({ st.store with lists := (st.store.lists.filter (fun l => !(l.id == i))), todos := (st.store.todos.filter (fun t => !(t.listId == i))) }) st.remote).store,
            (SyncService.handleSyncEvent specBackend ⟨"delete-todo-list", i⟩
              ({ st.store with lists := (st.store.lists.filter (fun l => !(l.id == i))), todos := (st.store.todos.filter (fun t => !(t.listId == i))) }) st.remote).remote,
            st.unsyncWarned ||
              (SyncService.handleSyncEvent specBackend ⟨"delete-todo-list", i⟩
                ({ st.store with lists := (st.store.lists.filter (fun l => !(l.id == i))), todos := (st.store.todos.filter (fun t => !(t.listId == i))) }) st.remote).unsyncWarn⟩ := by
        unfold sysStep
        rw [hmut]
      rw [hgoal, dispatch_delete_list]
      have hfind1 : findList ({ st.store with
          lists := (st.store.lists.filter (fun l => !(l.id == i))),
          todos := (st.store.todos.filter (fun t => !(t.listId == i))) }) i = none :=
        find?_key_filter_ne TodoList.id st.store.lists i
      have hnoop := deleteTodoList_noRow specBackend
        ({ st.store with lists := (st.store.lists.filter (fun l => !(l.id == i))), todos := (st.store.todos.filter (fun t => !(t.listId == i))) })
        st.remote i hfind1
      rw [hnoop]
      exact SysInv_removeList st.store st.remote i hinv
  | createItem lid title =>
    cases hf : findList st.store lid with
    | none =>
      have hgoal : sysStep st (Mutation.createItem lid title) =
          { st with store := st.store } := by
        unfold sysStep
        have hmut : applyMutation st.store (Mutation.createItem lid title) =
            (st.store, none) := by
          show TodosService.create st.store lid title = (st.store, none)
          unfold TodosService.create
          rw [hf]
        rw [hmut]
      rw [hgoal]
      exact hinv
    | some l =>
      have hlmem : l ∈ st.store.lists := (findList_mem hf).1
      have hli : l.id = lid := (findList_mem hf).2
      have hmut : applyMutation st.store (Mutation.createItem lid title) =
          (st.store.saveTodo ⟨st.store.nextTodoId, none, title, false, lid⟩,
           some ⟨"create-todo-item", st.store.nextTodoId⟩) := by
        show TodosService.create st.store lid title = _
        unfold TodosService.create
        rw [hf]
      have hgoal : sysStep st (Mutation.createItem lid title) =
          ⟨(SyncService.handleSyncEvent specBackend ⟨"create-todo-item", st.store.nextTodoId⟩
              (st.store.saveTodo ⟨st.store.nextTodoId, none, title, false, lid⟩)
              st.remote).store,
            (SyncService.handleSyncEvent specBackend ⟨"create-todo-item", st.store.nextTodoId⟩
              (st.store.saveTodo ⟨st.store.nextTodoId, none, title, false, lid⟩)
              st.remote).remote,
            st.unsyncWarned ||
              (SyncService.handleSyncEvent specBackend
                ⟨"create-todo-item", st.store.nextTodoId⟩
                (st.store.saveTodo ⟨st.store.nextTodoId, none, title, false, lid⟩)
                st.remote).unsyncWarn⟩ := by
        unfold sysStep
        rw [hmut]
      have hT : findTodo (st.store.saveTodo ⟨st.store.nextTodoId, none, title, false, lid⟩)
          st.store.nextTodoId = some ⟨st.store.nextTodoId, none, title, false, lid⟩ :=
        findTodo_saveTodo_self st.store ⟨st.store.nextTodoId, none, title, false, lid⟩
      have hL1 : findList (st.store.saveTodo ⟨st.store.nextTodoId, none, title, false, lid⟩)
          ((⟨st.store.nextTodoId, none, title, false, lid⟩ : Todo).listId) = some l := hf
      cases hx : l.external_id with
      | some e =>
        exfalso
        have hene : e ≠ "" := by
          intro hc
          apply hinv.wf.listExtNe l hlmem
          rw [hx, hc]
        have hwarn := createTodoItem_warn specBackend
          (st.store.saveTodo ⟨st.store.nextTodoId, none, title, false, lid⟩) st.remote
          st.store.nextTodoId ⟨st.store.nextTodoId, none, title, false, lid⟩ l hT hL1
          rfl (by show truthy l.external_id = true; rw [hx]; exact truthy_some_of_ne hene)
        rw [hgoal, dispatch_create_item, hwarn] at hw
        simp at hw
      | none =>
        rw [hgoal, dispatch_create_item]
        have hinv1 : SysInv
            (st.store.saveTodo ⟨st.store.nextTodoId, none, title, false, lid⟩) st.remote := by
          rw [← hli]
          exact SysInv_saveTodo_freshUnsynced st.store st.remote l title hinv hlmem hx
        have hfind1 : findList
            (st.store.saveTodo ⟨st.store.nextTodoId, none, title, false, lid⟩) l.id =
            some l := by
          show findList st.store l.id = some l
          rw [hli]
          exact hf
        obtain ⟨herr, hrm, hself, hfr, htodos, htfr⟩ :=
          createTodoList_spec
            (st.store.saveTodo ⟨st.store.nextTodoId, none, title, false, lid⟩) st.remote
            l l.id hinv1.wf hfind1
            (by show truthy l.external_id = false; rw [hx]; rfl)
        have htmem : (⟨st.store.nextTodoId, none, title, false, lid⟩ : Todo) ∈
            todosOf (st.store.saveTodo ⟨st.store.nextTodoId, none, title, false, lid⟩)
              l.id := by
          refine mem_todosOf.mpr ⟨self_mem_upsertBy _ _, ?_⟩
          show lid = l.id
          exact hli.symm
        obtain ⟨k, hk⟩ := exists_mem_enumFrom 0 htmem
        have hu := htodos (k, ⟨st.store.nextTodoId, none, title, false, lid⟩) hk
        have hut : truthy ({ (⟨st.store.nextTodoId, none, title, false, lid⟩ : Todo) with
            external_id := some (mkItemExtId (st.remote.nextId + 1 + k)) } : Todo).external_id
            = true := truthy_some_of_ne (mkItemExtId_ne_empty _)
        have hdel := createTodoItem_delegate specBackend
          (st.store.saveTodo ⟨st.store.nextTodoId, none, title, false, lid⟩) st.remote
          st.store.nextTodoId ⟨st.store.nextTodoId, none, title, false, lid⟩ l
          { (⟨st.store.nextTodoId, none, title, false, lid⟩ : Todo) with
            external_id := some (mkItemExtId (st.remote.nextId + 1 + k)) }
          hT hL1 rfl (by show truthy l.external_id = false; rw [hx]; rfl) herr hu hut
        rw [hdel]
        exact createTodoList_SysInv _ _ l l.id hinv1 hfind1 hx
  | updateItem i t c =>
    cases ht : findTodo st.store i with
    | none =>
      have hgoal : sysStep st (Mutation.updateItem i t c) = { st with store := st.store } := by
        unfold sysStep
        have hmut : applyMutation st.store (Mutation.updateItem i t c) = (st.store, none) := by
          show TodosService.update st.store i t c = (st.store, none)
          unfold TodosService.update
          rw [ht]
        rw [hmut]
      rw [hgoal]
      exact hinv
    | some t0 =>
      have ht0mem : t0 ∈ st.store.todos := (findTodo_mem ht).1
      have hti : t0.id = i := (findTodo_mem ht).2
      obtain ⟨l, hl, hlid⟩ := hinv.wf.todoRef t0 ht0mem
      have hmut : applyMutation st.store (Mutation.updateItem i t c) = (st.store.saveTodo { t0 with title := t.getD t0.title, completed := c.getD t0.completed }, some ⟨"update-todo-item", i⟩) := by
        show TodosService.update st.store i t c = _
        unfold TodosService.update
        rw [ht]
      have hgoal : sysStep st (Mutation.updateItem i t c) = ⟨(SyncService.handleSyncEvent specBackend ⟨"update-todo-item", i⟩ (st.store.saveTodo { t0 with title := t.getD t0.title, completed := c.getD t0.completed }) st.remote).store, (SyncService.handleSyncEvent specBackend ⟨"update-todo-item", i⟩ (st.store.saveTodo { t0 with title := t.getD t0.title, completed := c.getD t0.completed }) st.remote).remote, st.unsyncWarned || (SyncService.handleSyncEvent specBackend ⟨"update-todo-item", i⟩ (st.store.saveTodo { t0 with title := t.getD t0.title, completed := c.getD t0.completed }) st.remote).unsyncWarn⟩ := by
        unfold sysStep
        rw [hmut]
      have hT1 : findTodo (st.store.saveTodo { t0 with title := t.getD t0.title, completed := c.getD t0.completed }) i = some { t0 with title := t.getD t0.title, completed := c.getD t0.completed } := by
        rw [← hti]
        exact findTodo_saveTodo_self st.store _
      have hL1 : findList (st.store.saveTodo { t0 with title := t.getD t0.title, completed := c.getD t0.completed }) (({ t0 with title := t.getD t0.title, completed := c.getD t0.completed } : Todo).listId) = some l := by
        show findList st.store t0.listId = some l
        rw [← hlid]
        exact findList_eq_some_of_mem hinv.wf.listIdsNodup hl
      cases hx : t0.external_id with
      | none =>
        have hdel1 := updateTodoItem_toCreate specBackend (st.store.saveTodo { t0 with title := t.getD t0.title, completed := c.getD t0.completed }) st.remote i { t0 with title := t.getD t0.title, completed := c.getD t0.completed } l hT1 hL1 (by show truthy t0.external_id = false; rw [hx]; rfl)
        cases hlx : l.external_id with
        | some e =>
          exfalso
          have hene : e ≠ "" := by
            intro hc
            apply hinv.wf.listExtNe l hl
            rw [hlx, hc]
          have hwarn := createTodoItem_warn specBackend (st.store.saveTodo { t0 with title := t.getD t0.title, completed := c.getD t0.completed }) st.remote i { t0 with title := t.getD t0.title, completed := c.getD t0.completed } l hT1 hL1 (by show truthy t0.external_id = false; rw [hx]; rfl) (by show truthy l.external_id = true; rw [hlx]; exact truthy_some_of_ne hene)
          rw [hgoal, dispatch_update_item, hdel1, hwarn] at hw
          simp at hw
        | none =>
          rw [hgoal, dispatch_update_item, hdel1]
          have hinv1 : SysInv (st.store.saveTodo { t0 with title := t.getD t0.title, completed := c.getD t0.completed }) st.remote :=
            SysInv_saveTodo_updUnsynced st.store st.remote t0 _ _ hinv ht0mem hx
          have hfind1 : findList (st.store.saveTodo { t0 with title := t.getD t0.title, completed := c.getD t0.completed }) l.id = some l := by
            show findList st.store l.id = some l
            exact findList_eq_some_of_mem hinv.wf.listIdsNodup hl
          obtain ⟨herr, hrm, hself, hfr, htodos, htfr⟩ :=
            createTodoList_spec (st.store.saveTodo { t0 with title := t.getD t0.title, completed := c.getD t0.completed }) st.remote l l.id hinv1.wf hfind1 (by show truthy l.external_id = false; rw [hlx]; rfl)
          have htmem : ({ t0 with title := t.getD t0.title, completed := c.getD t0.completed } : Todo) ∈ todosOf (st.store.saveTodo { t0 with title := t.getD t0.title, completed := c.getD t0.completed }) l.id := by
            refine mem_todosOf.mpr ⟨self_mem_upsertBy _ _, ?_⟩
            show t0.listId = l.id
            exact hlid.symm
          obtain ⟨k, hk⟩ := exists_mem_enumFrom 0 htmem
          have hu := htodos (k, { t0 with title := t.getD t0.title, completed := c.getD t0.completed }) hk
          have hui : findTodo (SyncService.createTodoList specBackend (st.store.saveTodo { t0 with title := t.getD t0.title, completed := c.getD t0.completed }) st.remote l.id).store i = some { ({ t0 with title := t.getD t0.title, completed := c.getD t0.completed } : Todo) with external_id := some (mkItemExtId (st.remote.nextId + 1 + k)) } := by
            rw [← hti]
            exact hu
          have hut : truthy ({ ({ t0 with title := t.getD t0.title, completed := c.getD t0.completed } : Todo) with external_id := some (mkItemExtId (st.remote.nextId + 1 + k)) } : Todo).external_id = true :=
            truthy_some_of_ne (mkItemExtId_ne_empty _)
          have hdel2 := createTodoItem_delegate specBackend (st.store.saveTodo { t0 with title := t.getD t0.title, completed := c.getD t0.completed }) st.remote i { t0 with title := t.getD t0.title, completed := c.getD t0.completed } l { ({ t0 with title := t.getD t0.title, completed := c.getD t0.completed } : Todo) with external_id := some (mkItemExtId (st.remote.nextId + 1 + k)) } hT1 hL1 (by show truthy t0.external_id = false; rw [hx]; rfl) (by show truthy l.external_id = false; rw [hlx]; rfl) herr hui hut
          rw [hdel2]
          exact createTodoList_SysInv _ _ l l.id hinv1 hfind1 hlx
      | some d =>
        rw [hgoal, dispatch_update_item]
        have hdne : d ≠ "" := by
          intro hc
          apply hinv.wf.todoExtNe t0 ht0mem
          rw [hx, hc]
        have hlsync : ∃ e, l.external_id = some e := by
          cases hle : l.external_id with
          | some e => exact ⟨e, rfl⟩
          | none =>
            exfalso
            have hcl := (hinv.unsyncedClean l hl hle).2 t0
              (mem_todosOf.mpr ⟨ht0mem, hlid.symm⟩)
            rw [hx] at hcl
            exact absurd hcl (by simp)
        obtain ⟨e, he⟩ := hlsync
        have hene : e ≠ "" := by
          intro hc
          apply hinv.wf.listExtNe l hl
          rw [he, hc]
        obtain ⟨R, hR, hRid, -, -, hRtodos⟩ := hinv.syncedMatch l hl e he
        obtain ⟨d0, hdd, it, hit, hitid, -, -⟩ :=
          hRtodos t0 (mem_todosOf.mpr ⟨ht0mem, hlid.symm⟩)
        have hd0d : d0 = d := by
          rw [hx] at hdd
          exact (Option.some.inj hdd).symm
        rw [hd0d] at hitid
        have hany : st.remote.lists.any (fun L => L.id == e && L.items.any (fun it => it.id == some d)) = true := by
          apply List.any_eq_true.mpr
          refine ⟨R, hR, ?_⟩
          show (R.id == e && R.items.any (fun it => it.id == some d)) = true
          rw [Bool.and_eq_true]
          exact ⟨by simp [hRid], List.any_eq_true.mpr ⟨it, hit, by simp [hitid]⟩⟩
        have hp : specBackend.patchItem (l.external_id.getD "") (({ t0 with title := t.getD t0.title, completed := c.getD t0.completed } : Todo).external_id.getD "") (({ t0 with title := t.getD t0.title, completed := c.getD t0.completed } : Todo).title) (({ t0 with title := t.getD t0.title, completed := c.getD t0.completed } : Todo).completed) st.remote = ((Remote.patchItemImpl e d (t.getD t0.title) (c.getD t0.completed) st.remote).1, true) := by
          show Remote.patchItemImpl (l.external_id.getD "") (t0.external_id.getD "") (t.getD t0.title) (c.getD t0.completed) st.remote = _
          rw [he, hx]
          exact patchItemImpl_found_any hany
        have htrT : truthy ({ t0 with title := t.getD t0.title, completed := c.getD t0.completed } : Todo).external_id = true := by
          show truthy t0.external_id = true
          rw [hx]
          exact truthy_some_of_ne hdne
        have htrL : truthy l.external_id = true := by
          rw [he]
          exact truthy_some_of_ne hene
        have hpatch := updateTodoItem_patch specBackend (st.store.saveTodo { t0 with title := t.getD t0.title, completed := c.getD t0.completed }) st.remote i { t0 with title := t.getD t0.title, completed := c.getD t0.completed } l (Remote.patchItemImpl e d (t.getD t0.title) (c.getD t0.completed) st.remote).1 true hT1 hL1 htrT htrL hp
        rw [hpatch]
        exact SysInv_updateItem_synced st.store st.remote t0 l e d
          (t.getD t0.title) (c.getD t0.completed) hinv ht0mem hl hlid hx he
  | removeItem i =>
    cases ht : findTodo st.store i with
    | none =>
      have hgoal : sysStep st (Mutation.removeItem i) = { st with store := st.store } := by
        unfold sysStep
        have hmut : applyMutation st.store (Mutation.removeItem i) = (st.store, none) := by
          show TodosService.delete st.store i = (st.store, none)
          unfold TodosService.delete
          rw [ht]
        rw [hmut]
      rw [hgoal]
      exact hinv
    | some t0 =>
      have hmut : applyMutation st.store (Mutation.removeItem i) =
          (st.store.deleteTodoRow i, some ⟨"delete-todo-item", i⟩) := by
        show TodosService.delete st.store i = _
        unfold TodosService.delete
        rw [ht]
      have hgoal : sysStep st (Mutation.removeItem i) =
          ⟨(SyncService.handleSyncEvent specBackend ⟨"delete-todo-item", i⟩
              (st.store.deleteTodoRow i) st.remote).store,
            (SyncService.handleSyncEvent specBackend ⟨"delete-todo-item", i⟩
              (st.store.deleteTodoRow i) st.remote).remote,
            st.unsyncWarned ||
              (SyncService.handleSyncEvent specBackend ⟨"delete-todo-item", i⟩
                (st.store.deleteTodoRow i) st.remote).unsyncWarn⟩ := by
        unfold sysStep
        rw [hmut]
      rw [hgoal, dispatch_delete_item]
      have hfind1 : findTodo (st.store.deleteTodoRow i) i = none :=
        find?_key_filter_ne Todo.id st.store.todos i
      have hnoop := deleteTodoItem_noRow specBackend (st.store.deleteTodoRow i)
        st.remote i hfind1
      rw [hnoop]
      exact SysInv_deleteTodoRow st.store st.remote i hinv

/-- Folding the warning flag: once set it stays set across a whole run. -/
theorem sysFold_warn_mono (ms : List Mutation) (st : SysState)
    (h : st.unsyncWarned = true) : (ms.foldl sysStep st).unsyncWarned = true := by
  induction ms generalizing st with
  | nil => exact h
  | cons m ms ih => exact ih (sysStep st m) (sysStep_warn_mono st m h)

/-- The reachability invariant holds after any warning-free fold of system
steps from an invariant state. -/
theorem sysFold_SysInv (ms : List Mutation) (st : SysState)
    (hinv : SysInv st.store st.remote)
    (hw : (ms.foldl sysStep st).unsyncWarned = false) :
    SysInv (ms.foldl sysStep st).store (ms.foldl sysStep st).remote := by
  induction ms generalizing st with
  | nil => exact hinv
  | cons m ms ih =>
    rw [List.foldl_cons] at hw ⊢
    have hw1 : (sysStep st m).unsyncWarned = false := by
      cases hq : (sysStep st m).unsyncWarned
      · rfl
      · rw [sysFold_warn_mono ms (sysStep st m) hq] at hw
        exact absurd hw (by simp)
    exact ih (sysStep st m) (sysStep_SysInv st m hinv hw1) hw

/-- A warning-free run from the empty system lands in the reachability
invariant. -/
theorem sysRun_SysInv (ms : List Mutation)
    (hw : (sysRun ms).unsyncWarned = false) :
    SysInv (sysRun ms).store (sysRun ms).remote :=
  sysFold_SysInv ms ⟨Store.init, Remote.init, false⟩ SysInv_init hw

/-- C2 (amended): convergence holds for warning-free runs.  For every finite
sequence of local mutations whose outbound events are all delivered and
processed against the reference remote server, provided no event hit the
permanently-unsynced warning path, one full Inbound Reconciler pass makes
the local and remote item sets of every synced list equal under
`(description, completed)` comparison.  The original claim's extra clause —
that this also covers items created locally after their list was already
synced — is false: such items take the warning path and stay local-only
(see the counterexample). -/
theorem convergence_warning_free (ms : List Mutation)
    (hw : (sysRun ms).unsyncWarned = false) :
    ∀ l ∈ (SyncService.syncFromExternal specBackend
        (sysRun ms).store (sysRun ms).remote).store.lists,
    ∀ e, l.external_id = some e →
      ∃ R ∈ (SyncService.syncFromExternal specBackend
          (sysRun ms).store (sysRun ms).remote).remote.lists,
        R.id = e ∧ sameElems
          (localPairs (SyncService.syncFromExternal specBackend
            (sysRun ms).store (sysRun ms).remote).store l.id)
          (remotePairs R) :=
  syncFromExternal_converges (sysRun ms).store (sysRun ms).remote (sysRun_SysInv ms hw)

theorem convergence_warning_free_witness :
    (sysRun [Mutation.createList "Groceries"]).unsyncWarned = false ∧
    (∃ R ∈ (SyncService.syncFromExternal specBackend
        (sysRun [Mutation.createList "Groceries"]).store
        (sysRun [Mutation.createList "Groceries"]).remote).remote.lists,
      R.id = "rl-1" ∧ sameElems
        (localPairs (SyncService.syncFromExternal specBackend
          (sysRun [Mutation.createList "Groceries"]).store
          (sysRun [Mutation.createList "Groceries"]).remote).store 1)
        (remotePairs R)) :=
  ⟨by decide, convergence_warning_free [Mutation.createList "Groceries"] (by decide)
    ⟨1, some "rl-1", "Groceries"⟩ (by decide) "rl-1" rfl⟩

/-- Counterexample to C2 as stated: create a list, let its event sync it,
then create an item in the now-synced list and let its event run (the
handler warns and no-ops).  After a full reconciler pass the synced list's
local item set contains `("milk", false)` while no remote list does — the
sets are not equal, so convergence fails precisely for an item created
locally after its list was already synced. -/
theorem convergence_counterexample :
    ∃ l ∈ (SyncService.syncFromExternal specBackend
        (sysRun [Mutation.createList "Groceries", Mutation.createItem 1 "milk"]).store
        (sysRun [Mutation.createList "Groceries", Mutation.createItem 1 "milk"]).remote).store.lists,
      l.external_id = some "rl-1" ∧
      ("milk", false) ∈ localPairs (SyncService.syncFromExternal specBackend
        (sysRun [Mutation.createList "Groceries", Mutation.createItem 1 "milk"]).store
        (sysRun [Mutation.createList "Groceries", Mutation.createItem 1 "milk"]).remote).store l.id ∧
      ∀ R ∈ (SyncService.syncFromExternal specBackend
          (sysRun [Mutation.createList "Groceries", Mutation.createItem 1 "milk"]).store
          (sysRun [Mutation.createList "Groceries", Mutation.createItem 1 "milk"]).remote).remote.lists,
        ("milk", false) ∉ remotePairs R := by
  decide

end TodoSync
